import Mathlib

/-!
# fieri: entity store and expiry debouncer

A shallow embedding of `store/postgres.go`.

* The relational tables are lists of rows; every SQL statement of the source is a
  pure function on the tables.
* Every statement sent to the database goes through `exec` / `query`, which counts
  the statement and consults a fault schedule (`Faults`): statement number `n` may
  be rejected by the driver with a storage error, in which case it has no effect.
* Go `int64` / `int` arithmetic that is written in the source is wrapped to 64 bits
  (`wrap64`).  A `time.Time` is its `int64` second count and nanosecond, with the
  overflow behaviour of `time.Unix` and `Time.Add`; timestamps stored in the tables are
  integers, in nanoseconds since the Unix epoch.
* The goroutine launched by `Start` is the function `sweepTask`; the evaluator
  loop body is `evaluate`.  `evaluateTraced` and `sweepTaskTraced` are the same
  functions together with the accesses they make to the mutex and to the map.
* `Service.run` is the running service along a schedule, an interleaving of three
  kinds of step: a call of `PutEntity` (its statements and its send on `expireChan`,
  taken as one step); the loop body of `Start` for the oldest request sent; and the
  next of the three steps (group deletion, instance deletion, write to the map) of a
  sweep goroutine in flight.
-/

namespace store

/-! ## Machine integers -/

/-- Two-complement wrap of an integer to the range of a Go `int64`. -/
def wrap64 (x : Int) : Int := (x + 9223372036854775808) % 18446744073709551616 - 9223372036854775808

/-- Go `a - b` on `int64`. -/
def sub64 (a b : Int) : Int := wrap64 (a - b)

/-- Go `a * b` on `int64` (also `int` on 64-bit targets and `time.Duration`). -/
def mul64 (a b : Int) : Int := wrap64 (a * b)

/-- Membership in the range of a Go `int64`. -/
def isInt64 (x : Int) : Prop := -9223372036854775808 ≤ x ∧ x < 9223372036854775808

instance (x : Int) : Decidable (isInt64 x) := by unfold isInt64; infer_instance

/-- The constant `time.Second`, in nanoseconds. -/
def Second : Int := 1000000000

/-! ## Errors -/

/-- Errors returned by the store.  The three validation errors are the package
variables `ErrMissingCustomerId`, `ErrMissingInstanceId`, `ErrMissingGroupId`;
`ErrNoRows` is `sql.ErrNoRows`; `duplicateKey` is a unique-constraint violation;
`storage` is any other failure reported by the driver. -/
inductive Err where
  | ErrMissingCustomerId
  | ErrMissingInstanceId
  | ErrMissingGroupId
  | ErrNoRows
  | duplicateKey
  | storage (msg : String)
deriving DecidableEq, Repr

/-! ## Tables -/

/-- One row of table `instances`; `updated_at` in nanoseconds since the epoch. -/
structure InstanceRow where
  id : String
  customer_id : String
  type : String
  data : String
  updated_at : Int
deriving DecidableEq, Repr

/-- One row of table `groups`. -/
structure GroupRow where
  name : String
  customer_id : String
  type : String
  data : String
  updated_at : Int
deriving DecidableEq, Repr

/-- One row of table `groups_instances`. -/
structure LinkRow where
  customer_id : String
  group_name : String
  instance_id : String
deriving DecidableEq, Repr

/-- One row of table `customers`. -/
structure CustomerRow where
  id : String
  last_sync : Int
deriving DecidableEq, Repr

/-- One row of table `route_tables` or of table `subnets`. -/
structure DataRow where
  id : String
  customer_id : String
  data : String
deriving DecidableEq, Repr

/-- The database behind `pg.db`: its tables and the number of statements sent so far. -/
structure DB where
  instances : List InstanceRow
  groups : List GroupRow
  groups_instances : List LinkRow
  customers : List CustomerRow
  route_tables : List DataRow
  subnets : List DataRow
  statements : Nat
deriving DecidableEq, Repr

/-- Fault schedule: `f n = some msg` when the driver rejects statement number `n`. -/
abbrev Faults := Nat → Option String

/-- The schedule under which the driver never fails. -/
def noFaults : Faults := fun _ => none

/-- Send one data-modifying statement (`db.Exec` / `db.NamedExec`).  A statement the
driver rejects, or that violates a constraint, leaves the tables as they were. -/
def exec (f : Faults) (db : DB) (stmt : DB → Except Err DB) : Option Err × DB :=
  match f db.statements with
  | some msg => (some (Err.storage msg), { db with statements := db.statements + 1 })
  | none =>
    match stmt db with
    | Except.error e => (some e, { db with statements := db.statements + 1 })
    | Except.ok db1 => (none, { db1 with statements := db.statements + 1 })

/-- Send one reading statement (`db.Get` / `db.Select`). -/
def query {α : Type} (f : Faults) (db : DB) (q : DB → Except Err α) : Except Err α × DB :=
  match f db.statements with
  | some msg => (Except.error (Err.storage msg), { db with statements := db.statements + 1 })
  | none => (q db, { db with statements := db.statements + 1 })

/-! ## Entities -/

/-- A group as referenced from `Instance.Groups`: the fields `putInstance` reads. -/
structure GroupRef where
  Name : String
  CustomerId : String
  Type_ : String
  Data : String
deriving DecidableEq, Repr

/-- An instance as referenced from `Group.Instances`: the fields `putGroup` reads. -/
structure InstanceRef where
  Id : String
  CustomerId : String
  Type_ : String
  Data : String
deriving DecidableEq, Repr

/-- The Go struct `Instance`. -/
structure Instance where
  Id : String
  CustomerId : String
  Type_ : String
  Data : String
  Groups : List GroupRef
deriving DecidableEq, Repr

/-- The Go struct `Group`. -/
structure Group where
  Name : String
  CustomerId : String
  Type_ : String
  Data : String
  Instances : List InstanceRef
deriving DecidableEq, Repr

/-- The Go structs `RouteTable` and `Subnet`. -/
structure DataEntity where
  Id : String
  CustomerId : String
  Data : String
deriving DecidableEq, Repr

/-- The Go struct `Customer`; `LastSync` in nanoseconds since the epoch. -/
structure Customer where
  Id : String
  LastSync : Int
deriving DecidableEq, Repr

/-- The dynamic type of the `interface{}` argument of `PutEntity`. -/
inductive Entity where
  | ofInstance (i : Instance)
  | ofGroup (g : Group)
  | ofRouteTable (r : DataEntity)
  | ofSubnet (s : DataEntity)
  | other
deriving DecidableEq, Repr

/-- The request struct of the read operations (`InstanceRequest`, `InstancesRequest`,
`GroupRequest`, `GroupsRequest`). -/
structure Options where
  CustomerId : String
  Type_ : String
  GroupId : String
  InstanceId : String
deriving DecidableEq, Repr

/-- The request struct of `GetCustomer`. -/
structure CustomerRequest where
  Id : String
deriving DecidableEq, Repr

/-! ## The expiry tracker -/

/-- A message on `expireChan`. -/
structure expireReq where
  timestamp : Int
  customerId : String
deriving DecidableEq, Repr

/-- The Go map `expirys : map[string]int64`, as an association list with distinct keys. -/
abbrev Expirys := List (String × Int)

/-- Map read `m[k]` with the comma-ok result. -/
def Expirys.get : Expirys → String → Option Int
  | [], _ => none
  | (k1, v1) :: m, k => if k1 = k then some v1 else Expirys.get m k

/-- Map write `m[k] = v`. -/
def Expirys.set : Expirys → String → Int → Expirys
  | [], k, v => [(k, v)]
  | (k1, v1) :: m, k, v => if k1 = k then (k, v) :: m else (k1, v1) :: Expirys.set m k v

/-- The Go struct `Postgres`. -/
structure Postgres where
  db : DB
  expirys : Expirys
  expireInterval : Int
  expireThreshold : Int
deriving DecidableEq, Repr

/-! ## SQL statements -/

/-- The explicit cast `($n::varchar(128))`: an over-long value is cut to 128 characters. -/
def varchar128 (s : String) : String := String.mk (s.data.take 128)

/-- Predicate `id = :id and customer_id = :customer_id` on `instances`. -/
def InstanceRow.hasKey (id customerId : String) (r : InstanceRow) : Bool :=
  r.id == id && r.customer_id == customerId

/-- Predicate `name = :name and customer_id = :customer_id` on `groups`. -/
def GroupRow.hasKey (name customerId : String) (r : GroupRow) : Bool :=
  r.name == name && r.customer_id == customerId

/-- Predicate `customer_id = $1 and group_name = $2 and instance_id = $3` on `groups_instances`. -/
def LinkRow.hasKey (customerId groupName instanceId : String) (r : LinkRow) : Bool :=
  r.customer_id == customerId && r.group_name == groupName && r.instance_id == instanceId

/-- Predicate `customer_id = :customer_id and id = :id` on `route_tables` and `subnets`. -/
def DataRow.hasKey (id customerId : String) (r : DataRow) : Bool :=
  r.id == id && r.customer_id == customerId

/-- Modelled from the spec: the table declarations are not in the source; identity keys
are unique per customer, so an `insert` of a key already present is refused. -/
def insertInstance (db : DB) (r : InstanceRow) : Except Err DB :=
  if db.instances.any (InstanceRow.hasKey r.id r.customer_id) then Except.error Err.duplicateKey
  else Except.ok { db with instances := db.instances ++ [r] }

/-- Modelled from the spec: uniqueness of `(customer_id, name)` on `groups`. -/
def insertGroup (db : DB) (r : GroupRow) : Except Err DB :=
  if db.groups.any (GroupRow.hasKey r.name r.customer_id) then Except.error Err.duplicateKey
  else Except.ok { db with groups := db.groups ++ [r] }

/-- Modelled from the spec: a link row is unique per triple. -/
def insertLink (db : DB) (r : LinkRow) : Except Err DB :=
  if db.groups_instances.any (LinkRow.hasKey r.customer_id r.group_name r.instance_id) then
    Except.error Err.duplicateKey
  else Except.ok { db with groups_instances := db.groups_instances ++ [r] }

/-- Modelled from the spec: uniqueness of `id` on `customers`. -/
def insertCustomer (db : DB) (r : CustomerRow) : Except Err DB :=
  if db.customers.any (fun c => c.id == r.id) then Except.error Err.duplicateKey
  else Except.ok { db with customers := db.customers ++ [r] }

/-- Insert into a `route_tables` / `subnets` table, unique per `(customer_id, id)`. -/
def insertDataRow (t : List DataRow) (r : DataRow) : Except Err (List DataRow) :=
  if t.any (DataRow.hasKey r.id r.customer_id) then Except.error Err.duplicateKey
  else Except.ok (t ++ [r])

/-- Modelled from the spec: the table declarations are not in the source; `updated_at`
is refreshed on every successful write to a row.  The value written is the clock reading
of the write. -/
def writeTime (now : Int) : Int := now

/-- The statement of `putInstance`: `update instances set (type, data) = ... where id and
customer_id`, and an `insert` when the update returned no row. -/
def upsertInstanceStmt (now : Int) (i : Instance) (db : DB) : Except Err DB :=
  if db.instances.any (InstanceRow.hasKey i.Id i.CustomerId) then
    Except.ok { db with instances := db.instances.map (fun r =>
      if r.hasKey i.Id i.CustomerId then
        { r with type := i.Type_, data := i.Data, updated_at := writeTime now } else r) }
  else insertInstance db ⟨i.Id, i.CustomerId, i.Type_, i.Data, writeTime now⟩

/-- The statement of `putGroup`. -/
def upsertGroupStmt (now : Int) (g : Group) (db : DB) : Except Err DB :=
  if db.groups.any (GroupRow.hasKey g.Name g.CustomerId) then
    Except.ok { db with groups := db.groups.map (fun r =>
      if r.hasKey g.Name g.CustomerId then
        { r with type := g.Type_, data := g.Data, updated_at := writeTime now } else r) }
  else insertGroup db ⟨g.Name, g.CustomerId, g.Type_, g.Data, writeTime now⟩

/-- The statement of `putCustomer`. -/
def upsertCustomerStmt (c : Customer) (db : DB) : Except Err DB :=
  if db.customers.any (fun r => r.id == c.Id) then
    Except.ok { db with customers := db.customers.map (fun r =>
      if r.id == c.Id then { r with last_sync := c.LastSync } else r) }
  else insertCustomer db ⟨c.Id, c.LastSync⟩

/-- The statement of `putRouteTable` and `putSubnet`, on the table it names. -/
def upsertDataRow (e : DataEntity) (t : List DataRow) : Except Err (List DataRow) :=
  if t.any (DataRow.hasKey e.Id e.CustomerId) then
    Except.ok (t.map (fun r => if r.hasKey e.Id e.CustomerId then { r with data := e.Data } else r))
  else insertDataRow t ⟨e.Id, e.CustomerId, e.Data⟩

/-- The statement of `ensureInstance`: `insert ... select ($1::varchar(128)) as id, ...
where not exists (select id from instances where id = $1 and customer_id = $2)`. -/
def ensureInstanceStmt (now : Int) (i : InstanceRef) (db : DB) : Except Err DB :=
  if db.instances.any (InstanceRow.hasKey i.Id i.CustomerId) then Except.ok db
  else insertInstance db ⟨varchar128 i.Id, i.CustomerId, i.Type_, i.Data, writeTime now⟩

/-- The statement of `ensureGroup`. -/
def ensureGroupStmt (now : Int) (g : GroupRef) (db : DB) : Except Err DB :=
  if db.groups.any (GroupRow.hasKey g.Name g.CustomerId) then Except.ok db
  else insertGroup db ⟨varchar128 g.Name, g.CustomerId, g.Type_, g.Data, writeTime now⟩

/-- The link statement of `putInstance` and `putGroup`: `insert into groups_instances
select $1, ($2::varchar(128)), ($3::varchar(128)) where not exists (select ... where
customer_id = $1 and group_name = $2 and instance_id = $3)`. -/
def insertLinkStmt (customerId groupName instanceId : String) (db : DB) : Except Err DB :=
  if db.groups_instances.any (LinkRow.hasKey customerId groupName instanceId) then Except.ok db
  else insertLink db ⟨customerId, varchar128 groupName, varchar128 instanceId⟩

/-- The statement `delete from groups where customer_id = $1 and updated_at < $2`. -/
def deleteGroupsStmt (customerId : String) (before : Int) (db : DB) : Except Err DB :=
  Except.ok { db with groups := db.groups.filter (fun r =>
    !(r.customer_id == customerId && decide (r.updated_at < before))) }

/-- The statement `delete from instances where customer_id = $1 and updated_at < $2`. -/
def deleteInstancesStmt (customerId : String) (before : Int) (db : DB) : Except Err DB :=
  Except.ok { db with instances := db.instances.filter (fun r =>
    !(r.customer_id == customerId && decide (r.updated_at < before))) }

/-! ## Write path -/

/-- The method `ensureInstance`. -/
def ensureInstance (f : Faults) (now : Int) (db : DB) (i : InstanceRef) : Option Err × DB :=
  exec f db (ensureInstanceStmt now i)

/-- The method `ensureGroup`. -/
def ensureGroup (f : Faults) (now : Int) (db : DB) (g : GroupRef) : Option Err × DB :=
  exec f db (ensureGroupStmt now g)

/-- The loop `for _, group := range instance.Groups` of `putInstance`. -/
def putInstanceLoop (f : Faults) (now : Int) (instanceId : String) :
    List GroupRef → DB → Option Err × DB
  | [], db => (none, db)
  | g :: gs, db =>
    match ensureGroup f now db g with
    | (some e, db1) => (some e, db1)
    | (none, db1) =>
      match exec f db1 (insertLinkStmt g.CustomerId g.Name instanceId) with
      | (some e, db2) => (some e, db2)
      | (none, db2) => putInstanceLoop f now instanceId gs db2

/-- The method `putInstance`. -/
def putInstance (f : Faults) (now : Int) (db : DB) (i : Instance) : Option Err × DB :=
  match exec f db (upsertInstanceStmt now i) with
  | (some e, db1) => (some e, db1)
  | (none, db1) => putInstanceLoop f now i.Id i.Groups db1

/-- The loop `for _, instance := range group.Instances` of `putGroup`. -/
def putGroupLoop (f : Faults) (now : Int) (customerId groupName : String) :
    List InstanceRef → DB → Option Err × DB
  | [], db => (none, db)
  | i :: is, db =>
    match ensureInstance f now db i with
    | (some e, db1) => (some e, db1)
    | (none, db1) =>
      match exec f db1 (insertLinkStmt customerId groupName i.Id) with
      | (some e, db2) => (some e, db2)
      | (none, db2) => putGroupLoop f now customerId groupName is db2

/-- The method `putGroup`. -/
def putGroup (f : Faults) (now : Int) (db : DB) (g : Group) : Option Err × DB :=
  match exec f db (upsertGroupStmt now g) with
  | (some e, db1) => (some e, db1)
  | (none, db1) => putGroupLoop f now g.CustomerId g.Name g.Instances db1

/-- The method `putCustomer`. -/
def putCustomer (f : Faults) (db : DB) (c : Customer) : Option Err × DB :=
  exec f db (upsertCustomerStmt c)

/-- The method `putRouteTable`. -/
def putRouteTable (f : Faults) (db : DB) (r : DataEntity) : Option Err × DB :=
  exec f db (fun d => (upsertDataRow r d.route_tables).map (fun t => { d with route_tables := t }))

/-- The method `putSubnet`. -/
def putSubnet (f : Faults) (db : DB) (s : DataEntity) : Option Err × DB :=
  exec f db (fun d => (upsertDataRow s d.subnets).map (fun t => { d with subnets := t }))

/-- The method `DeleteInstances`: `delete from instances`. -/
def DeleteInstances (f : Faults) (db : DB) : Option Err × DB :=
  exec f db (fun d => Except.ok { d with instances := [] })

/-- The method `DeleteGroups`: `delete from groups`. -/
def DeleteGroups (f : Faults) (db : DB) : Option Err × DB :=
  exec f db (fun d => Except.ok { d with groups := [] })

/-- What a call of `PutEntity` returns (`response`, `err`), the database it leaves, and
the message it sent on `expireChan`, if any. -/
structure PutResult where
  response : Option Entity
  err : Option Err
  db : DB
  sent : Option expireReq
deriving DecidableEq, Repr

/-- The `switch entity.(type)` of `PutEntity`: the error of the put, the database after
it, the customer id and the response. -/
def putDispatch (f : Faults) (now : Int) (db : DB) (entity : Entity) :
    Option Err × DB × String × Option Entity :=
  match entity with
  | Entity.ofInstance i => ((putInstance f now db i).1, (putInstance f now db i).2, i.CustomerId, some entity)
  | Entity.ofGroup g => ((putGroup f now db g).1, (putGroup f now db g).2, g.CustomerId, some entity)
  | Entity.ofRouteTable r => ((putRouteTable f db r).1, (putRouteTable f db r).2, r.CustomerId, some entity)
  | Entity.ofSubnet s => ((putSubnet f db s).1, (putSubnet f db s).2, s.CustomerId, some entity)
  | Entity.other => (none, db, "", none)

/-- The method `PutEntity`; `now` is the reading of `time.Now()`, in nanoseconds. -/
def PutEntity (f : Faults) (now : Int) (db : DB) (entity : Entity) : PutResult :=
  match putDispatch f now db entity with
  | (some e, db1, _, response) => ⟨response, some e, db1, none⟩
  | (none, db1, customerId, response) =>
    match putCustomer f db1 ⟨customerId, now⟩ with
    | (some e, db2) => ⟨none, some e, db2, none⟩
    | (none, db2) => ⟨response, none, db2, some ⟨now / Second, customerId⟩⟩

/-! ## Expiry -/

/-- The constant `unixToInternal` of package `time`: the seconds from year 1 to 1970. -/
def unixToInternal : Int := 62135596800

/-- A Go `time.Time` without monotonic clock reading: `ext`, the seconds since year 1 as
an `int64`, and `nsec`, the nanosecond within the second. -/
structure Time where
  ext : Int
  nsec : Int
deriving DecidableEq, Repr

/-- Go `time.Unix(sec, 0)`: the sum `sec + unixToInternal` is an `int64` sum. -/
def timeUnix (sec : Int) : Time := ⟨wrap64 (sec + unixToInternal), 0⟩

/-- Go `a / b` on `int64` for positive `b`: the quotient truncated toward zero. -/
def quot64 (a b : Int) : Int := if 0 ≤ a then a / b else -((-a) / b)

/-- Go `a % b` on `int64` for positive `b`: the remainder of the truncated division. -/
def rem64 (a b : Int) : Int := a - b * quot64 a b

/-- Go `Time.addSec`: adds seconds to `ext`, and on `int64` overflow of the sum sets
`ext` to the largest, or to minus the largest, `int64`. -/
def Time.addSec (t : Time) (d : Int) : Time :=
  if (wrap64 (t.ext + d) > t.ext ↔ d > 0) then { t with ext := wrap64 (t.ext + d) }
  else if d > 0 then { t with ext := 9223372036854775807 }
  else { t with ext := -9223372036854775807 }

/-- Go `Time.Add` for a duration `d` in nanoseconds. -/
def Time.Add (t : Time) (d : Int) : Time :=
  if t.nsec + rem64 d 1000000000 ≥ 1000000000 then
    Time.addSec { t with nsec := t.nsec + rem64 d 1000000000 - 1000000000 }
      (wrap64 (quot64 d 1000000000 + 1))
  else if t.nsec + rem64 d 1000000000 < 0 then
    Time.addSec { t with nsec := t.nsec + rem64 d 1000000000 + 1000000000 }
      (wrap64 (quot64 d 1000000000 - 1))
  else Time.addSec { t with nsec := t.nsec + rem64 d 1000000000 } (quot64 d 1000000000)

/-- Go `Time.Unix`: the seconds since 1970, an `int64` difference. -/
def Time.Unix (t : Time) : Int := wrap64 (t.ext - unixToInternal)

/-- The timestamp a `time.Time` parameter stands for in a statement: its Unix second and
its nanosecond, in nanoseconds since the epoch. -/
def Time.timestamp (t : Time) : Int := t.Unix * Second + t.nsec

/-- The value `lastSyncTime` of `expireEntities`,
`time.Unix(lastSync, 0).Add(time.Duration(-1*pg.expireThreshold) * time.Second)`, as the
timestamp sent to the database. -/
def expireCutoff (expireThreshold lastSync : Int) : Int :=
  (Time.Add (timeUnix lastSync) (mul64 (mul64 (-1) expireThreshold) Second)).timestamp

/-- The method `expireEntities`; `lastSync` in seconds, `expireThreshold` the field of `pg`. -/
def expireEntities (f : Faults) (expireThreshold : Int) (db : DB) (customerId : String)
    (lastSync : Int) : Option Err × DB :=
  let lastSyncTime := expireCutoff expireThreshold lastSync
  match exec f db (deleteGroupsStmt customerId lastSyncTime) with
  | (some e, db1) => (some e, db1)
  | (none, db1) => exec f db1 (deleteInstancesStmt customerId lastSyncTime)

/-- The goroutine `go func(req expireReq)` launched by `Start`. -/
def sweepTask (f : Faults) (pg : Postgres) (req : expireReq) : Postgres :=
  match expireEntities f pg.expireThreshold pg.db req.customerId req.timestamp with
  | (some _, db1) => { pg with db := db1 }
  | (none, db1) => { pg with db := db1, expirys := pg.expirys.set req.customerId req.timestamp }

/-- The body of the loop `for req := range pg.expireChan` of `Start`: the tracker after
the iteration, and the goroutine it launched, if any. -/
def evaluate (pg : Postgres) (req : expireReq) : Postgres × Option expireReq :=
  match pg.expirys.get req.customerId with
  | none => ({ pg with expirys := pg.expirys.set req.customerId req.timestamp }, none)
  | some lastEx =>
    if sub64 req.timestamp lastEx > pg.expireInterval then (pg, some req) else (pg, none)

/-- The method `Start` on the requests received from `expireChan`, in order, every
launched goroutine running to its end before the next request is received.  Returns the
final state and the goroutines launched, in order. -/
def Start (f : Faults) : Postgres → List expireReq → Postgres × List expireReq
  | pg, [] => (pg, [])
  | pg, req :: reqs =>
    match evaluate pg req with
    | (pg1, none) => Start f pg1 reqs
    | (pg1, some s) => ((Start f (sweepTask f pg1 s) reqs).1, s :: (Start f (sweepTask f pg1 s) reqs).2)

/-! ## Read path -/

/-- What a read operation returns (`response`, `err`) and the database it leaves. -/
structure Reply (α : Type) where
  response : Option α
  err : Option Err
  db : DB

/-- The Go struct `GroupResponse`. -/
structure GroupResponse where
  Group : GroupRow
  Instances : List InstanceRow
  InstanceCount : Nat
deriving DecidableEq, Repr

/-- The value of `new(Instance)` before a row is scanned into it. -/
def zeroInstance : InstanceRow := ⟨"", "", "", "", 0⟩

/-- The value of `new(Group)` before a row is scanned into it. -/
def zeroGroup : GroupRow := ⟨"", "", "", "", 0⟩

/-- The value of `new(Customer)` before a row is scanned into it. -/
def zeroCustomer : CustomerRow := ⟨"", 0⟩

/-- The `db.Get` of one row: the first row of the result, `sql.ErrNoRows` when empty. -/
def firstRow {α : Type} (rows : List α) : Except Err α :=
  match rows with
  | [] => Except.error Err.ErrNoRows
  | r :: _ => Except.ok r

/-- The method `GetInstance`. -/
def GetInstance (f : Faults) (db : DB) (request : Options) : Reply InstanceRow :=
  if request.CustomerId = "" then ⟨none, some Err.ErrMissingCustomerId, db⟩
  else if request.InstanceId = "" then ⟨none, some Err.ErrMissingInstanceId, db⟩
  else
    match query f db (fun d => firstRow (d.instances.filter (fun r =>
        r.customer_id == request.CustomerId && r.id == request.InstanceId))) with
    | (Except.ok r, db1) => ⟨some r, none, db1⟩
    | (Except.error e, db1) => ⟨some zeroInstance, some e, db1⟩

/-- The three `select` statements of `listInstances`. -/
def selectInstances (request : Options) (d : DB) : List InstanceRow :=
  if request.GroupId ≠ "" then
    d.instances.filter (fun r => r.customer_id == request.CustomerId &&
      (d.groups_instances.any (fun l => l.customer_id == request.CustomerId &&
        l.group_name == request.GroupId && l.instance_id == r.id)))
  else if request.Type_ = "" then
    d.instances.filter (fun r => r.customer_id == request.CustomerId)
  else
    d.instances.filter (fun r => r.customer_id == request.CustomerId && r.type == request.Type_)

/-- The method `listInstances`. -/
def listInstances (f : Faults) (db : DB) (request : Options) : Reply (List InstanceRow) :=
  if request.CustomerId = "" then ⟨none, some Err.ErrMissingCustomerId, db⟩
  else
    match query f db (fun d => Except.ok (selectInstances request d)) with
    | (Except.ok rows, db1) => ⟨some rows, none, db1⟩
    | (Except.error e, db1) => ⟨some [], some e, db1⟩

/-- The method `ListInstances`. -/
def ListInstances (f : Faults) (db : DB) (request : Options) : Reply (List InstanceRow) :=
  match listInstances f db request with
  | ⟨_, some e, db1⟩ => ⟨none, some e, db1⟩
  | ⟨instances, none, db1⟩ => ⟨some (instances.getD []), none, db1⟩

/-- The method `CountInstances`. -/
def CountInstances (f : Faults) (db : DB) (request : Options) : Reply Nat :=
  if request.CustomerId = "" then ⟨none, some Err.ErrMissingCustomerId, db⟩
  else
    match query f db (fun d => Except.ok (
        if request.Type_ = "" then
          (d.instances.filter (fun r => r.customer_id == request.CustomerId)).length
        else
          (d.instances.filter (fun r =>
            r.customer_id == request.CustomerId && r.type == request.Type_)).length)) with
    | (Except.ok n, db1) => ⟨some n, none, db1⟩
    | (Except.error e, db1) => ⟨some 0, some e, db1⟩

/-- The method `GetGroup`. -/
def GetGroup (f : Faults) (db : DB) (request : Options) : Reply GroupResponse :=
  if request.CustomerId = "" then ⟨none, some Err.ErrMissingCustomerId, db⟩
  else if request.GroupId = "" then ⟨none, some Err.ErrMissingGroupId, db⟩
  else
    match query f db (fun d => firstRow (d.groups.filter (fun r =>
        r.customer_id == request.CustomerId && r.name == request.GroupId))) with
    | (Except.error e, db1) => ⟨none, some e, db1⟩
    | (Except.ok group, db1) =>
      match listInstances f db1 ⟨request.CustomerId, request.Type_, request.GroupId, ""⟩ with
      | ⟨_, some e, db2⟩ => ⟨none, some e, db2⟩
      | ⟨instances, none, db2⟩ =>
        ⟨some ⟨group, instances.getD [], (instances.getD []).length⟩, none, db2⟩

/-- Grouping `group by groups.name, groups.customer_id`: one row for each key, the first. -/
def groupByKey (rows : List GroupRow) : List GroupRow :=
  rows.foldl (fun acc r => if acc.any (GroupRow.hasKey r.name r.customer_id) then acc else acc ++ [r]) []

/-- The aggregate `count(distinct(groups_instances.instance_id))` of the left outer join
of `ListGroups`, for one group row. -/
def instanceCount (d : DB) (g : GroupRow) : Nat :=
  ((d.groups_instances.filter (fun l =>
    l.group_name == g.name && l.customer_id == g.customer_id)).map (fun l => l.instance_id)).dedup.length

/-- The two `select` statements of `ListGroups`. -/
def selectGroups (request : Options) (d : DB) : List GroupResponse :=
  (groupByKey (d.groups.filter (fun r =>
    r.customer_id == request.CustomerId &&
      (decide (request.Type_ = "") || r.type == request.Type_)))).map
    (fun g => ⟨g, [], instanceCount d g⟩)

/-- The method `ListGroups`. -/
def ListGroups (f : Faults) (db : DB) (request : Options) : Reply (List GroupResponse) :=
  if request.CustomerId = "" then ⟨none, some Err.ErrMissingCustomerId, db⟩
  else
    match query f db (fun d => Except.ok (selectGroups request d)) with
    | (Except.error e, db1) => ⟨none, some e, db1⟩
    | (Except.ok groups, db1) => ⟨some groups, none, db1⟩

/-- The method `CountGroups`. -/
def CountGroups (f : Faults) (db : DB) (request : Options) : Reply Nat :=
  if request.CustomerId = "" then ⟨none, some Err.ErrMissingCustomerId, db⟩
  else
    match query f db (fun d => Except.ok (
        if request.Type_ = "" then
          (d.groups.filter (fun r => r.customer_id == request.CustomerId)).length
        else
          (d.groups.filter (fun r =>
            r.customer_id == request.CustomerId && r.type == request.Type_)).length)) with
    | (Except.ok n, db1) => ⟨some n, none, db1⟩
    | (Except.error e, db1) => ⟨some 0, some e, db1⟩

/-- The method `GetCustomer`. -/
def GetCustomer (f : Faults) (db : DB) (request : CustomerRequest) : Reply CustomerRow :=
  if request.Id = "" then ⟨none, some Err.ErrMissingCustomerId, db⟩
  else
    match query f db (fun d => firstRow (d.customers.filter (fun r => r.id == request.Id))) with
    | (Except.ok r, db1) => ⟨some r, none, db1⟩
    | (Except.error e, db1) => ⟨some zeroCustomer, some e, db1⟩

/-! ## Example states and auxiliary predicates -/

/-- An example tracker: customer `a` has baseline 100, the interval is 60 seconds. -/
def exPg : Postgres :=
  { db := ⟨[], [], [], [], [], [], 0⟩, expirys := [("a", 100)], expireInterval := 60,
    expireThreshold := 120 }

/-- A database with one instance of customer `a`, written at second 500. -/
def exDbStale : DB :=
  ⟨[⟨"i1", "a", "ec2", "d", 500 * Second⟩], [], [], [], [], [], 0⟩

/-- A database with one instance of customer `a`, written 60 seconds before second
9223371974719179008, the first second whose sum with `unixToInternal` overflows. -/
def exDbLate : DB :=
  ⟨[⟨"i1", "a", "ec2", "d", (9223371974719179008 - 60) * Second⟩], [], [], [], [], [], 0⟩

/-- A database with a stale and a fresh instance of customer `a`, a stale group of `a`
and an instance of customer `b`. -/
def exDbSweep : DB :=
  ⟨[⟨"i1", "a", "ec2", "d", 100 * Second⟩, ⟨"i4", "a", "ec2", "d", 250 * Second⟩,
    ⟨"j1", "b", "ec2", "d", 0⟩],
   [⟨"g1", "a", "elb", "d", 30 * Second⟩], [⟨"a", "g1", "i1"⟩], [], [], [], 0⟩

/-- A schedule in which the first statement (the group deletion) is rejected. -/
def failFirst : Faults := fun n => if n = 0 then some "connection refused" else none

/-- A schedule in which the second statement (the instance deletion) is rejected. -/
def failSecond : Faults := fun n => if n = 1 then some "connection refused" else none

/-- A tracker with no baseline, interval 60 seconds, threshold 120 seconds. -/
def exPgFresh : Postgres :=
  { db := ⟨[], [], [], [], [], [], 0⟩, expirys := [], expireInterval := 60,
    expireThreshold := 120 }

/-- A database with two instances of customer `a`, of types `ec2` and `rds`, both
members of group `g1`. -/
def exDbGroup : DB :=
  ⟨[⟨"i1", "a", "ec2", "d1", 10⟩, ⟨"i2", "a", "rds", "d2", 20⟩],
   [⟨"g1", "a", "security", "dg", 30⟩],
   [⟨"a", "g1", "i1"⟩, ⟨"a", "g1", "i2"⟩], [⟨"a", 40⟩], [], [], 7⟩

/-- Every group key present before is held by the same rows after. -/
def groupsKept (a b : DB) : Prop :=
  ∀ name cust : String, (∃ r ∈ a.groups, GroupRow.hasKey name cust r = true) →
    b.groups.filter (GroupRow.hasKey name cust) = a.groups.filter (GroupRow.hasKey name cust)

/-- Every instance key present before is held by the same rows after. -/
def instancesKept (a b : DB) : Prop :=
  ∀ id cust : String, (∃ r ∈ a.instances, InstanceRow.hasKey id cust r = true) →
    b.instances.filter (InstanceRow.hasKey id cust) =
      a.instances.filter (InstanceRow.hasKey id cust)

/-- Errors that originate in storage: a constraint violation or a driver failure. -/
def Err.fromStorage : Err → Prop
  | Err.duplicateKey => True
  | Err.storage _ => True
  | _ => False

/-- The customer id the `switch` of `PutEntity` reads from the entity. -/
def Entity.customerId : Entity → String
  | Entity.ofInstance i => i.CustomerId
  | Entity.ofGroup g => g.CustomerId
  | Entity.ofRouteTable r => r.CustomerId
  | Entity.ofSubnet s => s.CustomerId
  | Entity.other => ""

/-- The table of the entity holds a row with the key and the contents of the entity. -/
def Entity.storedIn (db : DB) : Entity → Prop
  | Entity.ofInstance i => ∃ r ∈ db.instances,
      r.id = i.Id ∧ r.customer_id = i.CustomerId ∧ r.type = i.Type_ ∧ r.data = i.Data
  | Entity.ofGroup g => ∃ r ∈ db.groups,
      r.name = g.Name ∧ r.customer_id = g.CustomerId ∧ r.type = g.Type_ ∧ r.data = g.Data
  | Entity.ofRouteTable e => ∃ r ∈ db.route_tables,
      r.id = e.Id ∧ r.customer_id = e.CustomerId ∧ r.data = e.Data
  | Entity.ofSubnet e => ∃ r ∈ db.subnets,
      r.id = e.Id ∧ r.customer_id = e.CustomerId ∧ r.data = e.Data
  | Entity.other => True

/-- The empty database. -/
def emptyDb : DB := ⟨[], [], [], [], [], [], 0⟩

/-- Identity keys of `instances` and of `groups` are unique, and so are link triples. -/
def DB.keysUnique (db : DB) : Prop :=
  (db.instances.map (fun r => (r.id, r.customer_id))).Nodup ∧
  (db.groups.map (fun r => (r.name, r.customer_id))).Nodup ∧
  db.groups_instances.Nodup

instance (db : DB) : Decidable db.keysUnique := by
  unfold DB.keysUnique
  infer_instance

/-- No link triple occurs in more than one row. -/
def linksUnique (db : DB) : Prop :=
  ∀ c n i : String, db.groups_instances.countP (LinkRow.hasKey c n i) ≤ 1

/-- A group name of 129 characters. -/
def longName : String := String.mk (List.replicate 129 'g')

/-- An instance that references a group whose name has 129 characters. -/
def exLongInstance : Entity :=
  Entity.ofInstance ⟨"i1", "a", "ec2", "d", [⟨longName, "a", "", ""⟩]⟩

/-- A database with three instances of customer `a`: `i1` and `i2` are members of group
`g1`, `i3` is a member of no group. -/
def exDbCount : DB :=
  ⟨[⟨"i1", "a", "ec2", "d1", 10⟩, ⟨"i2", "a", "rds", "d2", 20⟩, ⟨"i3", "a", "ec2", "d3", 30⟩],
   [⟨"g1", "a", "security", "dg", 30⟩],
   [⟨"a", "g1", "i1"⟩, ⟨"a", "g1", "i2"⟩], [⟨"a", 40⟩], [], [], 0⟩

/-- An access of a goroutine to the mutex `expireMut` or to the map `expirys`. -/
inductive Access where
  | lock
  | unlock
  | mapRead (key : String)
  | mapWrite (key : String)
deriving DecidableEq, Repr

/-- The loop body of `Start` together with the accesses it performs, in program order:
the lookup `pg.expirys[req.customerId]` and, for a first observation, the write
`pg.expirys[req.customerId] = req.timestamp`.  The loop body calls neither
`expireMut.Lock` nor `expireMut.Unlock`. -/
def evaluateTraced (pg : Postgres) (req : expireReq) :
    (Postgres × Option expireReq) × List Access :=
  match pg.expirys.get req.customerId with
  | none =>
    (({ pg with expirys := pg.expirys.set req.customerId req.timestamp }, none),
      [Access.mapRead req.customerId, Access.mapWrite req.customerId])
  | some lastEx =>
    if sub64 req.timestamp lastEx > pg.expireInterval then
      ((pg, some req), [Access.mapRead req.customerId])
    else ((pg, none), [Access.mapRead req.customerId])

/-- The goroutine launched by `Start` together with the accesses it performs: after a
successful `expireEntities`, `expireMut.Lock()`, the write to the map, and the deferred
`expireMut.Unlock()`; after a failed one, nothing. -/
def sweepTaskTraced (f : Faults) (pg : Postgres) (req : expireReq) : Postgres × List Access :=
  match expireEntities f pg.expireThreshold pg.db req.customerId req.timestamp with
  | (some _, db1) => ({ pg with db := db1 }, [])
  | (none, db1) =>
    ({ pg with db := db1, expirys := pg.expirys.set req.customerId req.timestamp },
      [Access.lock, Access.mapWrite req.customerId, Access.unlock])

/-- Whether every access to the map in the trace of one goroutine happens while that
goroutine holds the mutex; `held` says whether it holds the mutex at the start. -/
def lockHeldAtAccesses : Bool → List Access → Bool
  | _, [] => true
  | _, Access.lock :: as => lockHeldAtAccesses true as
  | _, Access.unlock :: as => lockHeldAtAccesses false as
  | held, Access.mapRead _ :: as => held && lockHeldAtAccesses held as
  | held, Access.mapWrite _ :: as => held && lockHeldAtAccesses held as

/-- Whether a schedule — the accesses of several goroutines, each tagged with its
goroutine, in the order they happen — respects the mutex: `lock` only when it is free,
`unlock` only by its holder.  `holder` is the goroutine holding the mutex at the start. -/
def validSchedule : Option Nat → List (Nat × Access) → Bool
  | _, [] => true
  | holder, (t, Access.lock) :: as => holder.isNone && validSchedule (some t) as
  | holder, (t, Access.unlock) :: as => decide (holder = some t) && validSchedule none as
  | holder, (_, Access.mapRead _) :: as => validSchedule holder as
  | holder, (_, Access.mapWrite _) :: as => validSchedule holder as

/-- Whether in a schedule some goroutine accesses the map while another goroutine is
inside its critical section (holds the mutex). -/
def overlaps : Option Nat → List (Nat × Access) → Bool
  | _, [] => false
  | _, (t, Access.lock) :: as => overlaps (some t) as
  | _, (_, Access.unlock) :: as => overlaps none as
  | holder, (t, Access.mapRead _) :: as =>
    (holder.isSome && decide (holder ≠ some t)) || overlaps holder as
  | holder, (t, Access.mapWrite _) :: as =>
    (holder.isSome && decide (holder ≠ some t)) || overlaps holder as

/-- The accesses of goroutine `t` in a schedule, in order. -/
def accessesOf (t : Nat) (s : List (Nat × Access)) : List Access :=
  (s.filter (fun e => e.1 == t)).map (fun e => e.2)

/-- A schedule of two goroutines: goroutine 1, the sweep launched for `(a, 161)`, takes
the mutex; goroutine 0, the loop of `Start` handling the next request `(a, 200)`, looks
the map up; goroutine 1 writes the map and releases the mutex. -/
def exSchedule : List (Nat × Access) :=
  [(1, Access.lock), (0, Access.mapRead "a"), (1, Access.mapWrite "a"), (1, Access.unlock)]

/-- A sweep goroutine that has been launched and has not ended: its request and the
number of its steps already taken (0: before the group deletion, 1: before the instance
deletion, 2: before the write to the map). -/
structure Task where
  req : expireReq
  stage : Nat
deriving DecidableEq, Repr

/-- The running service: the store with its tracker; the requests sent on
`expireChan` for which the loop of `Start` has not yet run its body, oldest first; and
the sweep goroutines in flight, in the order they were launched. -/
structure Service where
  pg : Postgres
  queue : List expireReq
  tasks : List Task
deriving DecidableEq, Repr

/-- What happens next in the running service: a call of `PutEntity` at clock reading
`now` (its statements to storage, and its send on `expireChan`); the body of the loop
of `Start` for the oldest request sent; or the next step of the goroutine at position
`j` among those in flight. -/
inductive Event where
  | write (now : Int) (entity : Entity)
  | recv
  | step (j : Nat)
deriving DecidableEq, Repr

/-- A call of `PutEntity` in the running service: the write to storage and, when the
call sends a request, the request on the channel. -/
def Service.write (f : Faults) (S : Service) (now : Int) (entity : Entity) : Service :=
  { pg := { S.pg with db := (PutEntity f now S.pg.db entity).db },
    queue := S.queue ++ (PutEntity f now S.pg.db entity).sent.toList,
    tasks := S.tasks }

/-- The body of the loop of `Start` for the oldest request sent: the lookup in the map,
and a goroutine it launches is in flight from then on. -/
def Service.recv (S : Service) : Service :=
  match S.queue with
  | [] => S
  | req :: q =>
    match evaluate S.pg req with
    | (pg1, none) => { pg := pg1, queue := q, tasks := S.tasks }
    | (pg1, some s) => { pg := pg1, queue := q, tasks := S.tasks ++ [⟨s, 0⟩] }

/-- The next step of the goroutine at position `j`: the group deletion of
`expireEntities`, its instance deletion, or the write to the map; a failed deletion ends
the goroutine, and so does the write to the map. -/
def Service.step (f : Faults) (S : Service) (j : Nat) : Service :=
  match S.tasks[j]? with
  | none => S
  | some t =>
    if t.stage = 0 then
      match exec f S.pg.db (deleteGroupsStmt t.req.customerId
          (expireCutoff S.pg.expireThreshold t.req.timestamp)) with
      | (some _, db1) => { S with pg := { S.pg with db := db1 }, tasks := S.tasks.eraseIdx j }
      | (none, db1) =>
        { S with pg := { S.pg with db := db1 }, tasks := S.tasks.set j ⟨t.req, 1⟩ }
    else if t.stage = 1 then
      match exec f S.pg.db (deleteInstancesStmt t.req.customerId
          (expireCutoff S.pg.expireThreshold t.req.timestamp)) with
      | (some _, db1) => { S with pg := { S.pg with db := db1 }, tasks := S.tasks.eraseIdx j }
      | (none, db1) =>
        { S with pg := { S.pg with db := db1 }, tasks := S.tasks.set j ⟨t.req, 2⟩ }
    else
      { S with
        pg := { S.pg with expirys := S.pg.expirys.set t.req.customerId t.req.timestamp },
        tasks := S.tasks.eraseIdx j }

/-- The running service along a schedule: the final state and the error each call of
`PutEntity` returned, in order. -/
def Service.run (f : Faults) : Service → List Event → Service × List (Option Err)
  | S, [] => (S, [])
  | S, Event.write now entity :: es =>
    ((Service.run f (S.write f now entity) es).1,
      (PutEntity f now S.pg.db entity).err :: (Service.run f (S.write f now entity) es).2)
  | S, Event.recv :: es => Service.run f S.recv es
  | S, Event.step j :: es => Service.run f (S.step f j) es

/-- The calls of `PutEntity` of a schedule, in order. -/
def writesOf : List Event → List (Int × Entity)
  | [] => []
  | Event.write now entity :: es => (now, entity) :: writesOf es
  | Event.recv :: es => writesOf es
  | Event.step _ :: es => writesOf es

/-- The row of `instances` that a first write of instance `w.2` at clock reading `w.1`
stores. -/
def rowOf (w : Int × Instance) : InstanceRow :=
  ⟨w.2.Id, w.2.CustomerId, w.2.Type_, w.2.Data, writeTime w.1⟩

/-- The schedule of the scenario of the specification: instances `i1` to `i4` of
customer `a` are written at seconds 0, 30, 100 and 250, the loop of `Start` handles
each request before the next write, and each sweep launched takes its three steps
before the next write. -/
def exScenario : List Event :=
  [Event.write 0 (Entity.ofInstance ⟨"i1", "a", "ec2", "d1", []⟩), Event.recv,
   Event.write (30 * Second) (Entity.ofInstance ⟨"i2", "a", "ec2", "d2", []⟩), Event.recv,
   Event.write (100 * Second) (Entity.ofInstance ⟨"i3", "a", "ec2", "d3", []⟩), Event.recv,
   Event.step 0, Event.step 0, Event.step 0,
   Event.write (250 * Second) (Entity.ofInstance ⟨"i4", "a", "ec2", "d4", []⟩), Event.recv,
   Event.step 0, Event.step 0, Event.step 0]

/-- A schedule with a delayed sweep: `i1`, `i2`, `i3` are written at seconds 0, 100 and
130; the sweep launched at second 100 has not taken a step when the request of second
130 is handled, so a second sweep is launched against the old baseline; then both run. -/
def exDelayed : List Event :=
  [Event.write 0 (Entity.ofInstance ⟨"i1", "a", "ec2", "d1", []⟩), Event.recv,
   Event.write (100 * Second) (Entity.ofInstance ⟨"i2", "a", "ec2", "d2", []⟩), Event.recv,
   Event.write (130 * Second) (Entity.ofInstance ⟨"i3", "a", "ec2", "d3", []⟩), Event.recv,
   Event.step 0, Event.step 0, Event.step 0,
   Event.step 0, Event.step 0, Event.step 0]

/-- A schedule in which `i1`, `i2`, `i3` are written at seconds 0, 30 and 100, each
request handled before the next write, and the sweep launched at second 100 runs
afterwards. -/
def exHarmless : List Event :=
  [Event.write 0 (Entity.ofInstance ⟨"i1", "a", "ec2", "d1", []⟩), Event.recv,
   Event.write (30 * Second) (Entity.ofInstance ⟨"i2", "a", "ec2", "d2", []⟩), Event.recv,
   Event.write (100 * Second) (Entity.ofInstance ⟨"i3", "a", "ec2", "d3", []⟩), Event.recv,
   Event.step 0, Event.step 0, Event.step 0]

/-! ## Lemmas: machine integers and the tracker map -/

theorem wrap64_eq_self (x : Int) (h : isInt64 x) : wrap64 x = x := by
  unfold isInt64 at h
  unfold wrap64
  omega

theorem sub64_eq_sub (a b : Int) (h : isInt64 (a - b)) : sub64 a b = a - b :=
  wrap64_eq_self _ h

theorem Expirys.get_set_self (m : Expirys) (k : String) (v : Int) :
    Expirys.get (Expirys.set m k v) k = some v := by
  induction m with
  | nil => simp [Expirys.set, Expirys.get]
  | cons p m ih =>
    obtain ⟨k1, v1⟩ := p
    by_cases h : k1 = k
    · simp [Expirys.set, Expirys.get, h]
    · simp [Expirys.set, Expirys.get, h, ih]

theorem Expirys.get_set_of_ne (m : Expirys) (k k2 : String) (v : Int) (h : k2 ≠ k) :
    Expirys.get (Expirys.set m k v) k2 = Expirys.get m k2 := by
  induction m with
  | nil => simp [Expirys.set, Expirys.get, Ne.symm h]
  | cons p m ih =>
    obtain ⟨k1, v1⟩ := p
    by_cases h1 : k1 = k
    · subst h1
      simp [Expirys.set, Expirys.get, Ne.symm h]
    · by_cases h2 : k1 = k2
      · subst h2
        simp [Expirys.set, Expirys.get, h1]
      · simp [Expirys.set, Expirys.get, h1, h2, ih]

theorem evaluate_of_none (pg : Postgres) (req : expireReq)
    (h : pg.expirys.get req.customerId = none) :
    evaluate pg req =
      ({ pg with expirys := pg.expirys.set req.customerId req.timestamp }, none) := by
  simp [evaluate, h]

theorem evaluate_of_gt (pg : Postgres) (req : expireReq) (b : Int)
    (h : pg.expirys.get req.customerId = some b)
    (hgt : sub64 req.timestamp b > pg.expireInterval) :
    evaluate pg req = (pg, some req) := by
  simp [evaluate, h, hgt]

theorem evaluate_of_le (pg : Postgres) (req : expireReq) (b : Int)
    (h : pg.expirys.get req.customerId = some b)
    (hle : sub64 req.timestamp b ≤ pg.expireInterval) :
    evaluate pg req = (pg, none) := by
  have : ¬ (sub64 req.timestamp b > pg.expireInterval) := not_lt.mpr hle
  simp [evaluate, h, this]

/-! ## C1: one evaluation step -/

/-- C1: the handling of one request `(c, t)` by the loop body of `Start`.  With no
baseline for `c`, `t` is recorded and nothing is launched; with baseline `b` and
`t - b <= expireInterval` nothing is launched and the state is unchanged; with
`t - b > expireInterval` exactly the sweep for `(c, t)` is launched; the baselines of
all other customers are as before.  The difference `t - b` is the `int64` subtraction
the code performs (`sub64`), which is the exact difference whenever that fits 64 bits
(`sub64_eq_sub`). -/
theorem C1_evaluate_one_request (pg : Postgres) (c : String) (t : Int) :
    (pg.expirys.get c = none →
      (evaluate pg ⟨t, c⟩).2 = none ∧
      (evaluate pg ⟨t, c⟩).1 = { pg with expirys := pg.expirys.set c t } ∧
      (evaluate pg ⟨t, c⟩).1.expirys.get c = some t) ∧
    (∀ b : Int, pg.expirys.get c = some b → sub64 t b ≤ pg.expireInterval →
      evaluate pg ⟨t, c⟩ = (pg, none)) ∧
    (∀ b : Int, pg.expirys.get c = some b → sub64 t b > pg.expireInterval →
      evaluate pg ⟨t, c⟩ = (pg, some ⟨t, c⟩)) ∧
    (∀ c2 : String, c2 ≠ c →
      (evaluate pg ⟨t, c⟩).1.expirys.get c2 = pg.expirys.get c2) := by
  refine ⟨?_, ?_, ?_, ?_⟩
  · intro h
    rw [evaluate_of_none pg ⟨t, c⟩ h]
    exact ⟨rfl, rfl, Expirys.get_set_self _ _ _⟩
  · intro b h hle
    exact evaluate_of_le pg ⟨t, c⟩ b h hle
  · intro b h hgt
    exact evaluate_of_gt pg ⟨t, c⟩ b h hgt
  · intro c2 hne
    cases h : pg.expirys.get c with
    | none =>
      rw [evaluate_of_none pg ⟨t, c⟩ h]
      exact Expirys.get_set_of_ne _ _ _ _ hne
    | some b =>
      by_cases hgt : sub64 t b > pg.expireInterval
      · rw [evaluate_of_gt pg ⟨t, c⟩ b h hgt]
      · rw [evaluate_of_le pg ⟨t, c⟩ b h (not_lt.mp hgt)]

/-- C1 at concrete requests: a first observation of `b`, a debounced request and a
request that launches a sweep for `a`. -/
theorem C1_evaluate_one_request_witness :
    ((evaluate exPg ⟨7, "b"⟩).2 = none ∧
      (evaluate exPg ⟨7, "b"⟩).1 = { exPg with expirys := exPg.expirys.set "b" 7 } ∧
      (evaluate exPg ⟨7, "b"⟩).1.expirys.get "b" = some 7) ∧
    evaluate exPg ⟨160, "a"⟩ = (exPg, none) ∧
    evaluate exPg ⟨161, "a"⟩ = (exPg, some ⟨161, "a"⟩) ∧
    (evaluate exPg ⟨7, "b"⟩).1.expirys.get "a" = exPg.expirys.get "a" :=
  ⟨(C1_evaluate_one_request exPg "b" 7).1 (by decide),
   (C1_evaluate_one_request exPg "a" 160).2.1 100 (by decide) (by decide),
   (C1_evaluate_one_request exPg "a" 161).2.2.1 100 (by decide) (by decide),
   (C1_evaluate_one_request exPg "b" 7).2.2.2 "a" (by decide)⟩

/-! ## C2: the sweep -/

/-- Where no `int64` computation of the cutoff overflows, the cutoff is `T - H` seconds
after the epoch. -/
theorem expireCutoff_eq (H T : Int) (hH : -9223372036 ≤ H ∧ H ≤ 9223372036)
    (h1 : isInt64 (T + unixToInternal)) (h2 : isInt64 (T + unixToInternal - H))
    (h3 : isInt64 (T - H)) :
    expireCutoff H T = (T - H) * Second := by
  have hm1 : mul64 (-1) H = -H := by
    unfold mul64 wrap64
    omega
  have hm2 : mul64 (-H) Second = -H * 1000000000 := by
    unfold mul64 wrap64 Second
    omega
  have hq : quot64 (-H * 1000000000) 1000000000 = -H := by
    unfold quot64
    split <;> omega
  have hr : rem64 (-H * 1000000000) 1000000000 = 0 := by
    unfold rem64
    rw [hq]
    omega
  have he : wrap64 (T + unixToInternal) = T + unixToInternal := wrap64_eq_self _ h1
  have hs : wrap64 (T + unixToInternal + -H) = T + unixToInternal - H := by
    rw [← sub_eq_add_neg]
    exact wrap64_eq_self _ h2
  have hu : wrap64 (T + unixToInternal - H - unixToInternal) = T - H := by
    have : T + unixToInternal - H - unixToInternal = T - H := by ring
    rw [this]
    exact wrap64_eq_self _ h3
  unfold expireCutoff
  rw [hm1, hm2]
  unfold Time.Add timeUnix
  simp only [hq, hr, he, add_zero]
  rw [if_neg (by omega), if_neg (by omega)]
  unfold Time.addSec
  simp only [hs]
  have hiff : (T + unixToInternal - H > T + unixToInternal ↔ -H > 0) := by
    constructor <;> intro h <;> omega
  rw [if_pos hiff]
  unfold Time.timestamp Time.Unix
  simp only [hu, add_zero]

/-- A successful `expireEntities` has run both `delete` statements. -/
theorem expireEntities_ok (f : Faults) (H : Int) (db : DB) (c : String) (T : Int)
    (hok : (expireEntities f H db c T).1 = none) :
    (expireEntities f H db c T).2 =
      { db with
        groups := db.groups.filter (fun r =>
          !(r.customer_id == c && decide (r.updated_at < expireCutoff H T))),
        instances := db.instances.filter (fun r =>
          !(r.customer_id == c && decide (r.updated_at < expireCutoff H T))),
        statements := db.statements + 2 } := by
  unfold expireEntities exec at *
  simp only [deleteGroupsStmt, deleteInstancesStmt] at *
  cases h1 : f db.statements with
  | some m => simp [h1] at hok
  | none =>
    simp only [h1] at hok ⊢
    cases h2 : f (db.statements + 1) with
    | some m => simp [h2] at hok
    | none => simp [h2]

/-- Without faults `expireEntities` succeeds. -/
theorem expireEntities_noFaults (H : Int) (db : DB) (c : String) (T : Int) :
    (expireEntities noFaults H db c T).1 = none := by
  simp [expireEntities, exec, noFaults, deleteGroupsStmt, deleteInstancesStmt]

/-- C2 fails as stated, at the two places where the 64-bit time arithmetic overflows.
With `expireThreshold = 18446744074` seconds the product
`time.Duration(-1*expireThreshold) * time.Second` overflows, and the sweep triggered at
second 1000 succeeds and deletes an instance written at second 500, although 500 is not
older than `1000 - 18446744074`.  With trigger time `T = 9223371974719179008` and
threshold 120, `time.Unix(T, 0)` overflows and `Add` sets the second count to its
bound, the cutoff is second `T + 1`, and the sweep deletes an instance written at
`T - 60`, which is not older than `T - 120`. -/
theorem C2_counterexample :
    ((expireEntities noFaults 18446744074 exDbStale "a" 1000).1 = none ∧
      (⟨"i1", "a", "ec2", "d", 500 * Second⟩ : InstanceRow) ∈ exDbStale.instances ∧
      (1000 - 18446744074) * Second ≤ 500 * Second ∧
      (⟨"i1", "a", "ec2", "d", 500 * Second⟩ : InstanceRow) ∉
        (expireEntities noFaults 18446744074 exDbStale "a" 1000).2.instances) ∧
    ((expireEntities noFaults 120 exDbLate "a" 9223371974719179008).1 = none ∧
      expireCutoff 120 9223371974719179008 = (9223371974719179008 + 1) * Second ∧
      (⟨"i1", "a", "ec2", "d", (9223371974719179008 - 60) * Second⟩ : InstanceRow) ∈
        exDbLate.instances ∧
      (9223371974719179008 - 120) * Second ≤ (9223371974719179008 - 60) * Second ∧
      (⟨"i1", "a", "ec2", "d", (9223371974719179008 - 60) * Second⟩ : InstanceRow) ∉
        (expireEntities noFaults 120 exDbLate "a" 9223371974719179008).2.instances) := by
  decide

/-- C2 (amended): for a threshold `H` and a trigger time `T` at which no 64-bit
computation of the cutoff overflows — `|H| <= 9223372036` seconds, and `T + 62135596800`,
`T + 62135596800 - H` and `T - H` are `int64` values — after a successful sweep
`expireEntities(c, T)` the tables `instances` and `groups` are the old ones without the
rows of customer `c` whose `updated_at` is before `T - H`; so no such row is left, every
row of `c` not older than `T - H` is still there, every row of another customer is still
there, and the other tables are untouched. -/
theorem C2_sweep_staleness (f : Faults) (H : Int) (db : DB) (c : String) (T : Int)
    (hH : -9223372036 ≤ H ∧ H ≤ 9223372036)
    (hT1 : isInt64 (T + unixToInternal)) (hT2 : isInt64 (T + unixToInternal - H))
    (hT3 : isInt64 (T - H))
    (hok : (expireEntities f H db c T).1 = none) :
    ((expireEntities f H db c T).2.instances = db.instances.filter (fun r =>
        !(r.customer_id == c && decide (r.updated_at < (T - H) * Second))) ∧
     (expireEntities f H db c T).2.groups = db.groups.filter (fun r =>
        !(r.customer_id == c && decide (r.updated_at < (T - H) * Second)))) ∧
    ((∀ r ∈ (expireEntities f H db c T).2.instances,
        r.customer_id = c → (T - H) * Second ≤ r.updated_at) ∧
     (∀ r ∈ (expireEntities f H db c T).2.groups,
        r.customer_id = c → (T - H) * Second ≤ r.updated_at)) ∧
    ((∀ r ∈ db.instances, r.customer_id = c → (T - H) * Second ≤ r.updated_at →
        r ∈ (expireEntities f H db c T).2.instances) ∧
     (∀ r ∈ db.groups, r.customer_id = c → (T - H) * Second ≤ r.updated_at →
        r ∈ (expireEntities f H db c T).2.groups)) ∧
    ((∀ r ∈ db.instances, r.customer_id ≠ c → r ∈ (expireEntities f H db c T).2.instances) ∧
     (∀ r ∈ db.groups, r.customer_id ≠ c → r ∈ (expireEntities f H db c T).2.groups)) ∧
    ((expireEntities f H db c T).2.groups_instances = db.groups_instances ∧
     (expireEntities f H db c T).2.customers = db.customers ∧
     (expireEntities f H db c T).2.route_tables = db.route_tables ∧
     (expireEntities f H db c T).2.subnets = db.subnets) := by
  rw [expireEntities_ok f H db c T hok, expireCutoff_eq H T hH hT1 hT2 hT3]
  refine ⟨⟨rfl, rfl⟩, ⟨?_, ?_⟩, ⟨?_, ?_⟩, ⟨?_, ?_⟩, rfl, rfl, rfl, rfl⟩
  · intro r hr hc
    simp only [List.mem_filter] at hr
    have := hr.2
    simp [hc] at this
    exact this
  · intro r hr hc
    simp only [List.mem_filter] at hr
    have := hr.2
    simp [hc] at this
    exact this
  · intro r hr hc hle
    simp only [List.mem_filter]
    exact ⟨hr, by simp [hc, hle]⟩
  · intro r hr hc hle
    simp only [List.mem_filter]
    exact ⟨hr, by simp [hc, hle]⟩
  · intro r hr hc
    simp only [List.mem_filter]
    exact ⟨hr, by simp [hc]⟩
  · intro r hr hc
    simp only [List.mem_filter]
    exact ⟨hr, by simp [hc]⟩

/-- C2 at the scenario of the specification: the sweep at second 250 with threshold 120
removes what was written before second 130. -/
theorem C2_sweep_staleness_witness :
    (expireEntities noFaults 120 exDbSweep "a" 250).2.instances =
      [⟨"i4", "a", "ec2", "d", 250 * Second⟩, ⟨"j1", "b", "ec2", "d", 0⟩] ∧
    (expireEntities noFaults 120 exDbSweep "a" 250).2.groups = [] :=
  (C2_sweep_staleness noFaults 120 exDbSweep "a" 250 (by decide) (by decide) (by decide)
    (by decide) (by decide)).1

/-! ## C3: the tracker after a sweep -/

theorem sweepTask_of_ok (f : Faults) (pg : Postgres) (req : expireReq)
    (h : (expireEntities f pg.expireThreshold pg.db req.customerId req.timestamp).1 = none) :
    sweepTask f pg req =
      { pg with
        db := (expireEntities f pg.expireThreshold pg.db req.customerId req.timestamp).2,
        expirys := pg.expirys.set req.customerId req.timestamp } := by
  unfold sweepTask
  split
  · rename_i e db1 heq
    rw [heq] at h
    simp at h
  · rename_i db1 heq
    rw [heq]

theorem sweepTask_of_error (f : Faults) (pg : Postgres) (req : expireReq) (e : Err)
    (h : (expireEntities f pg.expireThreshold pg.db req.customerId req.timestamp).1 = some e) :
    sweepTask f pg req =
      { pg with
        db := (expireEntities f pg.expireThreshold pg.db req.customerId req.timestamp).2 } := by
  unfold sweepTask
  split
  · rename_i e1 db1 heq
    rw [heq]
  · rename_i db1 heq
    rw [heq] at h
    simp at h

theorem PutEntity_sent_err (f : Faults) (now : Int) (db : DB) (entity : Entity) (r : expireReq)
    (h : (PutEntity f now db entity).sent = some r) : (PutEntity f now db entity).err = none := by
  unfold PutEntity at *
  split at h
  · simp at h
  · split at h
    · simp at h
    · rename_i h1 _ _ h2
      simp [h1, h2]

/-- C3: the goroutine launched for `(c, t)`.  If `expireEntities` succeeds, the baseline
of `c` becomes `t`.  If it fails — the group deletion is rejected, or the instance
deletion is — the whole map is left as it was, so a later request `(c, t2)` that
exceeds the old baseline by more than `expireInterval` launches a sweep again.  A call
of `PutEntity` that sent the request has returned a nil error: the sweep's error is not
part of what any caller receives. -/
theorem C3_sweep_updates_baseline (f : Faults) (pg : Postgres) (c : String) (t : Int) :
    ((expireEntities f pg.expireThreshold pg.db c t).1 = none →
      (sweepTask f pg ⟨t, c⟩).expirys.get c = some t) ∧
    (∀ e : Err, (expireEntities f pg.expireThreshold pg.db c t).1 = some e →
      (sweepTask f pg ⟨t, c⟩).expirys = pg.expirys ∧
      ∀ b t2 : Int, pg.expirys.get c = some b → sub64 t2 b > pg.expireInterval →
        evaluate (sweepTask f pg ⟨t, c⟩) ⟨t2, c⟩ = (sweepTask f pg ⟨t, c⟩, some ⟨t2, c⟩)) ∧
    (∀ m : String, f pg.db.statements = some m →
      (expireEntities f pg.expireThreshold pg.db c t).1 = some (Err.storage m)) ∧
    (∀ m : String, f pg.db.statements = none → f (pg.db.statements + 1) = some m →
      (expireEntities f pg.expireThreshold pg.db c t).1 = some (Err.storage m)) ∧
    (∀ (now : Int) (db : DB) (entity : Entity) (r : expireReq),
      (PutEntity f now db entity).sent = some r → (PutEntity f now db entity).err = none) := by
  refine ⟨?_, ?_, ?_, ?_, ?_⟩
  · intro h
    rw [sweepTask_of_ok f pg ⟨t, c⟩ h]
    exact Expirys.get_set_self _ _ _
  · intro e h
    rw [sweepTask_of_error f pg ⟨t, c⟩ e h]
    refine ⟨rfl, ?_⟩
    intro b t2 hb hgt
    exact evaluate_of_gt _ ⟨t2, c⟩ b hb hgt
  · intro m hm
    simp [expireEntities, exec, hm]
  · intro m h0 hm
    simp [expireEntities, exec, h0, hm, deleteGroupsStmt, deleteInstancesStmt]
  · intro now db entity r h
    exact PutEntity_sent_err f now db entity r h

/-- C3 at concrete runs: a successful sweep for `a` at 161 moves the baseline to 161; a
sweep whose group deletion, or whose instance deletion, is rejected leaves the map
`[(a, 100)]`, and the later request `(a, 200)` launches a sweep again. -/
theorem C3_sweep_updates_baseline_witness :
    (sweepTask noFaults exPg ⟨161, "a"⟩).expirys.get "a" = some 161 ∧
    ((sweepTask failFirst exPg ⟨161, "a"⟩).expirys = exPg.expirys ∧
      evaluate (sweepTask failFirst exPg ⟨161, "a"⟩) ⟨200, "a"⟩ =
        (sweepTask failFirst exPg ⟨161, "a"⟩, some ⟨200, "a"⟩)) ∧
    (sweepTask failSecond exPg ⟨161, "a"⟩).expirys = exPg.expirys :=
  ⟨(C3_sweep_updates_baseline noFaults exPg "a" 161).1 (by decide),
   ⟨((C3_sweep_updates_baseline failFirst exPg "a" 161).2.1
        (Err.storage "connection refused") (by decide)).1,
    ((C3_sweep_updates_baseline failFirst exPg "a" 161).2.1
        (Err.storage "connection refused") (by decide)).2 100 200 (by decide) (by decide)⟩,
   ((C3_sweep_updates_baseline failSecond exPg "a" 161).2.1
        (Err.storage "connection refused") (by decide)).1⟩

/-! ## C4: debouncing over a sequence of requests -/

theorem sweepTask_noFaults (pg : Postgres) (req : expireReq) :
    sweepTask noFaults pg req =
      { pg with
        db := (expireEntities noFaults pg.expireThreshold pg.db req.customerId req.timestamp).2,
        expirys := pg.expirys.set req.customerId req.timestamp } :=
  sweepTask_of_ok noFaults pg req (expireEntities_noFaults _ _ _ _)

/-- Once the baseline of `c` lies in the window `[t0, t0 + I]`, requests of `c` with
timestamps in the window launch nothing. -/
theorem Start_settled (c : String) (t0 : Int) (reqs : List expireReq) :
    ∀ (pg : Postgres) (b : Int),
      pg.expirys.get c = some b → t0 ≤ b → b - t0 ≤ pg.expireInterval →
      (∀ r ∈ reqs, r.customerId = c ∧ t0 ≤ r.timestamp ∧
        r.timestamp - t0 ≤ pg.expireInterval) →
      (Start noFaults pg reqs).2 = [] := by
  induction reqs with
  | nil => intro pg b _ _ _ _; rfl
  | cons r reqs ih =>
    intro pg b hb hb0 hb1 hall
    obtain ⟨hc, h0, h1⟩ := hall r (List.mem_cons_self _ _)
    have hle : sub64 r.timestamp b ≤ pg.expireInterval := by
      unfold sub64 wrap64
      omega
    have hev : evaluate pg r = (pg, none) := evaluate_of_le pg r b (hc ▸ hb) hle
    simp only [Start, hev]
    exact ih pg b hb hb0 hb1 (fun q hq => hall q (List.mem_cons_of_mem _ hq))

/-- Requests of `c` with timestamps in one window `[t0, t0 + I]` launch at most one
sweep, from any tracker state. -/
theorem Start_window (c : String) (t0 : Int) (reqs : List expireReq) :
    ∀ (pg : Postgres),
      (∀ r ∈ reqs, r.customerId = c ∧ t0 ≤ r.timestamp ∧
        r.timestamp - t0 ≤ pg.expireInterval) →
      (Start noFaults pg reqs).2.length ≤ 1 := by
  induction reqs with
  | nil => intro pg _; simp [Start]
  | cons r reqs ih =>
    intro pg hall
    obtain ⟨hc, h0, h1⟩ := hall r (List.mem_cons_self _ _)
    have hrest : ∀ q ∈ reqs, q.customerId = c ∧ t0 ≤ q.timestamp ∧
        q.timestamp - t0 ≤ pg.expireInterval :=
      fun q hq => hall q (List.mem_cons_of_mem _ hq)
    cases hget : pg.expirys.get r.customerId with
    | none =>
      simp only [Start, evaluate_of_none pg r hget]
      have := Start_settled c t0 reqs
        { pg with expirys := pg.expirys.set r.customerId r.timestamp } r.timestamp
        (by rw [← hc]; exact Expirys.get_set_self _ _ _) h0 h1 hrest
      simp [this]
    | some b =>
      by_cases hgt : sub64 r.timestamp b > pg.expireInterval
      · simp only [Start, evaluate_of_gt pg r b hget hgt]
        have := Start_settled c t0 reqs (sweepTask noFaults pg r) r.timestamp
          (by rw [sweepTask_noFaults, ← hc]; exact Expirys.get_set_self _ _ _) h0
          (by rw [sweepTask_noFaults]; exact h1)
          (by rw [sweepTask_noFaults]; exact hrest)
        simp [this]
      · simp only [Start, evaluate_of_le pg r b hget (not_lt.mp hgt)]
        exact ih pg hrest

theorem Start_append (f : Faults) (reqs : List expireReq) (q : expireReq) :
    ∀ pg : Postgres,
      Start f pg (reqs ++ [q]) =
        ((Start f (Start f pg reqs).1 [q]).1,
          (Start f pg reqs).2 ++ (Start f (Start f pg reqs).1 [q]).2) := by
  induction reqs with
  | nil => intro pg; simp [Start]
  | cons r reqs ih =>
    intro pg
    cases hev : evaluate pg r with
    | mk pg1 l =>
      cases l with
      | none => simp only [List.cons_append, Start, hev]; exact ih pg1
      | some s =>
        have h := ih (sweepTask f pg1 s)
        simp only [List.cons_append, Start, hev, List.append_eq] at h ⊢
        rw [h]

theorem evaluate_expireInterval (pg : Postgres) (req : expireReq) :
    (evaluate pg req).1.expireInterval = pg.expireInterval := by
  unfold evaluate
  split
  · rfl
  · split <;> rfl

theorem sweepTask_expireInterval (f : Faults) (pg : Postgres) (req : expireReq) :
    (sweepTask f pg req).expireInterval = pg.expireInterval := by
  unfold sweepTask
  split <;> rfl

theorem Start_expireInterval (f : Faults) (reqs : List expireReq) :
    ∀ pg : Postgres, (Start f pg reqs).1.expireInterval = pg.expireInterval := by
  induction reqs with
  | nil => intro pg; rfl
  | cons r reqs ih =>
    intro pg
    have h1 := evaluate_expireInterval pg r
    cases hev : evaluate pg r with
    | mk pg1 l =>
      rw [hev] at h1
      cases l with
      | none => simp only [Start, hev]; rw [ih pg1]; exact h1
      | some s =>
        simp only [Start, hev]
        rw [ih (sweepTask f pg1 s), sweepTask_expireInterval]; exact h1

/-- C4: requests of one customer `c`, handled in order by `Start`, every launched sweep
succeeding and finishing before the next request.  If all timestamps lie within
`expireInterval` after the first one, at most one sweep is launched over the whole
sequence.  And after any sequence of requests, a further request `(c, t)` whose
timestamp exceeds the baseline `b` then recorded for `c` by more than `expireInterval`
launches exactly one more sweep, that for `(c, t)`, after which the baseline is `t`. -/
theorem C4_debounce (pg : Postgres) (c : String) :
    (∀ (t0 : Int) (rest : List expireReq),
      (∀ r ∈ rest, r.customerId = c ∧ t0 ≤ r.timestamp ∧
        r.timestamp - t0 ≤ pg.expireInterval) →
      (Start noFaults pg (⟨t0, c⟩ :: rest)).2.length ≤ 1) ∧
    (∀ (reqs : List expireReq) (t b : Int),
      (Start noFaults pg reqs).1.expirys.get c = some b →
      sub64 t b > pg.expireInterval →
      (Start noFaults pg (reqs ++ [⟨t, c⟩])).2 = (Start noFaults pg reqs).2 ++ [⟨t, c⟩] ∧
      (Start noFaults pg (reqs ++ [⟨t, c⟩])).1.expirys.get c = some t) := by
  constructor
  · intro t0 rest hall
    cases rest with
    | nil =>
      cases hev : evaluate pg ⟨t0, c⟩ with
      | mk pg1 l =>
        cases l with
        | none => simp [Start, hev]
        | some s => simp [Start, hev]
    | cons r rest =>
      have hr := hall r (List.mem_cons_self _ _)
      apply Start_window c t0 _ pg
      intro q hq
      rcases List.mem_cons.mp hq with h | h
      · subst h
        refine ⟨rfl, le_refl _, ?_⟩
        show t0 - t0 ≤ pg.expireInterval
        omega
      · exact hall q h
  · intro reqs t b hb hgt
    rw [Start_append]
    have hgt2 : sub64 t b > (Start noFaults pg reqs).1.expireInterval := by
      rw [Start_expireInterval]; exact hgt
    have hev := evaluate_of_gt (Start noFaults pg reqs).1 ⟨t, c⟩ b hb hgt2
    simp only [Start, hev, true_and]
    rw [sweepTask_noFaults]
    exact Expirys.get_set_self _ _ _

/-- C4 at the scenario of the specification (interval 60): writes at seconds 0, 30 and
60 launch no more than one sweep; after the writes at 0 and 30 the baseline is 0 and
the write at second 100 launches exactly the sweep for second 100. -/
theorem C4_debounce_witness :
    (Start noFaults exPgFresh [⟨0, "a"⟩, ⟨30, "a"⟩, ⟨60, "a"⟩]).2.length ≤ 1 ∧
    ((Start noFaults exPgFresh ([⟨0, "a"⟩, ⟨30, "a"⟩] ++ [⟨100, "a"⟩])).2 =
        (Start noFaults exPgFresh [⟨0, "a"⟩, ⟨30, "a"⟩]).2 ++ [⟨100, "a"⟩] ∧
      (Start noFaults exPgFresh ([⟨0, "a"⟩, ⟨30, "a"⟩] ++ [⟨100, "a"⟩])).1.expirys.get "a" =
        some 100) :=
  ⟨(C4_debounce exPgFresh "a").1 0 [⟨30, "a"⟩, ⟨60, "a"⟩] (by decide),
   (C4_debounce exPgFresh "a").2 [⟨0, "a"⟩, ⟨30, "a"⟩] 100 0 (by decide) (by decide)⟩

/-! ## C7: validation of the read operations -/

/-- C7: with an empty customer identifier every read operation — `GetInstance`,
`GetGroup`, `ListInstances`, `ListGroups`, `CountInstances`, `CountGroups`,
`GetCustomer` — returns a nil response and `ErrMissingCustomerId`, whatever the other
request fields, the stored tables and the fault schedule are, and sends no statement:
the database, its statement counter included, is what it was. -/
theorem C7_reads_require_customerId (f : Faults) (db : DB) (request : Options)
    (cr : CustomerRequest) (h : request.CustomerId = "") (hc : cr.Id = "") :
    ((GetInstance f db request).response = none ∧
      (GetInstance f db request).err = some Err.ErrMissingCustomerId ∧
      (GetInstance f db request).db = db) ∧
    ((GetGroup f db request).response = none ∧
      (GetGroup f db request).err = some Err.ErrMissingCustomerId ∧
      (GetGroup f db request).db = db) ∧
    ((ListInstances f db request).response = none ∧
      (ListInstances f db request).err = some Err.ErrMissingCustomerId ∧
      (ListInstances f db request).db = db) ∧
    ((ListGroups f db request).response = none ∧
      (ListGroups f db request).err = some Err.ErrMissingCustomerId ∧
      (ListGroups f db request).db = db) ∧
    ((CountInstances f db request).response = none ∧
      (CountInstances f db request).err = some Err.ErrMissingCustomerId ∧
      (CountInstances f db request).db = db) ∧
    ((CountGroups f db request).response = none ∧
      (CountGroups f db request).err = some Err.ErrMissingCustomerId ∧
      (CountGroups f db request).db = db) ∧
    ((GetCustomer f db cr).response = none ∧
      (GetCustomer f db cr).err = some Err.ErrMissingCustomerId ∧
      (GetCustomer f db cr).db = db) := by
  refine ⟨?_, ?_, ?_, ?_, ?_, ?_, ?_⟩
  · simp [GetInstance, h]
  · simp [GetGroup, h]
  · simp [ListInstances, listInstances, h]
  · simp [ListGroups, h]
  · simp [CountInstances, h]
  · simp [CountGroups, h]
  · simp [GetCustomer, hc]

/-- C7 at a concrete request: empty customer id, empty instance and group id, on a
database that holds rows, with a failing driver. -/
theorem C7_reads_require_customerId_witness :
    ((GetInstance failFirst exDbGroup ⟨"", "ec2", "", ""⟩).response = none ∧
      (GetInstance failFirst exDbGroup ⟨"", "ec2", "", ""⟩).err =
        some Err.ErrMissingCustomerId ∧
      (GetInstance failFirst exDbGroup ⟨"", "ec2", "", ""⟩).db = exDbGroup) :=
  (C7_reads_require_customerId failFirst exDbGroup ⟨"", "ec2", "", ""⟩ ⟨""⟩ rfl rfl).1

/-! ## C10: type filter together with the group restriction -/

/-- C10 fails on the code: for customer `a`, group `g1` and type `ec2`, `ListInstances`
returns both members of `g1`, the `rds` instance `i2` included, and so does `GetGroup`:
`listInstances` drops the type filter whenever a group id is given. -/
theorem C10_group_ignores_type :
    (ListInstances noFaults exDbGroup ⟨"a", "ec2", "g1", ""⟩).response =
      some [⟨"i1", "a", "ec2", "d1", 10⟩, ⟨"i2", "a", "rds", "d2", 20⟩] ∧
    (ListInstances noFaults exDbGroup ⟨"a", "ec2", "g1", ""⟩).err = none ∧
    (GetGroup noFaults exDbGroup ⟨"a", "ec2", "g1", ""⟩).response =
      some ⟨⟨"g1", "a", "security", "dg", 30⟩,
        [⟨"i1", "a", "ec2", "d1", 10⟩, ⟨"i2", "a", "rds", "d2", 20⟩], 2⟩ ∧
    (GetGroup noFaults exDbGroup ⟨"a", "ec2", "g1", ""⟩).err = none := by
  decide

/-! ## Lemmas: statements and their effect on the tables -/

theorem exec_statements (f : Faults) (db : DB) (stmt : DB → Except Err DB) :
    (exec f db stmt).2.statements = db.statements + 1 := by
  unfold exec
  split
  · rfl
  · split <;> rfl

/-- A relation between the database before and after that ignores the statement counter
and holds across the statement holds across its execution. -/
theorem exec_rel (R : DB → DB → Prop) (f : Faults) (db : DB) (stmt : DB → Except Err DB)
    (hsame : ∀ n, R db { db with statements := n })
    (hstmt : ∀ d1, stmt db = Except.ok d1 → ∀ n, R db { d1 with statements := n }) :
    R db (exec f db stmt).2 := by
  unfold exec
  split
  · exact hsame _
  · split
    · exact hsame _
    · rename_i d1 h
      exact hstmt d1 h _

theorem exec_of_none (f : Faults) (db : DB) (stmt : DB → Except Err DB)
    (h : (exec f db stmt).1 = none) :
    ∃ d1, stmt db = Except.ok d1 ∧
      (exec f db stmt).2 = { d1 with statements := db.statements + 1 } := by
  unfold exec at *
  cases hf : f db.statements with
  | some m => simp [hf] at h
  | none =>
    cases hd : stmt db with
    | error e => simp [hf, hd] at h
    | ok d1 => exact ⟨d1, rfl, by simp⟩

theorem exec_noFaults_ok (db d1 : DB) (stmt : DB → Except Err DB)
    (h : stmt db = Except.ok d1) :
    exec noFaults db stmt = (none, { d1 with statements := db.statements + 1 }) := by
  simp [exec, noFaults, h]

theorem upsertInstanceStmt_eq (now : Int) (i : Instance) (db : DB) :
    upsertInstanceStmt now i db = Except.ok { db with instances :=
      (if db.instances.any (InstanceRow.hasKey i.Id i.CustomerId) then
        db.instances.map (fun r => if r.hasKey i.Id i.CustomerId then
          { r with type := i.Type_, data := i.Data, updated_at := writeTime now } else r)
      else db.instances ++ [⟨i.Id, i.CustomerId, i.Type_, i.Data, writeTime now⟩]) } := by
  unfold upsertInstanceStmt
  by_cases h : db.instances.any (InstanceRow.hasKey i.Id i.CustomerId) = true
  · simp only [h, if_true]
  · simp only [h, insertInstance]
    simp

theorem upsertGroupStmt_eq (now : Int) (g : Group) (db : DB) :
    upsertGroupStmt now g db = Except.ok { db with groups :=
      (if db.groups.any (GroupRow.hasKey g.Name g.CustomerId) then
        db.groups.map (fun r => if r.hasKey g.Name g.CustomerId then
          { r with type := g.Type_, data := g.Data, updated_at := writeTime now } else r)
      else db.groups ++ [⟨g.Name, g.CustomerId, g.Type_, g.Data, writeTime now⟩]) } := by
  unfold upsertGroupStmt
  by_cases h : db.groups.any (GroupRow.hasKey g.Name g.CustomerId) = true
  · simp only [h, if_true]
  · simp only [h, insertGroup]
    simp

theorem upsertCustomerStmt_eq (c : Customer) (db : DB) :
    upsertCustomerStmt c db = Except.ok { db with customers :=
      (if db.customers.any (fun r => r.id == c.Id) then
        db.customers.map (fun r => if r.id == c.Id then { r with last_sync := c.LastSync } else r)
      else db.customers ++ [⟨c.Id, c.LastSync⟩]) } := by
  unfold upsertCustomerStmt
  by_cases h : db.customers.any (fun r => r.id == c.Id) = true
  · simp only [h, if_true]
  · simp only [h, insertCustomer]
    simp

theorem upsertDataRow_eq (e : DataEntity) (t : List DataRow) :
    upsertDataRow e t = Except.ok (
      if t.any (DataRow.hasKey e.Id e.CustomerId) then
        t.map (fun r => if r.hasKey e.Id e.CustomerId then { r with data := e.Data } else r)
      else t ++ [⟨e.Id, e.CustomerId, e.Data⟩]) := by
  unfold upsertDataRow
  by_cases h : t.any (DataRow.hasKey e.Id e.CustomerId) = true
  · simp only [h, if_true]
  · simp only [h, insertDataRow]
    simp

/-- What a successful `ensureGroup` statement does: nothing, or it appends one row whose
key was not in the table. -/
theorem ensureGroupStmt_ok (now : Int) (g : GroupRef) (db d1 : DB)
    (h : ensureGroupStmt now g db = Except.ok d1) :
    d1 = db ∨ ∃ r : GroupRow, db.groups.any (GroupRow.hasKey r.name r.customer_id) = false ∧
      d1 = { db with groups := db.groups ++ [r] } := by
  unfold ensureGroupStmt at h
  split at h
  · left; cases h; rfl
  · unfold insertGroup at h
    split at h
    · cases h
    · rename_i hk
      right
      refine ⟨⟨varchar128 g.Name, g.CustomerId, g.Type_, g.Data, writeTime now⟩, by simpa using hk, ?_⟩
      cases h; rfl

/-- What a successful `ensureInstance` statement does. -/
theorem ensureInstanceStmt_ok (now : Int) (i : InstanceRef) (db d1 : DB)
    (h : ensureInstanceStmt now i db = Except.ok d1) :
    d1 = db ∨ ∃ r : InstanceRow,
      db.instances.any (InstanceRow.hasKey r.id r.customer_id) = false ∧
      d1 = { db with instances := db.instances ++ [r] } := by
  unfold ensureInstanceStmt at h
  split at h
  · left; cases h; rfl
  · unfold insertInstance at h
    split at h
    · cases h
    · rename_i hk
      right
      refine ⟨⟨varchar128 i.Id, i.CustomerId, i.Type_, i.Data, writeTime now⟩, by simpa using hk, ?_⟩
      cases h; rfl

/-- What a successful link statement does. -/
theorem insertLinkStmt_ok (c n i : String) (db d1 : DB)
    (h : insertLinkStmt c n i db = Except.ok d1) :
    d1 = db ∨ ∃ r : LinkRow,
      db.groups_instances.any (LinkRow.hasKey r.customer_id r.group_name r.instance_id) = false ∧
      d1 = { db with groups_instances := db.groups_instances ++ [r] } := by
  unfold insertLinkStmt at h
  split at h
  · left; cases h; rfl
  · unfold insertLink at h
    split at h
    · cases h
    · rename_i hk
      right
      refine ⟨⟨c, varchar128 n, varchar128 i⟩, by simpa using hk, ?_⟩
      cases h; rfl

/-- The method `putCustomer` writes table `customers` only. -/
theorem putCustomer_frame (f : Faults) (db : DB) (c : Customer) :
    (putCustomer f db c).2.instances = db.instances ∧
    (putCustomer f db c).2.groups = db.groups ∧
    (putCustomer f db c).2.groups_instances = db.groups_instances ∧
    (putCustomer f db c).2.route_tables = db.route_tables ∧
    (putCustomer f db c).2.subnets = db.subnets := by
  unfold putCustomer
  apply exec_rel (fun a b => b.instances = a.instances ∧ b.groups = a.groups ∧
    b.groups_instances = a.groups_instances ∧ b.route_tables = a.route_tables ∧
    b.subnets = a.subnets)
  · intro n; exact ⟨rfl, rfl, rfl, rfl, rfl⟩
  · intro d1 h n
    rw [upsertCustomerStmt_eq] at h
    cases h
    exact ⟨rfl, rfl, rfl, rfl, rfl⟩

/-- The database `PutEntity` leaves is the one after the put, or that one after
`putCustomer`. -/
theorem PutEntity_db (f : Faults) (now : Int) (db : DB) (entity : Entity) :
    (PutEntity f now db entity).db = (putDispatch f now db entity).2.1 ∨
    ∃ c : Customer,
      (PutEntity f now db entity).db = (putCustomer f (putDispatch f now db entity).2.1 c).2 := by
  unfold PutEntity
  split
  · rename_i h; left; rw [h]
  · rename_i h
    rw [h]
    split
    · rename_i h2; right; exact ⟨_, by rw [h2]⟩
    · rename_i h2; right; exact ⟨_, by rw [h2]⟩

theorem groupsKept_of_eq (a b : DB) (h : b.groups = a.groups) : groupsKept a b := by
  intro name cust _
  rw [h]

theorem instancesKept_of_eq (a b : DB) (h : b.instances = a.instances) : instancesKept a b := by
  intro id cust _
  rw [h]

theorem groupsKept_trans (a b c : DB) (h1 : groupsKept a b) (h2 : groupsKept b c) :
    groupsKept a c := by
  intro name cust hex
  have e1 := h1 name cust hex
  obtain ⟨r, hr, hk⟩ := hex
  have hb : ∃ r ∈ b.groups, GroupRow.hasKey name cust r = true := by
    have : r ∈ b.groups.filter (GroupRow.hasKey name cust) := by
      rw [e1]; exact List.mem_filter.mpr ⟨hr, hk⟩
    exact ⟨r, (List.mem_filter.mp this).1, hk⟩
  rw [h2 name cust hb, e1]

theorem instancesKept_trans (a b c : DB) (h1 : instancesKept a b) (h2 : instancesKept b c) :
    instancesKept a c := by
  intro id cust hex
  have e1 := h1 id cust hex
  obtain ⟨r, hr, hk⟩ := hex
  have hb : ∃ r ∈ b.instances, InstanceRow.hasKey id cust r = true := by
    have : r ∈ b.instances.filter (InstanceRow.hasKey id cust) := by
      rw [e1]; exact List.mem_filter.mpr ⟨hr, hk⟩
    exact ⟨r, (List.mem_filter.mp this).1, hk⟩
  rw [h2 id cust hb, e1]

theorem groupRow_hasKey_iff (name cust : String) (r : GroupRow) :
    GroupRow.hasKey name cust r = true ↔ r.name = name ∧ r.customer_id = cust := by
  simp [GroupRow.hasKey]

theorem instanceRow_hasKey_iff (id cust : String) (r : InstanceRow) :
    InstanceRow.hasKey id cust r = true ↔ r.id = id ∧ r.customer_id = cust := by
  simp [InstanceRow.hasKey]

theorem linkRow_hasKey_iff (c n i : String) (r : LinkRow) :
    LinkRow.hasKey c n i r = true ↔ r.customer_id = c ∧ r.group_name = n ∧ r.instance_id = i := by
  simp [LinkRow.hasKey, and_assoc]

theorem ensureGroup_groupsKept (f : Faults) (now : Int) (db : DB) (g : GroupRef) :
    groupsKept db (ensureGroup f now db g).2 := by
  unfold ensureGroup
  apply exec_rel groupsKept
  · intro n; exact groupsKept_of_eq _ _ rfl
  · intro d1 h n
    rcases ensureGroupStmt_ok now g db d1 h with h1 | ⟨r, hr, h1⟩
    · subst h1; exact groupsKept_of_eq _ _ rfl
    · subst h1
      intro name cust ⟨r0, hr0, hk0⟩
      have hne : GroupRow.hasKey name cust r = false := by
        by_contra hc
        have hc : GroupRow.hasKey name cust r = true := by simpa using hc
        rw [groupRow_hasKey_iff] at hc hk0
        have : db.groups.any (GroupRow.hasKey r.name r.customer_id) = true := by
          rw [List.any_eq_true]
          exact ⟨r0, hr0, by rw [groupRow_hasKey_iff, hc.1, hc.2]; exact hk0⟩
        rw [this] at hr
        cases hr
      simp [List.filter_append, hne]

theorem ensureInstance_instancesKept (f : Faults) (now : Int) (db : DB) (i : InstanceRef) :
    instancesKept db (ensureInstance f now db i).2 := by
  unfold ensureInstance
  apply exec_rel instancesKept
  · intro n; exact instancesKept_of_eq _ _ rfl
  · intro d1 h n
    rcases ensureInstanceStmt_ok now i db d1 h with h1 | ⟨r, hr, h1⟩
    · subst h1; exact instancesKept_of_eq _ _ rfl
    · subst h1
      intro id cust ⟨r0, hr0, hk0⟩
      have hne : InstanceRow.hasKey id cust r = false := by
        by_contra hc
        have hc : InstanceRow.hasKey id cust r = true := by simpa using hc
        rw [instanceRow_hasKey_iff] at hc hk0
        have : db.instances.any (InstanceRow.hasKey r.id r.customer_id) = true := by
          rw [List.any_eq_true]
          exact ⟨r0, hr0, by rw [instanceRow_hasKey_iff, hc.1, hc.2]; exact hk0⟩
        rw [this] at hr
        cases hr
      simp [List.filter_append, hne]

/-- The link statement writes table `groups_instances` only. -/
theorem execLink_frame (f : Faults) (db : DB) (c n i : String) :
    (exec f db (insertLinkStmt c n i)).2.instances = db.instances ∧
    (exec f db (insertLinkStmt c n i)).2.groups = db.groups := by
  apply exec_rel (fun a b => b.instances = a.instances ∧ b.groups = a.groups)
  · intro n; exact ⟨rfl, rfl⟩
  · intro d1 h k
    rcases insertLinkStmt_ok c n i db d1 h with h1 | ⟨r, _, h1⟩
    · subst h1; exact ⟨rfl, rfl⟩
    · subst h1; exact ⟨rfl, rfl⟩

/-- The method `ensureGroup` writes table `groups` only. -/
theorem ensureGroup_frame (f : Faults) (now : Int) (db : DB) (g : GroupRef) :
    (ensureGroup f now db g).2.instances = db.instances ∧
    (ensureGroup f now db g).2.groups_instances = db.groups_instances := by
  unfold ensureGroup
  apply exec_rel (fun a b => b.instances = a.instances ∧ b.groups_instances = a.groups_instances)
  · intro n; exact ⟨rfl, rfl⟩
  · intro d1 h k
    rcases ensureGroupStmt_ok now g db d1 h with h1 | ⟨r, _, h1⟩
    · subst h1; exact ⟨rfl, rfl⟩
    · subst h1; exact ⟨rfl, rfl⟩

/-- The method `ensureInstance` writes table `instances` only. -/
theorem ensureInstance_frame (f : Faults) (now : Int) (db : DB) (i : InstanceRef) :
    (ensureInstance f now db i).2.groups = db.groups ∧
    (ensureInstance f now db i).2.groups_instances = db.groups_instances := by
  unfold ensureInstance
  apply exec_rel (fun a b => b.groups = a.groups ∧ b.groups_instances = a.groups_instances)
  · intro n; exact ⟨rfl, rfl⟩
  · intro d1 h k
    rcases ensureInstanceStmt_ok now i db d1 h with h1 | ⟨r, _, h1⟩
    · subst h1; exact ⟨rfl, rfl⟩
    · subst h1; exact ⟨rfl, rfl⟩

theorem putInstanceLoop_cons (f : Faults) (now : Int) (id : String) (g : GroupRef)
    (gs : List GroupRef) (db : DB) :
    putInstanceLoop f now id (g :: gs) db =
      if (ensureGroup f now db g).1 = none then
        if (exec f (ensureGroup f now db g).2 (insertLinkStmt g.CustomerId g.Name id)).1 = none then
          putInstanceLoop f now id gs
            (exec f (ensureGroup f now db g).2 (insertLinkStmt g.CustomerId g.Name id)).2
        else exec f (ensureGroup f now db g).2 (insertLinkStmt g.CustomerId g.Name id)
      else ensureGroup f now db g := by
  conv_lhs => unfold putInstanceLoop
  rcases h1 : ensureGroup f now db g with ⟨o1, db1⟩
  cases o1 with
  | some e => simp
  | none =>
    simp only [if_true]
    rcases h2 : exec f db1 (insertLinkStmt g.CustomerId g.Name id) with ⟨o2, db2⟩
    cases o2 <;> simp

theorem putGroupLoop_cons (f : Faults) (now : Int) (c n : String) (i : InstanceRef)
    (is : List InstanceRef) (db : DB) :
    putGroupLoop f now c n (i :: is) db =
      if (ensureInstance f now db i).1 = none then
        if (exec f (ensureInstance f now db i).2 (insertLinkStmt c n i.Id)).1 = none then
          putGroupLoop f now c n is
            (exec f (ensureInstance f now db i).2 (insertLinkStmt c n i.Id)).2
        else exec f (ensureInstance f now db i).2 (insertLinkStmt c n i.Id)
      else ensureInstance f now db i := by
  conv_lhs => unfold putGroupLoop
  rcases h1 : ensureInstance f now db i with ⟨o1, db1⟩
  cases o1 with
  | some e => simp
  | none =>
    simp only [if_true]
    rcases h2 : exec f db1 (insertLinkStmt c n i.Id) with ⟨o2, db2⟩
    cases o2 <;> simp

theorem putInstanceLoop_frame (f : Faults) (now : Int) (id : String) (gs : List GroupRef) :
    ∀ db : DB, (putInstanceLoop f now id gs db).2.instances = db.instances ∧
      groupsKept db (putInstanceLoop f now id gs db).2 := by
  induction gs with
  | nil => intro db; exact ⟨rfl, groupsKept_of_eq _ _ rfl⟩
  | cons g gs ih =>
    intro db
    have e1 := ensureGroup_frame f now db g
    have k1 := ensureGroup_groupsKept f now db g
    have e2 := execLink_frame f (ensureGroup f now db g).2 g.CustomerId g.Name id
    have k2 : groupsKept db
        (exec f (ensureGroup f now db g).2 (insertLinkStmt g.CustomerId g.Name id)).2 :=
      groupsKept_trans _ _ _ k1 (groupsKept_of_eq _ _ e2.2)
    rw [putInstanceLoop_cons]
    by_cases h1 : (ensureGroup f now db g).1 = none
    · rw [if_pos h1]
      by_cases h2 :
          (exec f (ensureGroup f now db g).2 (insertLinkStmt g.CustomerId g.Name id)).1 = none
      · rw [if_pos h2]
        exact ⟨((ih _).1.trans e2.1).trans e1.1, groupsKept_trans _ _ _ k2 (ih _).2⟩
      · rw [if_neg h2]
        exact ⟨e2.1.trans e1.1, k2⟩
    · rw [if_neg h1]
      exact ⟨e1.1, k1⟩

theorem putGroupLoop_frame (f : Faults) (now : Int) (c n : String) (is : List InstanceRef) :
    ∀ db : DB, (putGroupLoop f now c n is db).2.groups = db.groups ∧
      instancesKept db (putGroupLoop f now c n is db).2 := by
  induction is with
  | nil => intro db; exact ⟨rfl, instancesKept_of_eq _ _ rfl⟩
  | cons i is ih =>
    intro db
    have e1 := ensureInstance_frame f now db i
    have k1 := ensureInstance_instancesKept f now db i
    have e2 := execLink_frame f (ensureInstance f now db i).2 c n i.Id
    have k2 : instancesKept db
        (exec f (ensureInstance f now db i).2 (insertLinkStmt c n i.Id)).2 :=
      instancesKept_trans _ _ _ k1 (instancesKept_of_eq _ _ e2.1)
    rw [putGroupLoop_cons]
    by_cases h1 : (ensureInstance f now db i).1 = none
    · rw [if_pos h1]
      by_cases h2 : (exec f (ensureInstance f now db i).2 (insertLinkStmt c n i.Id)).1 = none
      · rw [if_pos h2]
        exact ⟨((ih _).1.trans e2.2).trans e1.1, instancesKept_trans _ _ _ k2 (ih _).2⟩
      · rw [if_neg h2]
        exact ⟨e2.2.trans e1.1, k2⟩
    · rw [if_neg h1]
      exact ⟨e1.1, k1⟩

theorem putInstance_eq (f : Faults) (now : Int) (db : DB) (i : Instance) :
    putInstance f now db i =
      if (exec f db (upsertInstanceStmt now i)).1 = none then
        putInstanceLoop f now i.Id i.Groups (exec f db (upsertInstanceStmt now i)).2
      else exec f db (upsertInstanceStmt now i) := by
  unfold putInstance
  rcases h1 : exec f db (upsertInstanceStmt now i) with ⟨o1, db1⟩
  cases o1 <;> simp

theorem putGroup_eq (f : Faults) (now : Int) (db : DB) (g : Group) :
    putGroup f now db g =
      if (exec f db (upsertGroupStmt now g)).1 = none then
        putGroupLoop f now g.CustomerId g.Name g.Instances (exec f db (upsertGroupStmt now g)).2
      else exec f db (upsertGroupStmt now g) := by
  unfold putGroup
  rcases h1 : exec f db (upsertGroupStmt now g) with ⟨o1, db1⟩
  cases o1 <;> simp

/-- The statement of `putInstance` writes table `instances` only. -/
theorem execUpsertInstance_frame (f : Faults) (now : Int) (db : DB) (i : Instance) :
    (exec f db (upsertInstanceStmt now i)).2.groups = db.groups ∧
    (exec f db (upsertInstanceStmt now i)).2.groups_instances = db.groups_instances := by
  apply exec_rel (fun a b => b.groups = a.groups ∧ b.groups_instances = a.groups_instances)
  · intro n; exact ⟨rfl, rfl⟩
  · intro d1 h k
    rw [upsertInstanceStmt_eq] at h
    cases h
    exact ⟨rfl, rfl⟩

/-- The statement of `putGroup` writes table `groups` only. -/
theorem execUpsertGroup_frame (f : Faults) (now : Int) (db : DB) (g : Group) :
    (exec f db (upsertGroupStmt now g)).2.instances = db.instances ∧
    (exec f db (upsertGroupStmt now g)).2.groups_instances = db.groups_instances := by
  apply exec_rel (fun a b => b.instances = a.instances ∧
    b.groups_instances = a.groups_instances)
  · intro n; exact ⟨rfl, rfl⟩
  · intro d1 h k
    rw [upsertGroupStmt_eq] at h
    cases h
    exact ⟨rfl, rfl⟩

theorem putInstance_groupsKept (f : Faults) (now : Int) (db : DB) (i : Instance) :
    groupsKept db (putInstance f now db i).2 := by
  have e1 := execUpsertInstance_frame f now db i
  rw [putInstance_eq]
  split
  · exact groupsKept_trans _ _ _ (groupsKept_of_eq _ _ e1.1) (putInstanceLoop_frame _ _ _ _ _).2
  · exact groupsKept_of_eq _ _ e1.1

theorem putGroup_instancesKept (f : Faults) (now : Int) (db : DB) (g : Group) :
    instancesKept db (putGroup f now db g).2 := by
  have e1 := execUpsertGroup_frame f now db g
  rw [putGroup_eq]
  split
  · exact instancesKept_trans _ _ _ (instancesKept_of_eq _ _ e1.1)
      (putGroupLoop_frame _ _ _ _ _ _).2
  · exact instancesKept_of_eq _ _ e1.1

theorem PutEntity_instance_groupsKept (f : Faults) (now : Int) (db : DB) (i : Instance) :
    groupsKept db (PutEntity f now db (Entity.ofInstance i)).db := by
  have k := putInstance_groupsKept f now db i
  rcases PutEntity_db f now db (Entity.ofInstance i) with h | ⟨c, h⟩
  · rw [h]; exact k
  · rw [h]
    exact groupsKept_trans _ _ _ k (groupsKept_of_eq _ _ (putCustomer_frame f _ c).2.1)

theorem PutEntity_group_instancesKept (f : Faults) (now : Int) (db : DB) (g : Group) :
    instancesKept db (PutEntity f now db (Entity.ofGroup g)).db := by
  have k := putGroup_instancesKept f now db g
  rcases PutEntity_db f now db (Entity.ofGroup g) with h | ⟨c, h⟩
  · rw [h]; exact k
  · rw [h]
    exact instancesKept_trans _ _ _ k (instancesKept_of_eq _ _ (putCustomer_frame f _ c).1)

/-! ## C6: stubs do not overwrite -/

/-- C6: when table `groups` already holds a row with the key of a stub `s` referenced in
the `Groups` list of an instance, putting that instance leaves the rows with that key —
their type and data included — exactly as they were, whatever type and data `s`
carries; and when table `instances` already holds a row with the key of a stub referenced
in the `Instances` list of a group, putting that group leaves the rows with that key
exactly as they were. -/
theorem C6_stubs_do_not_overwrite (f : Faults) (now : Int) (db : DB) :
    (∀ (i : Instance) (s : GroupRef), s ∈ i.Groups →
      (∃ r ∈ db.groups, r.name = s.Name ∧ r.customer_id = s.CustomerId) →
      (PutEntity f now db (Entity.ofInstance i)).db.groups.filter
          (GroupRow.hasKey s.Name s.CustomerId) =
        db.groups.filter (GroupRow.hasKey s.Name s.CustomerId)) ∧
    (∀ (g : Group) (s : InstanceRef), s ∈ g.Instances →
      (∃ r ∈ db.instances, r.id = s.Id ∧ r.customer_id = s.CustomerId) →
      (PutEntity f now db (Entity.ofGroup g)).db.instances.filter
          (InstanceRow.hasKey s.Id s.CustomerId) =
        db.instances.filter (InstanceRow.hasKey s.Id s.CustomerId)) := by
  constructor
  · intro i s _ ⟨r, hr, hk⟩
    exact PutEntity_instance_groupsKept f now db i s.Name s.CustomerId
      ⟨r, hr, (groupRow_hasKey_iff _ _ _).mpr hk⟩
  · intro g s _ ⟨r, hr, hk⟩
    exact PutEntity_group_instancesKept f now db g s.Id s.CustomerId
      ⟨r, hr, (instanceRow_hasKey_iff _ _ _).mpr hk⟩

/-- C6 at a concrete store: putting instance `i3` that references group `g1` through an
empty stub keeps the row of `g1`, and putting group `g2` that references instance `i1`
through an empty stub keeps the row of `i1`. -/
theorem C6_stubs_do_not_overwrite_witness :
    (PutEntity noFaults 50 exDbGroup
        (Entity.ofInstance ⟨"i3", "a", "ec2", "d3", [⟨"g1", "a", "", ""⟩]⟩)).db.groups.filter
        (GroupRow.hasKey "g1" "a") =
      exDbGroup.groups.filter (GroupRow.hasKey "g1" "a") ∧
    (PutEntity noFaults 50 exDbGroup
        (Entity.ofGroup ⟨"g2", "a", "elb", "d", [⟨"i1", "a", "", ""⟩]⟩)).db.instances.filter
        (InstanceRow.hasKey "i1" "a") =
      exDbGroup.instances.filter (InstanceRow.hasKey "i1" "a") :=
  ⟨(C6_stubs_do_not_overwrite noFaults 50 exDbGroup).1
      ⟨"i3", "a", "ec2", "d3", [⟨"g1", "a", "", ""⟩]⟩ ⟨"g1", "a", "", ""⟩
      (by decide) (by decide),
   (C6_stubs_do_not_overwrite noFaults 50 exDbGroup).2
      ⟨"g2", "a", "elb", "d", [⟨"i1", "a", "", ""⟩]⟩ ⟨"i1", "a", "", ""⟩
      (by decide) (by decide)⟩

/-! ## C9: round trip -/

/-- A successful `PutEntity`: the put returned nil, `putCustomer` ran and returned nil. -/
theorem PutEntity_of_ok (f : Faults) (now : Int) (db : DB) (entity : Entity)
    (h : (PutEntity f now db entity).err = none) :
    (putDispatch f now db entity).1 = none ∧
    ∃ c : Customer,
      (putCustomer f (putDispatch f now db entity).2.1 c).1 = none ∧
      (PutEntity f now db entity).db = (putCustomer f (putDispatch f now db entity).2.1 c).2 := by
  unfold PutEntity at h ⊢
  split at h
  · simp at h
  · rename_i db1 cust resp hd
    rw [hd]
    split at h
    · simp at h
    · rename_i db2 hc
      refine ⟨rfl, ⟨cust, now⟩, ?_, ?_⟩
      · simp [hc]
      · simp [hc]

theorem firstRow_filter {α : Type} (l : List α) (p : α → Bool) (h : ∃ r ∈ l, p r = true) :
    ∃ r, firstRow (l.filter p) = Except.ok r ∧ r ∈ l ∧ p r = true := by
  obtain ⟨r0, hr0, hp0⟩ := h
  have hmem : r0 ∈ l.filter p := List.mem_filter.mpr ⟨hr0, hp0⟩
  cases hf : l.filter p with
  | nil => rw [hf] at hmem; cases hmem
  | cons r rs =>
    have hr : r ∈ l.filter p := by rw [hf]; exact List.mem_cons_self _ _
    exact ⟨r, rfl, (List.mem_filter.mp hr).1, (List.mem_filter.mp hr).2⟩

/-- After the statement of `putInstance` some row has the key, and every row with the
key carries the type and data of the instance. -/
theorem upsertInstance_rows (now : Int) (i : Instance) (l : List InstanceRow) :
    (∃ r ∈ (if l.any (InstanceRow.hasKey i.Id i.CustomerId) then
        l.map (fun r => if r.hasKey i.Id i.CustomerId then
          { r with type := i.Type_, data := i.Data, updated_at := writeTime now } else r)
      else l ++ [⟨i.Id, i.CustomerId, i.Type_, i.Data, writeTime now⟩]),
        InstanceRow.hasKey i.Id i.CustomerId r = true) ∧
    (∀ r ∈ (if l.any (InstanceRow.hasKey i.Id i.CustomerId) then
        l.map (fun r => if r.hasKey i.Id i.CustomerId then
          { r with type := i.Type_, data := i.Data, updated_at := writeTime now } else r)
      else l ++ [⟨i.Id, i.CustomerId, i.Type_, i.Data, writeTime now⟩]),
        InstanceRow.hasKey i.Id i.CustomerId r = true → r.type = i.Type_ ∧ r.data = i.Data) := by
  by_cases h : l.any (InstanceRow.hasKey i.Id i.CustomerId) = true
  · simp only [h, if_true]
    constructor
    · obtain ⟨r, hr, hk⟩ := List.any_eq_true.mp h
      refine ⟨{ r with type := i.Type_, data := i.Data, updated_at := writeTime now }, ?_, ?_⟩
      · exact List.mem_map.mpr ⟨r, hr, by simp [hk]⟩
      · simpa [InstanceRow.hasKey] using hk
    · intro r hr hk
      obtain ⟨r0, _, rfl⟩ := List.mem_map.mp hr
      by_cases hk0 : InstanceRow.hasKey i.Id i.CustomerId r0 = true
      · simp [hk0]
      · simp [hk0] at hk
  · simp only [h]
    have hnone : ∀ r ∈ l, InstanceRow.hasKey i.Id i.CustomerId r = false := by
      simpa using h
    constructor
    · exact ⟨⟨i.Id, i.CustomerId, i.Type_, i.Data, writeTime now⟩, by simp, by simp [InstanceRow.hasKey]⟩
    · intro r hr hk
      rcases List.mem_append.mp hr with h1 | h1
      · rw [hnone r h1] at hk; cases hk
      · simp at h1; subst h1; exact ⟨rfl, rfl⟩

/-- After the statement of `putGroup` some row has the key, and every row with the key
carries the type and data of the group. -/
theorem upsertGroup_rows (now : Int) (g : Group) (l : List GroupRow) :
    (∃ r ∈ (if l.any (GroupRow.hasKey g.Name g.CustomerId) then
        l.map (fun r => if r.hasKey g.Name g.CustomerId then
          { r with type := g.Type_, data := g.Data, updated_at := writeTime now } else r)
      else l ++ [⟨g.Name, g.CustomerId, g.Type_, g.Data, writeTime now⟩]),
        GroupRow.hasKey g.Name g.CustomerId r = true) ∧
    (∀ r ∈ (if l.any (GroupRow.hasKey g.Name g.CustomerId) then
        l.map (fun r => if r.hasKey g.Name g.CustomerId then
          { r with type := g.Type_, data := g.Data, updated_at := writeTime now } else r)
      else l ++ [⟨g.Name, g.CustomerId, g.Type_, g.Data, writeTime now⟩]),
        GroupRow.hasKey g.Name g.CustomerId r = true → r.type = g.Type_ ∧ r.data = g.Data) := by
  by_cases h : l.any (GroupRow.hasKey g.Name g.CustomerId) = true
  · simp only [h, if_true]
    constructor
    · obtain ⟨r, hr, hk⟩ := List.any_eq_true.mp h
      refine ⟨{ r with type := g.Type_, data := g.Data, updated_at := writeTime now }, ?_, ?_⟩
      · exact List.mem_map.mpr ⟨r, hr, by simp [hk]⟩
      · simpa [GroupRow.hasKey] using hk
    · intro r hr hk
      obtain ⟨r0, _, rfl⟩ := List.mem_map.mp hr
      by_cases hk0 : GroupRow.hasKey g.Name g.CustomerId r0 = true
      · simp [hk0]
      · simp [hk0] at hk
  · simp only [h]
    have hnone : ∀ r ∈ l, GroupRow.hasKey g.Name g.CustomerId r = false := by
      simpa using h
    constructor
    · exact ⟨⟨g.Name, g.CustomerId, g.Type_, g.Data, writeTime now⟩, by simp, by simp [GroupRow.hasKey]⟩
    · intro r hr hk
      rcases List.mem_append.mp hr with h1 | h1
      · rw [hnone r h1] at hk; cases hk
      · simp at h1; subst h1; exact ⟨rfl, rfl⟩

/-- After a successful `PutEntity` of an instance, table `instances` holds a row with
its key, and every such row carries its type and data. -/
theorem PutEntity_instance_rows (f : Faults) (now : Int) (db : DB) (i : Instance)
    (h : (PutEntity f now db (Entity.ofInstance i)).err = none) :
    (∃ r ∈ (PutEntity f now db (Entity.ofInstance i)).db.instances,
      InstanceRow.hasKey i.Id i.CustomerId r = true) ∧
    (∀ r ∈ (PutEntity f now db (Entity.ofInstance i)).db.instances,
      InstanceRow.hasKey i.Id i.CustomerId r = true → r.type = i.Type_ ∧ r.data = i.Data) := by
  obtain ⟨hp, c, _, hdb⟩ := PutEntity_of_ok f now db _ h
  have hp1 : (putInstance f now db i).1 = none := hp
  have hdb1 : (PutEntity f now db (Entity.ofInstance i)).db.instances =
      (putInstance f now db i).2.instances := by
    rw [hdb]; exact (putCustomer_frame f _ c).1
  rw [hdb1]
  rw [putInstance_eq] at hp1 ⊢
  by_cases hu : (exec f db (upsertInstanceStmt now i)).1 = none
  · rw [if_pos hu]
    rw [(putInstanceLoop_frame f now i.Id i.Groups _).1]
    obtain ⟨d1, hd1, he⟩ := exec_of_none f db _ hu
    rw [upsertInstanceStmt_eq] at hd1
    cases hd1
    rw [he]
    exact upsertInstance_rows now i db.instances
  · rw [if_neg hu] at hp1
    exact absurd hp1 hu

/-- After a successful `PutEntity` of a group, table `groups` holds a row with its key,
and every such row carries its type and data. -/
theorem PutEntity_group_rows (f : Faults) (now : Int) (db : DB) (g : Group)
    (h : (PutEntity f now db (Entity.ofGroup g)).err = none) :
    (∃ r ∈ (PutEntity f now db (Entity.ofGroup g)).db.groups,
      GroupRow.hasKey g.Name g.CustomerId r = true) ∧
    (∀ r ∈ (PutEntity f now db (Entity.ofGroup g)).db.groups,
      GroupRow.hasKey g.Name g.CustomerId r = true → r.type = g.Type_ ∧ r.data = g.Data) := by
  obtain ⟨hp, c, _, hdb⟩ := PutEntity_of_ok f now db _ h
  have hp1 : (putGroup f now db g).1 = none := hp
  have hdb1 : (PutEntity f now db (Entity.ofGroup g)).db.groups =
      (putGroup f now db g).2.groups := by
    rw [hdb]; exact (putCustomer_frame f _ c).2.1
  rw [hdb1]
  rw [putGroup_eq] at hp1 ⊢
  by_cases hu : (exec f db (upsertGroupStmt now g)).1 = none
  · rw [if_pos hu]
    rw [(putGroupLoop_frame f now g.CustomerId g.Name g.Instances _).1]
    obtain ⟨d1, hd1, he⟩ := exec_of_none f db _ hu
    rw [upsertGroupStmt_eq] at hd1
    cases hd1
    rw [he]
    exact upsertGroup_rows now g db.groups
  · rw [if_neg hu] at hp1
    exact absurd hp1 hu

theorem query_of_none {α : Type} (f : Faults) (db : DB) (q : DB → Except Err α)
    (h : f db.statements = none) :
    query f db q = (q db, { db with statements := db.statements + 1 }) := by
  simp [query, h]

/-- A lookup of an instance whose key is held by some row, with the lookup statement
executed by storage, returns the first row with the key. -/
theorem GetInstance_of_row (f : Faults) (db : DB) (request : Options)
    (hc : request.CustomerId ≠ "") (hi : request.InstanceId ≠ "")
    (hf : f db.statements = none)
    (hex : ∃ r ∈ db.instances,
      InstanceRow.hasKey request.InstanceId request.CustomerId r = true) :
    ∃ r ∈ db.instances, InstanceRow.hasKey request.InstanceId request.CustomerId r = true ∧
      (GetInstance f db request).response = some r ∧ (GetInstance f db request).err = none := by
  obtain ⟨r0, hr0, hk0⟩ := hex
  obtain ⟨r, hr, hmem, hp⟩ := firstRow_filter db.instances
    (fun r => r.customer_id == request.CustomerId && r.id == request.InstanceId)
    ⟨r0, hr0, by
      rw [instanceRow_hasKey_iff] at hk0
      simp [hk0.1, hk0.2]⟩
  refine ⟨r, hmem, ?_, ?_⟩
  · rw [instanceRow_hasKey_iff]
    simp at hp
    exact ⟨hp.2, hp.1⟩
  · unfold GetInstance
    rw [if_neg hc, if_neg hi, query_of_none f db _ hf]
    simp [hr]

/-- A lookup of a group whose key is held by some row, with both statements executed by
storage, returns the first row with the key. -/
theorem GetGroup_of_row (f : Faults) (db : DB) (request : Options)
    (hc : request.CustomerId ≠ "") (hg : request.GroupId ≠ "")
    (hf : f db.statements = none) (hf1 : f (db.statements + 1) = none)
    (hex : ∃ r ∈ db.groups, GroupRow.hasKey request.GroupId request.CustomerId r = true) :
    ∃ r ∈ db.groups, GroupRow.hasKey request.GroupId request.CustomerId r = true ∧
      (∃ resp : GroupResponse, (GetGroup f db request).response = some resp ∧
        resp.Group = r) ∧
      (GetGroup f db request).err = none := by
  obtain ⟨r0, hr0, hk0⟩ := hex
  obtain ⟨r, hr, hmem, hp⟩ := firstRow_filter db.groups
    (fun r => r.customer_id == request.CustomerId && r.name == request.GroupId)
    ⟨r0, hr0, by
      rw [groupRow_hasKey_iff] at hk0
      simp [hk0.1, hk0.2]⟩
  refine ⟨r, hmem, ?_, ?_⟩
  · rw [groupRow_hasKey_iff]
    simp at hp
    exact ⟨hp.2, hp.1⟩
  · unfold GetGroup
    rw [if_neg hc, if_neg hg, query_of_none f db _ hf]
    simp only [hr]
    unfold listInstances
    rw [if_neg hc, query_of_none f _ _ hf1]
    exact ⟨⟨_, rfl, rfl⟩, rfl⟩

/-- C9: after a successful `PutEntity` of an instance with non-empty customer id and id,
`GetInstance` for its key — the lookup statement being executed by storage — returns a
nil error and an instance with that key whose type and data are those that were put;
after a successful `PutEntity` of a group with non-empty customer id and name,
`GetGroup` for its key (any type filter) returns a nil error and a response whose group
has that key and the type and data that were put. -/
theorem C9_put_get_round_trip (f : Faults) (now : Int) (db : DB) :
    (∀ (i : Instance) (ty gid : String), i.CustomerId ≠ "" → i.Id ≠ "" →
      (PutEntity f now db (Entity.ofInstance i)).err = none →
      f (PutEntity f now db (Entity.ofInstance i)).db.statements = none →
      ∃ r : InstanceRow,
        (GetInstance f (PutEntity f now db (Entity.ofInstance i)).db
          ⟨i.CustomerId, ty, gid, i.Id⟩).response = some r ∧
        (GetInstance f (PutEntity f now db (Entity.ofInstance i)).db
          ⟨i.CustomerId, ty, gid, i.Id⟩).err = none ∧
        r.id = i.Id ∧ r.customer_id = i.CustomerId ∧ r.type = i.Type_ ∧ r.data = i.Data) ∧
    (∀ (g : Group) (ty iid : String), g.CustomerId ≠ "" → g.Name ≠ "" →
      (PutEntity f now db (Entity.ofGroup g)).err = none →
      f (PutEntity f now db (Entity.ofGroup g)).db.statements = none →
      f ((PutEntity f now db (Entity.ofGroup g)).db.statements + 1) = none →
      ∃ resp : GroupResponse,
        (GetGroup f (PutEntity f now db (Entity.ofGroup g)).db
          ⟨g.CustomerId, ty, g.Name, iid⟩).response = some resp ∧
        (GetGroup f (PutEntity f now db (Entity.ofGroup g)).db
          ⟨g.CustomerId, ty, g.Name, iid⟩).err = none ∧
        resp.Group.name = g.Name ∧ resp.Group.customer_id = g.CustomerId ∧
        resp.Group.type = g.Type_ ∧ resp.Group.data = g.Data) := by
  constructor
  · intro i ty gid hc hi hok hf
    obtain ⟨hex, hall⟩ := PutEntity_instance_rows f now db i hok
    obtain ⟨r, hr, hk, hresp, herr⟩ := GetInstance_of_row f
      (PutEntity f now db (Entity.ofInstance i)).db ⟨i.CustomerId, ty, gid, i.Id⟩ hc hi hf hex
    have hk2 := (instanceRow_hasKey_iff _ _ _).mp hk
    exact ⟨r, hresp, herr, hk2.1, hk2.2, (hall r hr hk).1, (hall r hr hk).2⟩
  · intro g ty iid hc hn hok hf hf1
    obtain ⟨hex, hall⟩ := PutEntity_group_rows f now db g hok
    obtain ⟨r, hr, hk, ⟨resp, hresp, hgr⟩, herr⟩ := GetGroup_of_row f
      (PutEntity f now db (Entity.ofGroup g)).db ⟨g.CustomerId, ty, g.Name, iid⟩ hc hn hf hf1 hex
    have hk2 := (groupRow_hasKey_iff _ _ _).mp hk
    subst hgr
    exact ⟨resp, hresp, herr, hk2.1, hk2.2, (hall _ hr hk).1, (hall _ hr hk).2⟩

/-- C9 at a concrete store: instance `i1` of customer `a` is put again with new type and
data and read back; group `g9` is put for the first time and read back. -/
theorem C9_put_get_round_trip_witness :
    (∃ r : InstanceRow,
      (GetInstance noFaults (PutEntity noFaults 50 exDbGroup
          (Entity.ofInstance ⟨"i1", "a", "rds", "new", []⟩)).db
        ⟨"a", "", "", "i1"⟩).response = some r ∧
      (GetInstance noFaults (PutEntity noFaults 50 exDbGroup
          (Entity.ofInstance ⟨"i1", "a", "rds", "new", []⟩)).db
        ⟨"a", "", "", "i1"⟩).err = none ∧
      r.id = "i1" ∧ r.customer_id = "a" ∧ r.type = "rds" ∧ r.data = "new") ∧
    (∃ resp : GroupResponse,
      (GetGroup noFaults (PutEntity noFaults 50 exDbGroup
          (Entity.ofGroup ⟨"g9", "a", "elb", "dg9", [⟨"i1", "a", "", ""⟩]⟩)).db
        ⟨"a", "", "g9", ""⟩).response = some resp ∧
      (GetGroup noFaults (PutEntity noFaults 50 exDbGroup
          (Entity.ofGroup ⟨"g9", "a", "elb", "dg9", [⟨"i1", "a", "", ""⟩]⟩)).db
        ⟨"a", "", "g9", ""⟩).err = none ∧
      resp.Group.name = "g9" ∧ resp.Group.customer_id = "a" ∧
      resp.Group.type = "elb" ∧ resp.Group.data = "dg9") :=
  ⟨(C9_put_get_round_trip noFaults 50 exDbGroup).1 ⟨"i1", "a", "rds", "new", []⟩ "" ""
      (by decide) (by decide) (by decide) rfl,
   (C9_put_get_round_trip noFaults 50 exDbGroup).2
      ⟨"g9", "a", "elb", "dg9", [⟨"i1", "a", "", ""⟩]⟩ "" ""
      (by decide) (by decide) (by decide) rfl rfl⟩

/-! ## C8: `PutEntity` and the customer identifier -/

theorem exec_fromStorage (f : Faults) (db : DB) (stmt : DB → Except Err DB)
    (h : ∀ e, stmt db = Except.error e → e = Err.duplicateKey) :
    ∀ e, (exec f db stmt).1 = some e → e.fromStorage := by
  intro e he
  unfold exec at he
  cases hf : f db.statements with
  | some m =>
    simp [hf] at he
    subst he
    trivial
  | none =>
    cases hd : stmt db with
    | error e1 =>
      simp [hf, hd] at he
      subst he
      rw [h e1 hd]
      trivial
    | ok d1 => simp [hf, hd] at he

theorem ensureGroupStmt_error (now : Int) (g : GroupRef) (db : DB) (e : Err)
    (h : ensureGroupStmt now g db = Except.error e) : e = Err.duplicateKey := by
  unfold ensureGroupStmt insertGroup at h
  split at h
  · cases h
  · split at h
    · cases h; rfl
    · cases h

theorem ensureInstanceStmt_error (now : Int) (i : InstanceRef) (db : DB) (e : Err)
    (h : ensureInstanceStmt now i db = Except.error e) : e = Err.duplicateKey := by
  unfold ensureInstanceStmt insertInstance at h
  split at h
  · cases h
  · split at h
    · cases h; rfl
    · cases h

theorem insertLinkStmt_error (c n i : String) (db : DB) (e : Err)
    (h : insertLinkStmt c n i db = Except.error e) : e = Err.duplicateKey := by
  unfold insertLinkStmt insertLink at h
  split at h
  · cases h
  · split at h
    · cases h; rfl
    · cases h

theorem putInstanceLoop_fromStorage (f : Faults) (now : Int) (id : String)
    (gs : List GroupRef) :
    ∀ (db : DB) (e : Err), (putInstanceLoop f now id gs db).1 = some e → e.fromStorage := by
  induction gs with
  | nil => intro db e h; simp [putInstanceLoop] at h
  | cons g gs ih =>
    intro db e h
    rw [putInstanceLoop_cons] at h
    split at h
    · split at h
      · exact ih _ e h
      · exact exec_fromStorage f _ _ (fun e1 h1 => insertLinkStmt_error _ _ _ _ e1 h1) e h
    · exact exec_fromStorage f _ _ (fun e1 h1 => ensureGroupStmt_error _ _ _ e1 h1) e h

theorem putGroupLoop_fromStorage (f : Faults) (now : Int) (c n : String)
    (is : List InstanceRef) :
    ∀ (db : DB) (e : Err), (putGroupLoop f now c n is db).1 = some e → e.fromStorage := by
  induction is with
  | nil => intro db e h; simp [putGroupLoop] at h
  | cons i is ih =>
    intro db e h
    rw [putGroupLoop_cons] at h
    split at h
    · split at h
      · exact ih _ e h
      · exact exec_fromStorage f _ _ (fun e1 h1 => insertLinkStmt_error _ _ _ _ e1 h1) e h
    · exact exec_fromStorage f _ _ (fun e1 h1 => ensureInstanceStmt_error _ _ _ e1 h1) e h

theorem putDispatch_fromStorage (f : Faults) (now : Int) (db : DB) (entity : Entity) (e : Err)
    (h : (putDispatch f now db entity).1 = some e) : e.fromStorage := by
  cases entity with
  | ofInstance i =>
    have h1 : (putInstance f now db i).1 = some e := h
    rw [putInstance_eq] at h1
    split at h1
    · exact putInstanceLoop_fromStorage f now _ _ _ e h1
    · exact exec_fromStorage f _ _
        (fun e1 h2 => by rw [upsertInstanceStmt_eq] at h2; cases h2) e h1
  | ofGroup g =>
    have h1 : (putGroup f now db g).1 = some e := h
    rw [putGroup_eq] at h1
    split at h1
    · exact putGroupLoop_fromStorage f now _ _ _ _ e h1
    · exact exec_fromStorage f _ _
        (fun e1 h2 => by rw [upsertGroupStmt_eq] at h2; cases h2) e h1
  | ofRouteTable r =>
    have h1 : (putRouteTable f db r).1 = some e := h
    exact exec_fromStorage f _ _
      (fun e1 h2 => by rw [upsertDataRow_eq] at h2; cases h2) e h1
  | ofSubnet r =>
    have h1 : (putSubnet f db r).1 = some e := h
    exact exec_fromStorage f _ _
      (fun e1 h2 => by rw [upsertDataRow_eq] at h2; cases h2) e h1
  | other => cases h

/-- Every error `PutEntity` returns originates in storage: none is a validation error. -/
theorem PutEntity_fromStorage (f : Faults) (now : Int) (db : DB) (entity : Entity) (e : Err)
    (h : (PutEntity f now db entity).err = some e) : e.fromStorage := by
  unfold PutEntity at h
  split at h
  · rename_i e1 db1 cust resp hd
    have : (putDispatch f now db entity).1 = some e1 := by rw [hd]
    simp at h
    subst h
    exact putDispatch_fromStorage f now db entity _ this
  · split at h
    · rename_i db1 cust resp hd pr e2 db2 hc
      simp at h
      subst h
      have : (putCustomer f db1 ⟨cust, now⟩).1 = some e2 := by rw [hc]
      exact exec_fromStorage f _ _
        (fun e1 h2 => by rw [upsertCustomerStmt_eq] at h2; cases h2) _ this
    · simp at h

theorem putInstanceLoop_statements (f : Faults) (now : Int) (id : String)
    (gs : List GroupRef) :
    ∀ db : DB, db.statements ≤ (putInstanceLoop f now id gs db).2.statements := by
  induction gs with
  | nil => intro db; exact le_refl _
  | cons g gs ih =>
    intro db
    have s1 : (ensureGroup f now db g).2.statements = db.statements + 1 :=
      exec_statements f db _
    have s2 := exec_statements f (ensureGroup f now db g).2
      (insertLinkStmt g.CustomerId g.Name id)
    rw [putInstanceLoop_cons]
    split
    · split
      · have := ih (exec f (ensureGroup f now db g).2 (insertLinkStmt g.CustomerId g.Name id)).2
        omega
      · omega
    · omega

theorem putGroupLoop_statements (f : Faults) (now : Int) (c n : String)
    (is : List InstanceRef) :
    ∀ db : DB, db.statements ≤ (putGroupLoop f now c n is db).2.statements := by
  induction is with
  | nil => intro db; exact le_refl _
  | cons i is ih =>
    intro db
    have s1 : (ensureInstance f now db i).2.statements = db.statements + 1 :=
      exec_statements f db _
    have s2 := exec_statements f (ensureInstance f now db i).2 (insertLinkStmt c n i.Id)
    rw [putGroupLoop_cons]
    split
    · split
      · have := ih (exec f (ensureInstance f now db i).2 (insertLinkStmt c n i.Id)).2
        omega
      · omega
    · omega

theorem putDispatch_statements (f : Faults) (now : Int) (db : DB) (entity : Entity)
    (hkind : entity ≠ Entity.other) :
    db.statements < (putDispatch f now db entity).2.1.statements := by
  cases entity with
  | ofInstance i =>
    show db.statements < (putInstance f now db i).2.statements
    have s1 := exec_statements f db (upsertInstanceStmt now i)
    rw [putInstance_eq]
    split
    · have := putInstanceLoop_statements f now i.Id i.Groups
        (exec f db (upsertInstanceStmt now i)).2
      omega
    · omega
  | ofGroup g =>
    show db.statements < (putGroup f now db g).2.statements
    have s1 := exec_statements f db (upsertGroupStmt now g)
    rw [putGroup_eq]
    split
    · have := putGroupLoop_statements f now g.CustomerId g.Name g.Instances
        (exec f db (upsertGroupStmt now g)).2
      omega
    · omega
  | ofRouteTable r =>
    show db.statements < (putRouteTable f db r).2.statements
    unfold putRouteTable
    rw [exec_statements]
    omega
  | ofSubnet r =>
    show db.statements < (putSubnet f db r).2.statements
    unfold putSubnet
    rw [exec_statements]
    omega
  | other => exact absurd rfl hkind

theorem PutEntity_statements (f : Faults) (now : Int) (db : DB) (entity : Entity)
    (hkind : entity ≠ Entity.other) :
    db.statements < (PutEntity f now db entity).db.statements := by
  have h1 := putDispatch_statements f now db entity hkind
  rcases PutEntity_db f now db entity with h | ⟨c, h⟩
  · rw [h]; exact h1
  · rw [h]
    unfold putCustomer
    rw [exec_statements]
    omega

theorem upsertDataRow_rows (e : DataEntity) (t : List DataRow) :
    ∃ r ∈ (if t.any (DataRow.hasKey e.Id e.CustomerId) then
        t.map (fun r => if r.hasKey e.Id e.CustomerId then { r with data := e.Data } else r)
      else t ++ [⟨e.Id, e.CustomerId, e.Data⟩]),
      r.id = e.Id ∧ r.customer_id = e.CustomerId ∧ r.data = e.Data := by
  by_cases h : t.any (DataRow.hasKey e.Id e.CustomerId) = true
  · simp only [h, if_true]
    obtain ⟨r, hr, hk⟩ := List.any_eq_true.mp h
    refine ⟨{ r with data := e.Data }, List.mem_map.mpr ⟨r, hr, by simp [hk]⟩, ?_⟩
    simpa [DataRow.hasKey] using hk
  · simp only [h]
    exact ⟨⟨e.Id, e.CustomerId, e.Data⟩, by simp, rfl, rfl, rfl⟩

/-- A successful `PutEntity` returns the entity, sends the evaluation request for the
entity's customer id, and has stored the entity. -/
theorem PutEntity_ok_stored (f : Faults) (now : Int) (db : DB) (entity : Entity)
    (hkind : entity ≠ Entity.other)
    (h : (PutEntity f now db entity).err = none) :
    (PutEntity f now db entity).response = some entity ∧
    (PutEntity f now db entity).sent = some ⟨now / Second, entity.customerId⟩ ∧
    entity.storedIn (PutEntity f now db entity).db := by
  refine ⟨?_, ?_, ?_⟩
  · unfold PutEntity at h ⊢
    split at h
    · simp at h
    · rename_i db1 cust resp hd
      split at h
      · simp at h
      · rename_i db2 hc
        simp only [hc]
        have : (putDispatch f now db entity).2.2.2 = resp := by rw [hd]
        rw [← this]
        cases entity <;> first | rfl | exact absurd rfl hkind
  · unfold PutEntity at h ⊢
    split at h
    · simp at h
    · rename_i db1 cust resp hd
      split at h
      · simp at h
      · rename_i db2 hc
        simp only [hc]
        have : (putDispatch f now db entity).2.2.1 = cust := by rw [hd]
        rw [← this]
        cases entity <;> rfl
  · cases entity with
    | ofInstance i =>
      obtain ⟨⟨r, hr, hk⟩, hall⟩ := PutEntity_instance_rows f now db i h
      have hk2 := (instanceRow_hasKey_iff _ _ _).mp hk
      exact ⟨r, hr, hk2.1, hk2.2, (hall r hr hk).1, (hall r hr hk).2⟩
    | ofGroup g =>
      obtain ⟨⟨r, hr, hk⟩, hall⟩ := PutEntity_group_rows f now db g h
      have hk2 := (groupRow_hasKey_iff _ _ _).mp hk
      exact ⟨r, hr, hk2.1, hk2.2, (hall r hr hk).1, (hall r hr hk).2⟩
    | ofRouteTable e =>
      obtain ⟨hp, c, _, hdb⟩ := PutEntity_of_ok f now db _ h
      have hp1 : (putRouteTable f db e).1 = none := hp
      show ∃ r ∈ (PutEntity f now db (Entity.ofRouteTable e)).db.route_tables, _
      rw [hdb, (putCustomer_frame f _ c).2.2.2.1]
      show ∃ r ∈ (putRouteTable f db e).2.route_tables, _
      unfold putRouteTable at hp1 ⊢
      obtain ⟨d1, hd1, he⟩ := exec_of_none f db _ hp1
      rw [upsertDataRow_eq] at hd1
      cases hd1
      rw [he]
      exact upsertDataRow_rows e db.route_tables
    | ofSubnet e =>
      obtain ⟨hp, c, _, hdb⟩ := PutEntity_of_ok f now db _ h
      have hp1 : (putSubnet f db e).1 = none := hp
      show ∃ r ∈ (PutEntity f now db (Entity.ofSubnet e)).db.subnets, _
      rw [hdb, (putCustomer_frame f _ c).2.2.2.2]
      show ∃ r ∈ (putSubnet f db e).2.subnets, _
      unfold putSubnet at hp1 ⊢
      obtain ⟨d1, hd1, he⟩ := exec_of_none f db _ hp1
      rw [upsertDataRow_eq] at hd1
      cases hd1
      rw [he]
      exact upsertDataRow_rows e db.subnets
    | other => trivial

/-- C8 fails on the code: `PutEntity` of an instance, and of a route table, with the
empty customer id returns a nil error, not `ErrMissingCustomerId`, and stores the row
under the empty customer id; `GetInstance` for the key just written is refused with
`ErrMissingCustomerId`, as every read operation refuses the empty customer id. -/
theorem C8_empty_customer_is_stored :
    (PutEntity noFaults 50 emptyDb (Entity.ofInstance ⟨"i1", "", "ec2", "d", []⟩)).err = none ∧
    (PutEntity noFaults 50 emptyDb (Entity.ofInstance ⟨"i1", "", "ec2", "d", []⟩)).db.instances =
      [⟨"i1", "", "ec2", "d", 50⟩] ∧
    (GetInstance noFaults
      (PutEntity noFaults 50 emptyDb (Entity.ofInstance ⟨"i1", "", "ec2", "d", []⟩)).db
      ⟨"", "", "", "i1"⟩).err = some Err.ErrMissingCustomerId ∧
    (PutEntity noFaults 50 emptyDb (Entity.ofRouteTable ⟨"rt1", "", "d"⟩)).err = none ∧
    (PutEntity noFaults 50 emptyDb (Entity.ofRouteTable ⟨"rt1", "", "d"⟩)).db.route_tables =
      [⟨"rt1", "", "d"⟩] := by
  decide

/-- What `PutEntity` does for every Instance, Group, RouteTable or Subnet, whatever its
customer id: it sends its statements to storage; the error it returns is never
`ErrMissingCustomerId` (every error it returns originates in storage); and when storage
reports no error it returns the entity with a nil error, sends the evaluation request
for the entity's customer id, and has stored the entity's row. -/
theorem PutEntity_never_validates (f : Faults) (now : Int) (db : DB) (entity : Entity)
    (hkind : entity ≠ Entity.other) :
    (PutEntity f now db entity).err ≠ some Err.ErrMissingCustomerId ∧
    (∀ e, (PutEntity f now db entity).err = some e → e.fromStorage) ∧
    db.statements < (PutEntity f now db entity).db.statements ∧
    ((PutEntity f now db entity).err = none →
      (PutEntity f now db entity).response = some entity ∧
      (PutEntity f now db entity).sent = some ⟨now / Second, entity.customerId⟩ ∧
      entity.storedIn (PutEntity f now db entity).db) := by
  refine ⟨?_, ?_, ?_, ?_⟩
  · intro h
    exact PutEntity_fromStorage f now db entity _ h
  · intro e h
    exact PutEntity_fromStorage f now db entity e h
  · exact PutEntity_statements f now db entity hkind
  · intro h
    exact PutEntity_ok_stored f now db entity hkind h

/-- A subnet with the empty customer id, put into the empty database at second 7, is
stored and triggers the request `(7, "")`. -/
theorem PutEntity_never_validates_example :
    (PutEntity noFaults 7000000000 emptyDb (Entity.ofSubnet ⟨"s1", "", "d"⟩)).err ≠
      some Err.ErrMissingCustomerId ∧
    (PutEntity noFaults 7000000000 emptyDb (Entity.ofSubnet ⟨"s1", "", "d"⟩)).sent =
      some ⟨7, ""⟩ :=
  ⟨(PutEntity_never_validates noFaults 7000000000 emptyDb (Entity.ofSubnet ⟨"s1", "", "d"⟩)
      (by decide)).1,
   ((PutEntity_never_validates noFaults 7000000000 emptyDb (Entity.ofSubnet ⟨"s1", "", "d"⟩)
      (by decide)).2.2.2 (by decide)).2.1⟩

/-! ## C5: putting the same entity twice -/

theorem varchar128_of_le (s : String) (h : s.length ≤ 128) : varchar128 s = s := by
  unfold varchar128
  have : s.data.take 128 = s.data := List.take_of_length_le h
  rw [this]

theorem instances_countP_le_one (l : List InstanceRow) (id c : String)
    (h : (l.map (fun r => (r.id, r.customer_id))).Nodup) :
    l.countP (InstanceRow.hasKey id c) ≤ 1 := by
  induction l with
  | nil => simp
  | cons r rs ih =>
    rw [List.map_cons, List.nodup_cons] at h
    by_cases hk : InstanceRow.hasKey id c r = true
    · have hz : rs.countP (InstanceRow.hasKey id c) = 0 := by
        rw [List.countP_eq_zero]
        intro x hx hkx
        rw [instanceRow_hasKey_iff] at hk hkx
        apply h.1
        rw [List.mem_map]
        exact ⟨x, hx, by rw [hkx.1, hkx.2, hk.1, hk.2]⟩
      rw [List.countP_cons_of_pos _ _ hk, hz]
    · rw [List.countP_cons_of_neg _ _ hk]
      exact ih h.2

theorem groups_countP_le_one (l : List GroupRow) (n c : String)
    (h : (l.map (fun r => (r.name, r.customer_id))).Nodup) :
    l.countP (GroupRow.hasKey n c) ≤ 1 := by
  induction l with
  | nil => simp
  | cons r rs ih =>
    rw [List.map_cons, List.nodup_cons] at h
    by_cases hk : GroupRow.hasKey n c r = true
    · have hz : rs.countP (GroupRow.hasKey n c) = 0 := by
        rw [List.countP_eq_zero]
        intro x hx hkx
        rw [groupRow_hasKey_iff] at hk hkx
        apply h.1
        rw [List.mem_map]
        exact ⟨x, hx, by rw [hkx.1, hkx.2, hk.1, hk.2]⟩
      rw [List.countP_cons_of_pos _ _ hk, hz]
    · rw [List.countP_cons_of_neg _ _ hk]
      exact ih h.2

theorem links_countP_le_one (l : List LinkRow) (c n i : String) (h : l.Nodup) :
    l.countP (LinkRow.hasKey c n i) ≤ 1 := by
  induction l with
  | nil => simp
  | cons r rs ih =>
    rw [List.nodup_cons] at h
    by_cases hk : LinkRow.hasKey c n i r = true
    · have hz : rs.countP (LinkRow.hasKey c n i) = 0 := by
        rw [List.countP_eq_zero]
        intro x hx hkx
        rw [linkRow_hasKey_iff] at hk hkx
        apply h.1
        have : x = r := by
          cases x; cases r
          simp only [LinkRow.mk.injEq]
          simp only at hk hkx
          exact ⟨hkx.1.trans hk.1.symm, hkx.2.1.trans hk.2.1.symm, hkx.2.2.trans hk.2.2.symm⟩
        rw [← this]; exact hx
      rw [List.countP_cons_of_pos _ _ hk, hz]
    · rw [List.countP_cons_of_neg _ _ hk]
      exact ih h.2

theorem linksUnique_of_keysUnique (db : DB) (h : db.keysUnique) : linksUnique db :=
  fun c n i => links_countP_le_one _ c n i h.2.2

/-- The count of a key after an update-or-append upsert of that key is one, if it was
at most one before. -/
theorem upsertInstance_count (now : Int) (i : Instance) (l : List InstanceRow)
    (h : l.countP (InstanceRow.hasKey i.Id i.CustomerId) ≤ 1) :
    (if l.any (InstanceRow.hasKey i.Id i.CustomerId) then
        l.map (fun r => if r.hasKey i.Id i.CustomerId then
          { r with type := i.Type_, data := i.Data, updated_at := writeTime now } else r)
      else l ++ [⟨i.Id, i.CustomerId, i.Type_, i.Data, writeTime now⟩]).countP
        (InstanceRow.hasKey i.Id i.CustomerId) = 1 := by
  by_cases ha : l.any (InstanceRow.hasKey i.Id i.CustomerId) = true
  · simp only [ha, if_true]
    rw [List.countP_map]
    have hcongr : l.countP ((InstanceRow.hasKey i.Id i.CustomerId) ∘ (fun r =>
          if r.hasKey i.Id i.CustomerId then
            { r with type := i.Type_, data := i.Data, updated_at := writeTime now } else r)) =
        l.countP (InstanceRow.hasKey i.Id i.CustomerId) := by
      apply List.countP_congr
      intro r _
      by_cases hk : InstanceRow.hasKey i.Id i.CustomerId r = true
      · simp only [Function.comp, hk, if_true]
        simpa [InstanceRow.hasKey] using hk
      · simp [Function.comp, hk]
    rw [hcongr]
    have hpos : 0 < l.countP (InstanceRow.hasKey i.Id i.CustomerId) := by
      rw [List.countP_pos_iff]
      obtain ⟨r, hr, hk⟩ := List.any_eq_true.mp ha
      exact ⟨r, hr, hk⟩
    omega
  · rw [if_neg ha]
    have hz : l.countP (InstanceRow.hasKey i.Id i.CustomerId) = 0 := by
      rw [List.countP_eq_zero]
      intro r hr hk
      exact ha (List.any_eq_true.mpr ⟨r, hr, hk⟩)
    rw [List.countP_append, hz]
    simp [InstanceRow.hasKey]

theorem upsertGroup_count (now : Int) (g : Group) (l : List GroupRow)
    (h : l.countP (GroupRow.hasKey g.Name g.CustomerId) ≤ 1) :
    (if l.any (GroupRow.hasKey g.Name g.CustomerId) then
        l.map (fun r => if r.hasKey g.Name g.CustomerId then
          { r with type := g.Type_, data := g.Data, updated_at := writeTime now } else r)
      else l ++ [⟨g.Name, g.CustomerId, g.Type_, g.Data, writeTime now⟩]).countP
        (GroupRow.hasKey g.Name g.CustomerId) = 1 := by
  by_cases ha : l.any (GroupRow.hasKey g.Name g.CustomerId) = true
  · simp only [ha, if_true]
    rw [List.countP_map]
    have hcongr : l.countP ((GroupRow.hasKey g.Name g.CustomerId) ∘ (fun r =>
          if r.hasKey g.Name g.CustomerId then
            { r with type := g.Type_, data := g.Data, updated_at := writeTime now } else r)) =
        l.countP (GroupRow.hasKey g.Name g.CustomerId) := by
      apply List.countP_congr
      intro r _
      by_cases hk : GroupRow.hasKey g.Name g.CustomerId r = true
      · simp only [Function.comp, hk, if_true]
        simpa [GroupRow.hasKey] using hk
      · simp [Function.comp, hk]
    rw [hcongr]
    have hpos : 0 < l.countP (GroupRow.hasKey g.Name g.CustomerId) := by
      rw [List.countP_pos_iff]
      obtain ⟨r, hr, hk⟩ := List.any_eq_true.mp ha
      exact ⟨r, hr, hk⟩
    omega
  · rw [if_neg ha]
    have hz : l.countP (GroupRow.hasKey g.Name g.CustomerId) = 0 := by
      rw [List.countP_eq_zero]
      intro r hr hk
      exact ha (List.any_eq_true.mpr ⟨r, hr, hk⟩)
    rw [List.countP_append, hz]
    simp [GroupRow.hasKey]

theorem ensureGroup_noFaults (now : Int) (db : DB) (g : GroupRef)
    (h : g.Name.length ≤ 128) : (ensureGroup noFaults now db g).1 = none := by
  have hstmt : ∃ d1, ensureGroupStmt now g db = Except.ok d1 := by
    unfold ensureGroupStmt
    by_cases ha : db.groups.any (GroupRow.hasKey g.Name g.CustomerId) = true
    · rw [if_pos ha]; exact ⟨db, rfl⟩
    · rw [if_neg ha, varchar128_of_le _ h]
      unfold insertGroup
      rw [if_neg ha]
      exact ⟨_, rfl⟩
  obtain ⟨d1, hd1⟩ := hstmt
  unfold ensureGroup
  rw [exec_noFaults_ok db d1 _ hd1]

theorem ensureInstance_noFaults (now : Int) (db : DB) (i : InstanceRef)
    (h : i.Id.length ≤ 128) : (ensureInstance noFaults now db i).1 = none := by
  have hstmt : ∃ d1, ensureInstanceStmt now i db = Except.ok d1 := by
    unfold ensureInstanceStmt
    by_cases ha : db.instances.any (InstanceRow.hasKey i.Id i.CustomerId) = true
    · rw [if_pos ha]; exact ⟨db, rfl⟩
    · rw [if_neg ha, varchar128_of_le _ h]
      unfold insertInstance
      rw [if_neg ha]
      exact ⟨_, rfl⟩
  obtain ⟨d1, hd1⟩ := hstmt
  unfold ensureInstance
  rw [exec_noFaults_ok db d1 _ hd1]

/-- Inserting a triple unless present keeps triples unique, removes nothing, and leaves
the triple present. -/
theorem linkInsert_count (l : List LinkRow) (c n i : String)
    (hu : ∀ c1 n1 i1 : String, l.countP (LinkRow.hasKey c1 n1 i1) ≤ 1) :
    (∀ c1 n1 i1 : String,
      (if l.any (LinkRow.hasKey c n i) then l else l ++ [⟨c, n, i⟩]).countP
        (LinkRow.hasKey c1 n1 i1) ≤ 1) ∧
    (∀ c1 n1 i1 : String, l.countP (LinkRow.hasKey c1 n1 i1) ≤
      (if l.any (LinkRow.hasKey c n i) then l else l ++ [⟨c, n, i⟩]).countP
        (LinkRow.hasKey c1 n1 i1)) ∧
    1 ≤ (if l.any (LinkRow.hasKey c n i) then l else l ++ [⟨c, n, i⟩]).countP
      (LinkRow.hasKey c n i) := by
  by_cases ha : l.any (LinkRow.hasKey c n i) = true
  · simp only [ha, if_true]
    refine ⟨hu, fun _ _ _ => le_refl _, ?_⟩
    have : 0 < l.countP (LinkRow.hasKey c n i) := by
      rw [List.countP_pos_iff]
      obtain ⟨r, hr, hk⟩ := List.any_eq_true.mp ha
      exact ⟨r, hr, hk⟩
    omega
  · rw [if_neg ha]
    have hz : l.countP (LinkRow.hasKey c n i) = 0 := by
      rw [List.countP_eq_zero]
      intro r hr hk
      exact ha (List.any_eq_true.mpr ⟨r, hr, hk⟩)
    refine ⟨?_, ?_, ?_⟩
    · intro c1 n1 i1
      rw [List.countP_append]
      by_cases hk : LinkRow.hasKey c1 n1 i1 ⟨c, n, i⟩ = true
      · have hk2 := (linkRow_hasKey_iff _ _ _ _).mp hk
        simp only at hk2
        rw [← hk2.1, ← hk2.2.1, ← hk2.2.2, hz]
        simp [LinkRow.hasKey]
      · have := hu c1 n1 i1
        simp [List.countP_cons, hk]
        exact this
    · intro c1 n1 i1
      rw [List.countP_append]
      omega
    · rw [List.countP_append, hz]
      simp [LinkRow.hasKey]

theorem execLink_noFaults (db : DB) (c n i : String) (hn : n.length ≤ 128)
    (hi : i.length ≤ 128) (hu : linksUnique db) :
    (exec noFaults db (insertLinkStmt c n i)).1 = none ∧
    linksUnique (exec noFaults db (insertLinkStmt c n i)).2 ∧
    (∀ c1 n1 i1 : String, db.groups_instances.countP (LinkRow.hasKey c1 n1 i1) ≤
      (exec noFaults db (insertLinkStmt c n i)).2.groups_instances.countP
        (LinkRow.hasKey c1 n1 i1)) ∧
    1 ≤ (exec noFaults db (insertLinkStmt c n i)).2.groups_instances.countP
      (LinkRow.hasKey c n i) := by
  have hstmt : insertLinkStmt c n i db = Except.ok { db with groups_instances :=
      (if db.groups_instances.any (LinkRow.hasKey c n i) then db.groups_instances
        else db.groups_instances ++ [⟨c, n, i⟩]) } := by
    unfold insertLinkStmt
    by_cases ha : db.groups_instances.any (LinkRow.hasKey c n i) = true
    · rw [if_pos ha, if_pos ha]
    · rw [if_neg ha, if_neg ha, varchar128_of_le _ hn, varchar128_of_le _ hi]
      unfold insertLink
      rw [if_neg ha]
  rw [exec_noFaults_ok db _ _ hstmt]
  have := linkInsert_count db.groups_instances c n i hu
  exact ⟨rfl, this.1, this.2.1, this.2.2⟩

theorem putInstanceLoop_noFaults (now : Int) (id : String) (hid : id.length ≤ 128)
    (gs : List GroupRef) :
    ∀ db : DB, (∀ g ∈ gs, g.Name.length ≤ 128) → linksUnique db →
      (putInstanceLoop noFaults now id gs db).1 = none ∧
      linksUnique (putInstanceLoop noFaults now id gs db).2 ∧
      (∀ c1 n1 i1 : String, db.groups_instances.countP (LinkRow.hasKey c1 n1 i1) ≤
        (putInstanceLoop noFaults now id gs db).2.groups_instances.countP
          (LinkRow.hasKey c1 n1 i1)) ∧
      (∀ g ∈ gs, 1 ≤ (putInstanceLoop noFaults now id gs db).2.groups_instances.countP
        (LinkRow.hasKey g.CustomerId g.Name id)) := by
  induction gs with
  | nil =>
    intro db _ hu
    exact ⟨rfl, hu, fun _ _ _ => le_refl _, fun g hg => by cases hg⟩
  | cons g gs ih =>
    intro db hlen hu
    have hg := hlen g (List.mem_cons_self _ _)
    have h1 := ensureGroup_noFaults now db g hg
    have e1 := (ensureGroup_frame noFaults now db g).2
    have hu1 : linksUnique (ensureGroup noFaults now db g).2 := by
      intro c n i; rw [e1]; exact hu c n i
    obtain ⟨h2, hu2, hmono2, hone2⟩ :=
      execLink_noFaults (ensureGroup noFaults now db g).2 g.CustomerId g.Name id hg hid hu1
    obtain ⟨h3, hu3, hmono3, hone3⟩ :=
      ih (exec noFaults (ensureGroup noFaults now db g).2
        (insertLinkStmt g.CustomerId g.Name id)).2
        (fun q hq => hlen q (List.mem_cons_of_mem _ hq)) hu2
    rw [putInstanceLoop_cons, if_pos h1, if_pos h2]
    refine ⟨h3, hu3, ?_, ?_⟩
    · intro c1 n1 i1
      have a := hmono2 c1 n1 i1
      have b := hmono3 c1 n1 i1
      rw [e1] at a
      omega
    · intro q hq
      rcases List.mem_cons.mp hq with hq1 | hq1
      · subst hq1
        have b := hmono3 q.CustomerId q.Name id
        omega
      · exact hone3 q hq1

theorem putGroupLoop_noFaults (now : Int) (c n : String) (hn : n.length ≤ 128)
    (is : List InstanceRef) :
    ∀ db : DB, (∀ i ∈ is, i.Id.length ≤ 128) → linksUnique db →
      (putGroupLoop noFaults now c n is db).1 = none ∧
      linksUnique (putGroupLoop noFaults now c n is db).2 ∧
      (∀ c1 n1 i1 : String, db.groups_instances.countP (LinkRow.hasKey c1 n1 i1) ≤
        (putGroupLoop noFaults now c n is db).2.groups_instances.countP
          (LinkRow.hasKey c1 n1 i1)) ∧
      (∀ i ∈ is, 1 ≤ (putGroupLoop noFaults now c n is db).2.groups_instances.countP
        (LinkRow.hasKey c n i.Id)) := by
  induction is with
  | nil =>
    intro db _ hu
    exact ⟨rfl, hu, fun _ _ _ => le_refl _, fun g hg => by cases hg⟩
  | cons i is ih =>
    intro db hlen hu
    have hi := hlen i (List.mem_cons_self _ _)
    have h1 := ensureInstance_noFaults now db i hi
    have e1 := (ensureInstance_frame noFaults now db i).2
    have hu1 : linksUnique (ensureInstance noFaults now db i).2 := by
      intro c n i; rw [e1]; exact hu c n i
    obtain ⟨h2, hu2, hmono2, hone2⟩ :=
      execLink_noFaults (ensureInstance noFaults now db i).2 c n i.Id hn hi hu1
    obtain ⟨h3, hu3, hmono3, hone3⟩ :=
      ih (exec noFaults (ensureInstance noFaults now db i).2 (insertLinkStmt c n i.Id)).2
        (fun q hq => hlen q (List.mem_cons_of_mem _ hq)) hu2
    rw [putGroupLoop_cons, if_pos h1, if_pos h2]
    refine ⟨h3, hu3, ?_, ?_⟩
    · intro c1 n1 i1
      have a := hmono2 c1 n1 i1
      have b := hmono3 c1 n1 i1
      rw [e1] at a
      omega
    · intro q hq
      rcases List.mem_cons.mp hq with hq1 | hq1
      · subst hq1
        have b := hmono3 c n q.Id
        omega
      · exact hone3 q hq1

theorem putCustomer_noFaults (db : DB) (c : Customer) :
    (putCustomer noFaults db c).1 = none := by
  unfold putCustomer
  rw [exec_noFaults_ok db _ _ (upsertCustomerStmt_eq c db)]

/-- Without faults, a `PutEntity` whose put returns nil returns nil, and leaves the
tables `instances`, `groups` and `groups_instances` as the put left them. -/
theorem PutEntity_noFaults_of_dispatch (now : Int) (db : DB) (entity : Entity)
    (h : (putDispatch noFaults now db entity).1 = none) :
    (PutEntity noFaults now db entity).err = none ∧
    (PutEntity noFaults now db entity).db.instances =
      (putDispatch noFaults now db entity).2.1.instances ∧
    (PutEntity noFaults now db entity).db.groups =
      (putDispatch noFaults now db entity).2.1.groups ∧
    (PutEntity noFaults now db entity).db.groups_instances =
      (putDispatch noFaults now db entity).2.1.groups_instances := by
  unfold PutEntity
  rcases hd : putDispatch noFaults now db entity with ⟨o, d1, cust, resp⟩
  rw [hd] at h
  simp only at h
  subst h
  simp only
  have hc := putCustomer_noFaults d1 ⟨cust, now⟩
  have hfr := putCustomer_frame noFaults d1 ⟨cust, now⟩
  rcases hp : putCustomer noFaults d1 ⟨cust, now⟩ with ⟨o2, d2⟩
  rw [hp] at hc hfr
  simp only at hc
  subst hc
  exact ⟨rfl, hfr.1, hfr.2.1, hfr.2.2.1⟩

theorem putInstance_noFaults (now : Int) (db : DB) (i : Instance)
    (hlen : ∀ g ∈ i.Groups, g.Name.length ≤ 128)
    (hid : i.Groups ≠ [] → i.Id.length ≤ 128)
    (hinst : db.instances.countP (InstanceRow.hasKey i.Id i.CustomerId) ≤ 1)
    (hu : linksUnique db) :
    (putInstance noFaults now db i).1 = none ∧
    (putInstance noFaults now db i).2.instances.countP
      (InstanceRow.hasKey i.Id i.CustomerId) = 1 ∧
    linksUnique (putInstance noFaults now db i).2 ∧
    (∀ g ∈ i.Groups, (putInstance noFaults now db i).2.groups_instances.countP
      (LinkRow.hasKey g.CustomerId g.Name i.Id) = 1) := by
  have hex := exec_noFaults_ok db _ _ (upsertInstanceStmt_eq now i db)
  have hup : (exec noFaults db (upsertInstanceStmt now i)).1 = none := by rw [hex]
  have hinst1 : (exec noFaults db (upsertInstanceStmt now i)).2.instances.countP
      (InstanceRow.hasKey i.Id i.CustomerId) = 1 := by
    rw [hex]; exact upsertInstance_count now i db.instances hinst
  have hu1 : linksUnique (exec noFaults db (upsertInstanceStmt now i)).2 := by
    intro c n k
    rw [(execUpsertInstance_frame noFaults now db i).2]
    exact hu c n k
  rw [putInstance_eq, if_pos hup]
  have hfr := (putInstanceLoop_frame noFaults now i.Id i.Groups
    (exec noFaults db (upsertInstanceStmt now i)).2).1
  by_cases hG : i.Groups = []
  · rw [hG]
    refine ⟨rfl, hinst1, hu1, ?_⟩
    intro g hg
    cases hg
  · obtain ⟨h3, hu3, _, hone3⟩ := putInstanceLoop_noFaults now i.Id (hid hG) i.Groups
      (exec noFaults db (upsertInstanceStmt now i)).2 hlen hu1
    refine ⟨h3, by rw [hfr]; exact hinst1, hu3, ?_⟩
    intro g hg
    have a := hone3 g hg
    have b := hu3 g.CustomerId g.Name i.Id
    omega

theorem putGroup_noFaults (now : Int) (db : DB) (g : Group)
    (hlen : ∀ i ∈ g.Instances, i.Id.length ≤ 128)
    (hname : g.Instances ≠ [] → g.Name.length ≤ 128)
    (hgrp : db.groups.countP (GroupRow.hasKey g.Name g.CustomerId) ≤ 1)
    (hu : linksUnique db) :
    (putGroup noFaults now db g).1 = none ∧
    (putGroup noFaults now db g).2.groups.countP (GroupRow.hasKey g.Name g.CustomerId) = 1 ∧
    linksUnique (putGroup noFaults now db g).2 ∧
    (∀ i ∈ g.Instances, (putGroup noFaults now db g).2.groups_instances.countP
      (LinkRow.hasKey g.CustomerId g.Name i.Id) = 1) := by
  have hex := exec_noFaults_ok db _ _ (upsertGroupStmt_eq now g db)
  have hup : (exec noFaults db (upsertGroupStmt now g)).1 = none := by rw [hex]
  have hgrp1 : (exec noFaults db (upsertGroupStmt now g)).2.groups.countP
      (GroupRow.hasKey g.Name g.CustomerId) = 1 := by
    rw [hex]; exact upsertGroup_count now g db.groups hgrp
  have hu1 : linksUnique (exec noFaults db (upsertGroupStmt now g)).2 := by
    intro c n k
    rw [(execUpsertGroup_frame noFaults now db g).2]
    exact hu c n k
  rw [putGroup_eq, if_pos hup]
  have hfr := (putGroupLoop_frame noFaults now g.CustomerId g.Name g.Instances
    (exec noFaults db (upsertGroupStmt now g)).2).1
  by_cases hG : g.Instances = []
  · rw [hG]
    refine ⟨rfl, hgrp1, hu1, ?_⟩
    intro i hi
    cases hi
  · obtain ⟨h3, hu3, _, hone3⟩ := putGroupLoop_noFaults now g.CustomerId g.Name (hname hG)
      g.Instances (exec noFaults db (upsertGroupStmt now g)).2 hlen hu1
    refine ⟨h3, by rw [hfr]; exact hgrp1, hu3, ?_⟩
    intro i hi
    have a := hone3 i hi
    have b := hu3 g.CustomerId g.Name i.Id
    omega

/-- One `PutEntity` of an instance on a store where its key occurs at most once and link
triples are unique: it succeeds, and the same holds after it, with the key and every
declared triple occurring exactly once. -/
theorem PutEntity_instance_noFaults (now : Int) (db : DB) (i : Instance)
    (hlen : ∀ g ∈ i.Groups, g.Name.length ≤ 128)
    (hid : i.Groups ≠ [] → i.Id.length ≤ 128)
    (hinst : db.instances.countP (InstanceRow.hasKey i.Id i.CustomerId) ≤ 1)
    (hu : linksUnique db) :
    (PutEntity noFaults now db (Entity.ofInstance i)).err = none ∧
    (PutEntity noFaults now db (Entity.ofInstance i)).db.instances.countP
      (InstanceRow.hasKey i.Id i.CustomerId) = 1 ∧
    linksUnique (PutEntity noFaults now db (Entity.ofInstance i)).db ∧
    (∀ g ∈ i.Groups, (PutEntity noFaults now db (Entity.ofInstance i)).db.groups_instances.countP
      (LinkRow.hasKey g.CustomerId g.Name i.Id) = 1) := by
  obtain ⟨h1, h2, h3, h4⟩ := putInstance_noFaults now db i hlen hid hinst hu
  obtain ⟨e1, e2, _, e4⟩ := PutEntity_noFaults_of_dispatch now db (Entity.ofInstance i) h1
  have e2a : (PutEntity noFaults now db (Entity.ofInstance i)).db.instances =
      (putInstance noFaults now db i).2.instances := e2
  have e4a : (PutEntity noFaults now db (Entity.ofInstance i)).db.groups_instances =
      (putInstance noFaults now db i).2.groups_instances := e4
  refine ⟨e1, by rw [e2a]; exact h2, ?_, ?_⟩
  · intro c n k; rw [e4a]; exact h3 c n k
  · intro g hg; rw [e4a]; exact h4 g hg

theorem PutEntity_group_noFaults (now : Int) (db : DB) (g : Group)
    (hlen : ∀ i ∈ g.Instances, i.Id.length ≤ 128)
    (hname : g.Instances ≠ [] → g.Name.length ≤ 128)
    (hgrp : db.groups.countP (GroupRow.hasKey g.Name g.CustomerId) ≤ 1)
    (hu : linksUnique db) :
    (PutEntity noFaults now db (Entity.ofGroup g)).err = none ∧
    (PutEntity noFaults now db (Entity.ofGroup g)).db.groups.countP
      (GroupRow.hasKey g.Name g.CustomerId) = 1 ∧
    linksUnique (PutEntity noFaults now db (Entity.ofGroup g)).db ∧
    (∀ i ∈ g.Instances, (PutEntity noFaults now db (Entity.ofGroup g)).db.groups_instances.countP
      (LinkRow.hasKey g.CustomerId g.Name i.Id) = 1) := by
  obtain ⟨h1, h2, h3, h4⟩ := putGroup_noFaults now db g hlen hname hgrp hu
  obtain ⟨e1, _, e3, e4⟩ := PutEntity_noFaults_of_dispatch now db (Entity.ofGroup g) h1
  have e3a : (PutEntity noFaults now db (Entity.ofGroup g)).db.groups =
      (putGroup noFaults now db g).2.groups := e3
  have e4a : (PutEntity noFaults now db (Entity.ofGroup g)).db.groups_instances =
      (putGroup noFaults now db g).2.groups_instances := e4
  refine ⟨e1, by rw [e3a]; exact h2, ?_, ?_⟩
  · intro c n k; rw [e4a]; exact h3 c n k
  · intro i hi; rw [e4a]; exact h4 i hi

/-- C5 fails on the code: an instance that references a group whose name has 129
characters is put into the empty store; the first put succeeds and stores the stub
under the name cut to 128 characters (`($1::varchar(128))`), the second put does not
find the full name, inserts the cut name again and fails with a duplicate key; no link
row carries the declared triple, after the first put or after the second. -/
theorem C5_second_put_duplicate_key :
    emptyDb.keysUnique ∧
    (PutEntity noFaults 1 emptyDb exLongInstance).err = none ∧
    (PutEntity noFaults 1 emptyDb exLongInstance).db.groups_instances.countP
      (LinkRow.hasKey "a" longName "i1") = 0 ∧
    (PutEntity noFaults 2 (PutEntity noFaults 1 emptyDb exLongInstance).db exLongInstance).err =
      some Err.duplicateKey ∧
    (PutEntity noFaults 2 (PutEntity noFaults 1 emptyDb
      exLongInstance).db exLongInstance).db.groups_instances.countP
      (LinkRow.hasKey "a" longName "i1") = 0 := by
  decide

/-- Where no key is cut by the cast to `varchar(128)`: on a store with unique identity
keys and link triples, with storage executing every statement, an Instance whose
referenced group names — and, if it references any group, whose own id — have at most
128 characters is put twice in a row: both puts return a nil error, and afterwards
exactly one row of `instances` has its key and exactly one link row exists for each
triple it declares.  Likewise for a Group whose referenced instance ids — and, if it
references any instance, whose own name — have at most 128 characters. -/
theorem put_twice_one_row_of_short_keys (now1 now2 : Int) (db : DB) (hu : db.keysUnique) :
    (∀ i : Instance, (∀ g ∈ i.Groups, g.Name.length ≤ 128) →
      (i.Groups ≠ [] → i.Id.length ≤ 128) →
      (PutEntity noFaults now1 db (Entity.ofInstance i)).err = none ∧
      (PutEntity noFaults now2 (PutEntity noFaults now1 db (Entity.ofInstance i)).db
        (Entity.ofInstance i)).err = none ∧
      (PutEntity noFaults now2 (PutEntity noFaults now1 db (Entity.ofInstance i)).db
        (Entity.ofInstance i)).db.instances.countP (InstanceRow.hasKey i.Id i.CustomerId) = 1 ∧
      (∀ g ∈ i.Groups,
        (PutEntity noFaults now2 (PutEntity noFaults now1 db (Entity.ofInstance i)).db
          (Entity.ofInstance i)).db.groups_instances.countP
            (LinkRow.hasKey g.CustomerId g.Name i.Id) = 1)) ∧
    (∀ g : Group, (∀ i ∈ g.Instances, i.Id.length ≤ 128) →
      (g.Instances ≠ [] → g.Name.length ≤ 128) →
      (PutEntity noFaults now1 db (Entity.ofGroup g)).err = none ∧
      (PutEntity noFaults now2 (PutEntity noFaults now1 db (Entity.ofGroup g)).db
        (Entity.ofGroup g)).err = none ∧
      (PutEntity noFaults now2 (PutEntity noFaults now1 db (Entity.ofGroup g)).db
        (Entity.ofGroup g)).db.groups.countP (GroupRow.hasKey g.Name g.CustomerId) = 1 ∧
      (∀ i ∈ g.Instances,
        (PutEntity noFaults now2 (PutEntity noFaults now1 db (Entity.ofGroup g)).db
          (Entity.ofGroup g)).db.groups_instances.countP
            (LinkRow.hasKey g.CustomerId g.Name i.Id) = 1)) := by
  have hl := linksUnique_of_keysUnique db hu
  constructor
  · intro i hlen hid
    obtain ⟨a1, a2, a3, _⟩ := PutEntity_instance_noFaults now1 db i hlen hid
      (instances_countP_le_one _ _ _ hu.1) hl
    obtain ⟨b1, b2, _, b4⟩ := PutEntity_instance_noFaults now2
      (PutEntity noFaults now1 db (Entity.ofInstance i)).db i hlen hid (le_of_eq a2) a3
    exact ⟨a1, b1, b2, b4⟩
  · intro g hlen hname
    obtain ⟨a1, a2, a3, _⟩ := PutEntity_group_noFaults now1 db g hlen hname
      (groups_countP_le_one _ _ _ hu.2.1) hl
    obtain ⟨b1, b2, _, b4⟩ := PutEntity_group_noFaults now2
      (PutEntity noFaults now1 db (Entity.ofGroup g)).db g hlen hname (le_of_eq a2) a3
    exact ⟨a1, b1, b2, b4⟩

/-- At a concrete store: instance `i1`, already stored and already linked to
group `g1`, is put twice with a reference to `g1` and one to the new group `g2`. -/
theorem put_twice_one_row_example :
    (PutEntity noFaults 50 exDbGroup (Entity.ofInstance
      ⟨"i1", "a", "ec2", "d1", [⟨"g1", "a", "", ""⟩, ⟨"g2", "a", "", ""⟩]⟩)).err = none ∧
    (PutEntity noFaults 60 (PutEntity noFaults 50 exDbGroup (Entity.ofInstance
        ⟨"i1", "a", "ec2", "d1", [⟨"g1", "a", "", ""⟩, ⟨"g2", "a", "", ""⟩]⟩)).db
      (Entity.ofInstance
        ⟨"i1", "a", "ec2", "d1", [⟨"g1", "a", "", ""⟩, ⟨"g2", "a", "", ""⟩]⟩)).err = none ∧
    (PutEntity noFaults 60 (PutEntity noFaults 50 exDbGroup (Entity.ofInstance
        ⟨"i1", "a", "ec2", "d1", [⟨"g1", "a", "", ""⟩, ⟨"g2", "a", "", ""⟩]⟩)).db
      (Entity.ofInstance
        ⟨"i1", "a", "ec2", "d1", [⟨"g1", "a", "", ""⟩, ⟨"g2", "a", "", ""⟩]⟩)).db.instances.countP
        (InstanceRow.hasKey "i1" "a") = 1 :=
  ⟨((put_twice_one_row_of_short_keys 50 60 exDbGroup (by decide)).1
      ⟨"i1", "a", "ec2", "d1", [⟨"g1", "a", "", ""⟩, ⟨"g2", "a", "", ""⟩]⟩
      (by decide) (by decide)).1,
   ((put_twice_one_row_of_short_keys 50 60 exDbGroup (by decide)).1
      ⟨"i1", "a", "ec2", "d1", [⟨"g1", "a", "", ""⟩, ⟨"g2", "a", "", ""⟩]⟩
      (by decide) (by decide)).2.1,
   ((put_twice_one_row_of_short_keys 50 60 exDbGroup (by decide)).1
      ⟨"i1", "a", "ec2", "d1", [⟨"g1", "a", "", ""⟩, ⟨"g2", "a", "", ""⟩]⟩
      (by decide) (by decide)).2.2.1⟩

/-! ## C11: counts and lists -/

/-- C11 fails on the code: for customer `a` and group `g1`, with no type filter,
`ListInstances` returns the two members of `g1`, and `CountInstances` for the same
request returns 3, the number of all instances of `a`: `CountInstances` never reads
`GroupId`. -/
theorem C11_count_ignores_group :
    (ListInstances noFaults exDbCount ⟨"a", "", "g1", ""⟩).response =
      some [⟨"i1", "a", "ec2", "d1", 10⟩, ⟨"i2", "a", "rds", "d2", 20⟩] ∧
    (ListInstances noFaults exDbCount ⟨"a", "", "g1", ""⟩).err = none ∧
    (CountInstances noFaults exDbCount ⟨"a", "", "g1", ""⟩).response = some 3 ∧
    (CountInstances noFaults exDbCount ⟨"a", "", "g1", ""⟩).err = none := by
  decide

/-- Without a group id, `CountInstances` and `ListInstances` fail together, and when
they succeed the count is the length of the list. -/
theorem CountInstances_eq_of_no_group (f : Faults) (db : DB) (request : Options)
    (hc : request.CustomerId ≠ "") (hg : request.GroupId = "") :
    (CountInstances f db request).err = (ListInstances f db request).err ∧
    ((ListInstances f db request).err = none →
      (CountInstances f db request).response =
        (ListInstances f db request).response.map List.length) := by
  unfold CountInstances ListInstances listInstances query
  rw [if_neg hc, if_neg hc]
  cases hf : f db.statements with
  | some m => simp
  | none =>
    by_cases ht : request.Type_ = ""
    · simp [selectInstances, hg, ht]
    · simp [selectInstances, hg, ht]

theorem groupByKey_foldl (l : List GroupRow) :
    ∀ acc : List GroupRow,
      (∀ r ∈ l, acc.any (GroupRow.hasKey r.name r.customer_id) = false) →
      (l.map (fun r => (r.name, r.customer_id))).Nodup →
      l.foldl (fun acc r =>
        if acc.any (GroupRow.hasKey r.name r.customer_id) then acc else acc ++ [r]) acc =
        acc ++ l := by
  induction l with
  | nil => intro acc _ _; simp
  | cons r rs ih =>
    intro acc hacc hnd
    rw [List.map_cons, List.nodup_cons] at hnd
    have h0 := hacc r (List.mem_cons_self _ _)
    rw [List.foldl_cons, h0]
    simp only [Bool.false_eq_true, if_false]
    rw [ih (acc ++ [r]) ?_ hnd.2]
    · simp
    · intro x hx
      have h1 := hacc x (List.mem_cons_of_mem _ hx)
      rw [List.any_append, h1]
      have h2 : GroupRow.hasKey x.name x.customer_id r = false := by
        by_contra hc
        have hc : GroupRow.hasKey x.name x.customer_id r = true := by simpa using hc
        rw [groupRow_hasKey_iff] at hc
        apply hnd.1
        rw [List.mem_map]
        exact ⟨x, hx, by rw [hc.1, hc.2]⟩
      simp [h2]

/-- On rows with distinct keys the grouping of `ListGroups` keeps every row. -/
theorem groupByKey_of_nodup (l : List GroupRow)
    (h : (l.map (fun r => (r.name, r.customer_id))).Nodup) : groupByKey l = l := by
  unfold groupByKey
  rw [groupByKey_foldl l [] (fun _ _ => by simp) h]
  simp

/-- On a store with unique group keys, `CountGroups` and `ListGroups` fail together, and
when they succeed the count is the length of the list. -/
theorem CountGroups_eq_of_unique (f : Faults) (db : DB) (request : Options)
    (hc : request.CustomerId ≠ "")
    (hu : (db.groups.map (fun r => (r.name, r.customer_id))).Nodup) :
    (CountGroups f db request).err = (ListGroups f db request).err ∧
    ((ListGroups f db request).err = none →
      (CountGroups f db request).response =
        (ListGroups f db request).response.map List.length) := by
  have hsub : ∀ p : GroupRow → Bool,
      ((db.groups.filter p).map (fun r => (r.name, r.customer_id))).Nodup :=
    fun p => List.Nodup.sublist (List.Sublist.map _ (List.filter_sublist _)) hu
  unfold CountGroups ListGroups query
  rw [if_neg hc, if_neg hc]
  cases hf : f db.statements with
  | some m => simp
  | none =>
    by_cases ht : request.Type_ = ""
    · simp [selectGroups, ht, groupByKey_of_nodup _ (hsub _)]
    · simp [selectGroups, ht, groupByKey_of_nodup _ (hsub _)]

/-! ## C13: the lock around the baseline map -/

theorem evaluateTraced_fst (pg : Postgres) (req : expireReq) :
    (evaluateTraced pg req).1 = evaluate pg req := by
  unfold evaluateTraced evaluate
  split
  · rfl
  · split <;> rfl

theorem sweepTaskTraced_fst (f : Faults) (pg : Postgres) (req : expireReq) :
    (sweepTaskTraced f pg req).1 = sweepTask f pg req := by
  unfold sweepTaskTraced sweepTask
  split <;> rfl

/-- C13 fails on the code: the loop body of `Start` performs its lookup of the map, and
its first-observation write, without ever taking `expireMut`, for every state and
request; only the goroutine's post-sweep write is made with the mutex held.  So the
lookup for request `(a, 200)` can fall between the `Lock` and the `Unlock` of the sweep
launched for `(a, 161)`: the schedule `exSchedule` consists of exactly the accesses of
these two goroutines, respects the mutex, and has the lookup overlap the sweep's
critical section. -/
theorem C13_evaluator_accesses_unlocked :
    (∀ (pg : Postgres) (req : expireReq),
      ((evaluateTraced pg req).2 = [Access.mapRead req.customerId] ∨
        (evaluateTraced pg req).2 =
          [Access.mapRead req.customerId, Access.mapWrite req.customerId]) ∧
      lockHeldAtAccesses false (evaluateTraced pg req).2 = false) ∧
    (∀ (f : Faults) (pg : Postgres) (req : expireReq),
      lockHeldAtAccesses false (sweepTaskTraced f pg req).2 = true) ∧
    (evaluateTraced exPgFresh ⟨0, "a"⟩).2 = [Access.mapRead "a", Access.mapWrite "a"] ∧
    (evaluate exPg ⟨161, "a"⟩ = (exPg, some ⟨161, "a"⟩) ∧
      accessesOf 1 exSchedule = (sweepTaskTraced noFaults exPg ⟨161, "a"⟩).2 ∧
      accessesOf 0 exSchedule = (evaluateTraced exPg ⟨200, "a"⟩).2 ∧
      validSchedule none exSchedule = true ∧
      overlaps none exSchedule = true) := by
  refine ⟨?_, ?_, ?_, ?_⟩
  · intro pg req
    unfold evaluateTraced
    split
    · simp [lockHeldAtAccesses]
    · split <;> simp [lockHeldAtAccesses]
  · intro f pg req
    unfold sweepTaskTraced
    split <;> simp [lockHeldAtAccesses]
  · decide
  · decide

/-! ## C12: listing after a sequence of puts -/

theorem evaluate_db (pg : Postgres) (req : expireReq) : (evaluate pg req).1.db = pg.db := by
  unfold evaluate
  split
  · rfl
  · split <;> rfl

/-- A run of `Start` that launches no sweep leaves the database as it was. -/
theorem Start_db_of_no_launch (f : Faults) (reqs : List expireReq) :
    ∀ pg : Postgres, (Start f pg reqs).2 = [] → (Start f pg reqs).1.db = pg.db := by
  induction reqs with
  | nil => intro pg _; rfl
  | cons r reqs ih =>
    intro pg h
    have hdb := evaluate_db pg r
    cases hev : evaluate pg r with
    | mk pg1 l =>
      rw [hev] at hdb
      cases l with
      | none =>
        simp only [Start, hev] at h ⊢
        rw [ih pg1 h]
        exact hdb
      | some s => simp [Start, hev] at h

/-- The table `instances` after a successful `PutEntity` of an instance. -/
theorem PutEntity_instance_instances (f : Faults) (now : Int) (db : DB) (i : Instance)
    (h : (PutEntity f now db (Entity.ofInstance i)).err = none) :
    (PutEntity f now db (Entity.ofInstance i)).db.instances =
      (if db.instances.any (InstanceRow.hasKey i.Id i.CustomerId) then
        db.instances.map (fun r => if r.hasKey i.Id i.CustomerId then
          { r with type := i.Type_, data := i.Data, updated_at := writeTime now } else r)
      else db.instances ++ [⟨i.Id, i.CustomerId, i.Type_, i.Data, writeTime now⟩]) := by
  obtain ⟨hp, c, _, hdb⟩ := PutEntity_of_ok f now db _ h
  have hp1 : (putInstance f now db i).1 = none := hp
  have hdb1 : (PutEntity f now db (Entity.ofInstance i)).db.instances =
      (putInstance f now db i).2.instances := by
    rw [hdb]; exact (putCustomer_frame f _ c).1
  rw [hdb1]
  rw [putInstance_eq] at hp1 ⊢
  by_cases hu : (exec f db (upsertInstanceStmt now i)).1 = none
  · rw [if_pos hu]
    rw [(putInstanceLoop_frame f now i.Id i.Groups _).1]
    obtain ⟨d1, hd1, he⟩ := exec_of_none f db _ hu
    rw [upsertInstanceStmt_eq] at hd1
    cases hd1
    rw [he]
  · rw [if_neg hu] at hp1
    exact absurd hp1 hu

theorem evaluate_expireThreshold (pg : Postgres) (req : expireReq) :
    (evaluate pg req).1.expireThreshold = pg.expireThreshold := by
  unfold evaluate
  split
  · rfl
  · split <;> rfl

theorem sweepTask_expireThreshold (f : Faults) (pg : Postgres) (req : expireReq) :
    (sweepTask f pg req).expireThreshold = pg.expireThreshold := by
  unfold sweepTask
  split <;> rfl

theorem sweepTask_db (f : Faults) (pg : Postgres) (req : expireReq) :
    (sweepTask f pg req).db =
      (expireEntities f pg.expireThreshold pg.db req.customerId req.timestamp).2 := by
  unfold sweepTask
  split
  · rename_i h; rw [h]
  · rename_i h; rw [h]

/-- Whatever its outcome, `expireEntities` leaves table `instances` as it was or removes
from it the rows of the customer written before the cutoff. -/
theorem expireEntities_instances (f : Faults) (H : Int) (db : DB) (c : String) (T : Int) :
    (expireEntities f H db c T).2.instances = db.instances ∨
    (expireEntities f H db c T).2.instances = db.instances.filter (fun r =>
      !(r.customer_id == c && decide (r.updated_at < expireCutoff H T))) := by
  unfold expireEntities exec
  simp only [deleteGroupsStmt, deleteInstancesStmt]
  cases h1 : f db.statements with
  | some m => left; rfl
  | none =>
    cases h2 : f (db.statements + 1) with
    | some m => left; simp [h2]
    | none => right; simp [h2]

/-- A sweep whose cutoff is not after the write time of any row leaves table `instances`
as it was. -/
theorem sweepTask_instances_of_fresh (f : Faults) (pg : Postgres) (req : expireReq)
    (h : ∀ r ∈ pg.db.instances,
      ¬ r.updated_at < expireCutoff pg.expireThreshold req.timestamp) :
    (sweepTask f pg req).db.instances = pg.db.instances := by
  rw [sweepTask_db]
  rcases expireEntities_instances f pg.expireThreshold pg.db req.customerId req.timestamp
    with h1 | h1
  · exact h1
  · rw [h1, List.filter_eq_self]
    intro r hr
    simp [h r hr]

/-- A run of `Start` in which the cutoff of every sweep launched is not after the write
time of any row leaves table `instances` as it was. -/
theorem Start_instances_of_fresh (f : Faults) (reqs : List expireReq) :
    ∀ pg : Postgres,
      (∀ s ∈ (Start f pg reqs).2, ∀ r ∈ pg.db.instances,
        ¬ r.updated_at < expireCutoff pg.expireThreshold s.timestamp) →
      (Start f pg reqs).1.db.instances = pg.db.instances ∧
      (Start f pg reqs).1.expireThreshold = pg.expireThreshold := by
  induction reqs with
  | nil => intro pg _; exact ⟨rfl, rfl⟩
  | cons r reqs ih =>
    intro pg h
    have hdb := evaluate_db pg r
    have hth := evaluate_expireThreshold pg r
    cases hev : evaluate pg r with
    | mk pg1 l =>
      rw [hev] at hdb hth
      simp only at hdb hth
      cases l with
      | none =>
        simp only [Start, hev] at h ⊢
        have := ih pg1 (by rw [hdb, hth]; exact h)
        rw [this.1, this.2, hdb, hth]
        exact ⟨rfl, rfl⟩
      | some s =>
        simp only [Start, hev] at h ⊢
        have hs : (sweepTask f pg1 s).db.instances = pg.db.instances := by
          rw [sweepTask_instances_of_fresh f pg1 s
            (by rw [hdb, hth]; exact h s (List.mem_cons_self _ _)), hdb]
        have hst : (sweepTask f pg1 s).expireThreshold = pg.expireThreshold := by
          rw [sweepTask_expireThreshold, hth]
        have := ih (sweepTask f pg1 s)
          (by rw [hs, hst]; exact fun q hq => h q (List.mem_cons_of_mem _ hq))
        rw [this.1, this.2, hs, hst]
        exact ⟨rfl, rfl⟩

theorem execDeleteGroups_instances (f : Faults) (db : DB) (c : String) (t : Int) :
    (exec f db (deleteGroupsStmt c t)).2.instances = db.instances := by
  apply exec_rel (fun a b => b.instances = a.instances)
  · intro n; rfl
  · intro d1 h n
    unfold deleteGroupsStmt at h
    cases h
    rfl

theorem execDeleteInstances_instances_of_fresh (f : Faults) (db : DB) (c : String) (t : Int)
    (hfresh : ∀ r ∈ db.instances, ¬ r.updated_at < t) :
    (exec f db (deleteInstancesStmt c t)).2.instances = db.instances := by
  apply exec_rel (fun a b => b.instances = a.instances)
  · intro n; rfl
  · intro d1 h n
    unfold deleteInstancesStmt at h
    cases h
    show db.instances.filter _ = db.instances
    rw [List.filter_eq_self]
    intro r hr
    simp [hfresh r hr]

/-- A step of a goroutine whose cutoff is not after the write time of any row leaves
table `instances` as it was; the goroutines in flight afterwards were in flight before. -/
theorem Service.step_instances (f : Faults) (S : Service) (j : Nat) (H : Int) (TS : List Int)
    (h1 : S.pg.expireThreshold = H)
    (h2 : ∀ k ∈ S.tasks, k.req.timestamp ∈ TS)
    (h3 : ∀ r ∈ S.pg.db.instances, ∀ t ∈ TS, ¬ r.updated_at < expireCutoff H t) :
    (S.step f j).pg.db.instances = S.pg.db.instances ∧
    (S.step f j).pg.expireThreshold = H ∧
    (∀ k ∈ (S.step f j).tasks, k.req.timestamp ∈ TS) ∧
    (S.step f j).queue = S.queue := by
  unfold Service.step
  cases ht : S.tasks[j]? with
  | none => exact ⟨rfl, h1, h2, rfl⟩
  | some t =>
    have htm : t ∈ S.tasks := List.getElem?_mem ht
    have hts : t.req.timestamp ∈ TS := h2 t htm
    have herase : ∀ k ∈ S.tasks.eraseIdx j, k.req.timestamp ∈ TS :=
      fun k hk => h2 k (List.mem_of_mem_eraseIdx hk)
    have hset : ∀ n : Nat, ∀ k ∈ S.tasks.set j ⟨t.req, n⟩, k.req.timestamp ∈ TS := by
      intro n k hk
      rcases List.mem_or_eq_of_mem_set hk with h | h
      · exact h2 k h
      · rw [h]; exact hts
    have hg := execDeleteGroups_instances f S.pg.db t.req.customerId
      (expireCutoff S.pg.expireThreshold t.req.timestamp)
    have hi := execDeleteInstances_instances_of_fresh f S.pg.db t.req.customerId
      (expireCutoff S.pg.expireThreshold t.req.timestamp)
      (fun r hr => by rw [h1]; exact h3 r hr _ hts)
    simp only
    split
    · split
      · rename_i heq
        rw [heq] at hg
        exact ⟨hg, h1, herase, rfl⟩
      · rename_i heq
        rw [heq] at hg
        exact ⟨hg, h1, hset 1, rfl⟩
    · split
      · split
        · rename_i heq
          rw [heq] at hi
          exact ⟨hi, h1, herase, rfl⟩
        · rename_i heq
          rw [heq] at hi
          exact ⟨hi, h1, hset 2, rfl⟩
      · exact ⟨rfl, h1, herase, rfl⟩

theorem evaluate_launched (pg : Postgres) (req s : expireReq)
    (h : (evaluate pg req).2 = some s) : s = req := by
  unfold evaluate at h
  split at h
  · simp at h
  · split at h
    · simp at h; exact h.symm
    · simp at h

theorem PutEntity_sent_timestamp (f : Faults) (now : Int) (db : DB) (entity : Entity)
    (r : expireReq) (h : (PutEntity f now db entity).sent = some r) :
    r.timestamp = now / Second := by
  unfold PutEntity at h
  split at h
  · simp at h
  · split at h
    · simp at h
    · simp at h
      rw [← h]

/-- A call of `PutEntity` in the running service changes the database as `PutEntity`
does, keeps the threshold and the goroutines in flight, and a request it sends carries
the Unix second of the call. -/
theorem Service.write_spec (f : Faults) (S : Service) (now : Int) (entity : Entity) :
    (S.write f now entity).pg.db = (PutEntity f now S.pg.db entity).db ∧
    (S.write f now entity).pg.expireThreshold = S.pg.expireThreshold ∧
    (S.write f now entity).tasks = S.tasks ∧
    (∀ q ∈ (S.write f now entity).queue, q ∈ S.queue ∨ q.timestamp = now / Second) := by
  refine ⟨rfl, rfl, rfl, ?_⟩
  intro q hq
  unfold Service.write at hq
  rcases List.mem_append.mp hq with h | h
  · exact Or.inl h
  · right
    cases hs : (PutEntity f now S.pg.db entity).sent with
    | none => rw [hs] at h; cases h
    | some req =>
      rw [hs] at h
      simp only [Option.toList, List.mem_singleton] at h
      rw [h]
      exact PutEntity_sent_timestamp f now S.pg.db entity req hs

/-- The body of the loop of `Start` leaves the database and the threshold as they were;
a goroutine it puts in flight carries the timestamp of a request that was sent, and the
requests still to be handled were sent before. -/
theorem Service.recv_spec (S : Service) :
    S.recv.pg.db = S.pg.db ∧
    S.recv.pg.expireThreshold = S.pg.expireThreshold ∧
    (∀ k ∈ S.recv.tasks, k ∈ S.tasks ∨ ∃ q ∈ S.queue, k.req.timestamp = q.timestamp) ∧
    (∀ q ∈ S.recv.queue, q ∈ S.queue) := by
  unfold Service.recv
  cases hq : S.queue with
  | nil => exact ⟨rfl, rfl, fun k hk => Or.inl hk, fun q h => by rw [hq] at h; exact h⟩
  | cons req q =>
    have hdb := evaluate_db S.pg req
    have hth := evaluate_expireThreshold S.pg req
    have hl := evaluate_launched S.pg req
    simp only
    cases hev : evaluate S.pg req with
    | mk pg1 l =>
      rw [hev] at hdb hth hl
      cases l with
      | none =>
        exact ⟨hdb, hth, fun k hk => Or.inl hk, fun x hx => List.mem_cons_of_mem _ hx⟩
      | some s =>
        refine ⟨hdb, hth, ?_, fun x hx => List.mem_cons_of_mem _ hx⟩
        intro k hk
        rcases List.mem_append.mp hk with h | h
        · exact Or.inl h
        · right
          simp only [List.mem_singleton] at h
          exact ⟨req, List.mem_cons_self _ _, by rw [h, hl s rfl]⟩

/-- Along any schedule: writes of instances with pairwise distinct keys, none of them in
the table before, all successful, append one row each, provided every instance is
written no earlier than the cutoff of the sweep that any of the writes can trigger. -/
theorem Service.run_instances (f : Faults) (H : Int) (all : List (Int × Instance))
    (hF : ∀ w1 ∈ all, ∀ w2 ∈ all, ¬ writeTime w2.1 < expireCutoff H (w1.1 / Second))
    (sched : List Event) :
    ∀ (S : Service) (ws : List (Int × Instance)),
      writesOf sched = ws.map (fun w => (w.1, Entity.ofInstance w.2)) →
      (∀ w ∈ ws, w ∈ all) →
      S.pg.expireThreshold = H →
      (∀ k ∈ S.tasks, k.req.timestamp ∈ all.map (fun w => w.1 / Second)) →
      (∀ q ∈ S.queue, q.timestamp ∈ all.map (fun w => w.1 / Second)) →
      (∀ r ∈ S.pg.db.instances, ∀ t ∈ all.map (fun w => w.1 / Second),
        ¬ r.updated_at < expireCutoff H t) →
      (∀ w ∈ ws, S.pg.db.instances.any (InstanceRow.hasKey w.2.Id w.2.CustomerId) = false) →
      (ws.map (fun w => (w.2.Id, w.2.CustomerId))).Nodup →
      (∀ o ∈ (Service.run f S sched).2, o = none) →
      (Service.run f S sched).1.pg.db.instances = S.pg.db.instances ++ ws.map rowOf := by
  induction sched with
  | nil =>
    intro S ws hw _ _ _ _ _ _ _ _
    cases ws with
    | nil => simp [Service.run]
    | cons w ws => simp [writesOf] at hw
  | cons ev es ih =>
    intro S ws hw hsub h1 h2 hq h3 hnew hnd herr
    cases ev with
    | step j =>
      obtain ⟨e1, e2, e3, e4⟩ := Service.step_instances f S j H _ h1 h2 h3
      simp only [Service.run] at herr ⊢
      rw [ih (S.step f j) ws hw hsub e2 e3 (by rw [e4]; exact hq) (by rw [e1]; exact h3)
        (by rw [e1]; exact hnew) hnd herr, e1]
    | recv =>
      obtain ⟨e1, e2, e3, e4⟩ := Service.recv_spec S
      simp only [Service.run] at herr ⊢
      rw [ih S.recv ws hw hsub (e2.trans h1) ?_ (fun q h => hq q (e4 q h))
        (by rw [e1]; exact h3) (by rw [e1]; exact hnew) hnd herr, e1]
      intro k hk
      rcases e3 k hk with h | ⟨q, hq1, hq2⟩
      · exact h2 k h
      · rw [hq2]
        exact hq q hq1
    | write now entity =>
      cases ws with
      | nil => simp [writesOf] at hw
      | cons w ws =>
        simp only [writesOf, List.map_cons, List.cons.injEq, Prod.mk.injEq] at hw
        obtain ⟨⟨hnow, hent⟩, hrest⟩ := hw
        subst hnow hent
        rw [List.map_cons, List.nodup_cons] at hnd
        simp only [Service.run] at herr ⊢
        have hwall : w ∈ all := hsub w (List.mem_cons_self _ _)
        have herr0 : (PutEntity f w.1 S.pg.db (Entity.ofInstance w.2)).err = none :=
          herr _ (List.mem_cons_self _ _)
        obtain ⟨e1, e2, e3, e4⟩ := Service.write_spec f S w.1 (Entity.ofInstance w.2)
        have hinst : (S.write f w.1 (Entity.ofInstance w.2)).pg.db.instances =
            S.pg.db.instances ++ [rowOf w] := by
          rw [e1, PutEntity_instance_instances f w.1 S.pg.db w.2 herr0,
            hnew w (List.mem_cons_self _ _)]
          simp [rowOf]
        rw [ih (S.write f w.1 (Entity.ofInstance w.2)) ws hrest
          (fun x hx => hsub x (List.mem_cons_of_mem _ hx)) (e2.trans h1)
          (by rw [e3]; exact h2) ?_ ?_ ?_ hnd.2
          (fun o ho => herr o (List.mem_cons_of_mem _ ho)), hinst]
        · simp
        · intro k hk
          rcases e4 k hk with h | h
          · exact hq k h
          · rw [h]
            exact List.mem_map.mpr ⟨w, hwall, rfl⟩
        · intro r hr t ht
          rw [hinst] at hr
          rcases List.mem_append.mp hr with h | h
          · exact h3 r h t ht
          · simp only [List.mem_singleton] at h
            subst h
            obtain ⟨w1, hw1, rfl⟩ := List.mem_map.mp ht
            exact hF w1 hw1 w hwall
        · intro x hx
          rw [hinst, List.any_append, hnew x (List.mem_cons_of_mem _ hx)]
          have h2 : InstanceRow.hasKey x.2.Id x.2.CustomerId (rowOf w) = false := by
            by_contra hc
            have hc : InstanceRow.hasKey x.2.Id x.2.CustomerId (rowOf w) = true := by
              simpa using hc
            rw [instanceRow_hasKey_iff] at hc
            apply hnd.1
            rw [List.mem_map]
            refine ⟨x, hx, ?_⟩
            simp only [rowOf] at hc
            rw [hc.1, hc.2]
          simp [h2]

/-- With a delayed sweep the same writes can lose a row: along `exDelayed` the sweep
launched at second 130 against the old baseline has its cutoff at second 10 and deletes
`i1`, written at second 0; the listing returns `i2` and `i3`. -/
theorem delayed_sweep_deletes :
    (Service.run noFaults ⟨exPgFresh, [], []⟩ exDelayed).2 = [none, none, none] ∧
    (ListInstances noFaults (Service.run noFaults ⟨exPgFresh, [], []⟩ exDelayed).1.pg.db
      ⟨"a", "ec2", "", ""⟩).response =
      some [⟨"i2", "a", "ec2", "d2", 100 * Second⟩, ⟨"i3", "a", "ec2", "d3", 130 * Second⟩] := by
  decide

/-- C12 fails as stated, in two ways.  With the empty customer id the put succeeds and
`ListInstances` returns `ErrMissingCustomerId` and no list.  And with the service
running (interval 60, threshold 120), four instances of customer `a` are put
successfully at seconds 0, 30, 100 and 250 (schedule `exScenario`); the request of
second 250 launches a sweep that deletes what was written before second 130, and
`ListInstances` returns one instance, not four. -/
theorem C12_counterexample :
    ((Service.run noFaults ⟨exPgFresh, [], []⟩
        [Event.write 0 (Entity.ofInstance ⟨"i1", "", "ec2", "d1", []⟩)]).2 = [none] ∧
      (ListInstances noFaults (Service.run noFaults ⟨exPgFresh, [], []⟩
        [Event.write 0 (Entity.ofInstance ⟨"i1", "", "ec2", "d1", []⟩)]).1.pg.db
        ⟨"", "ec2", "", ""⟩).response = none ∧
      (ListInstances noFaults (Service.run noFaults ⟨exPgFresh, [], []⟩
        [Event.write 0 (Entity.ofInstance ⟨"i1", "", "ec2", "d1", []⟩)]).1.pg.db
        ⟨"", "ec2", "", ""⟩).err = some Err.ErrMissingCustomerId) ∧
    (exPgFresh.db.instances = [] ∧
      (Service.run noFaults ⟨exPgFresh, [], []⟩ exScenario).2 = [none, none, none, none] ∧
      (ListInstances noFaults (Service.run noFaults ⟨exPgFresh, [], []⟩ exScenario).1.pg.db
        ⟨"a", "ec2", "", ""⟩).response =
        some [⟨"i4", "a", "ec2", "d4", 250 * Second⟩]) := by
  decide

/-- C12 (amended): from a store with no instance rows, no request pending and no sweep
in flight, instances of one non-empty customer `c` and one type `T` with pairwise
distinct ids are put one after the other, every `PutEntity` returning nil; the loop body
of `Start` for each request sent and the three steps of each sweep goroutine are
interleaved with the puts in any way and with any delay.  Provided every one of the
instances is written no earlier than the cutoff that `expireEntities` computes for the
Unix second of any of the puts (that second minus `expireThreshold`, where the
computation does not overflow), `ListInstances` for `c` and `T` with no group id — its
statement executed by storage — returns a nil error and exactly one row for each
instance put, in the order of the puts, with the id and data that were put, customer `c`
and type `T`; so it returns as many rows as instances were put and none of another type
or customer. -/
theorem C12_list_after_puts (f : Faults) (pg : Postgres) (c T x : String)
    (ws : List (Int × Instance)) (sched : List Event)
    (hsched : writesOf sched = ws.map (fun w => (w.1, Entity.ofInstance w.2)))
    (hempty : pg.db.instances = []) (hc : c ≠ "")
    (hall : ∀ w ∈ ws, w.2.CustomerId = c ∧ w.2.Type_ = T)
    (hids : (ws.map (fun w => w.2.Id)).Nodup)
    (hok : ∀ o ∈ (Service.run f ⟨pg, [], []⟩ sched).2, o = none)
    (hfresh : ∀ w1 ∈ ws, ∀ w2 ∈ ws,
      ¬ writeTime w2.1 < expireCutoff pg.expireThreshold (w1.1 / Second))
    (hf : f (Service.run f ⟨pg, [], []⟩ sched).1.pg.db.statements = none) :
    (ListInstances f (Service.run f ⟨pg, [], []⟩ sched).1.pg.db ⟨c, T, "", x⟩).err = none ∧
    (ListInstances f (Service.run f ⟨pg, [], []⟩ sched).1.pg.db ⟨c, T, "", x⟩).response =
        some (ws.map (fun w => ⟨w.2.Id, c, T, w.2.Data, writeTime w.1⟩)) ∧
    (ws.map (fun w => (⟨w.2.Id, c, T, w.2.Data, writeTime w.1⟩ : InstanceRow))).length =
      ws.length := by
  have hkeys : (ws.map (fun w => (w.2.Id, w.2.CustomerId))).Nodup := by
    apply List.Nodup.of_map Prod.fst
    rw [List.map_map]
    exact hids
  have hinst := Service.run_instances f pg.expireThreshold ws hfresh sched ⟨pg, [], []⟩ ws hsched
    (fun w hw => hw) rfl (fun k hk => by cases hk) (fun q hq => by cases hq)
    (by show ∀ r ∈ pg.db.instances, _; rw [hempty]; intro r hr; cases hr)
    (fun w _ => by show pg.db.instances.any _ = false; rw [hempty]; rfl) hkeys hok
  have hinst2 : (Service.run f ⟨pg, [], []⟩ sched).1.pg.db.instances = ws.map rowOf := by
    rw [hinst]
    show pg.db.instances ++ _ = _
    rw [hempty, List.nil_append]
  have hrows : ws.map rowOf = ws.map (fun w => ⟨w.2.Id, c, T, w.2.Data, writeTime w.1⟩) := by
    apply List.map_congr_left
    intro w hw
    obtain ⟨h1, h2⟩ := hall w hw
    simp [rowOf, h1, h2]
  have hsel : selectInstances ⟨c, T, "", x⟩ (Service.run f ⟨pg, [], []⟩ sched).1.pg.db =
      ws.map (fun w => ⟨w.2.Id, c, T, w.2.Data, writeTime w.1⟩) := by
    unfold selectInstances
    rw [hinst2, hrows]
    by_cases hT : T = ""
    · simp only [hT, ne_eq, not_true_eq_false, if_false, if_true, List.filter_eq_self]
      intro a ha
      obtain ⟨w, _, rfl⟩ := List.mem_map.mp ha
      simp
    · simp only [hT, ne_eq, not_true_eq_false, if_false, List.filter_eq_self]
      intro a ha
      obtain ⟨w, _, rfl⟩ := List.mem_map.mp ha
      simp
  refine ⟨?_, ?_, by simp⟩
  · unfold ListInstances listInstances
    rw [if_neg hc, query_of_none f _ _ hf]
  · unfold ListInstances listInstances
    rw [if_neg hc, query_of_none f _ _ hf]
    simp only [hsel]
    rfl

/-- C12 (amended) at a concrete schedule: `i1`, `i2` and `i3` of customer `a`, type
`ec2`, are written at seconds 0, 30 and 100 with interval 60 and threshold 120; the
sweep launched at second 100 runs afterwards with its cutoff at second -20, and the
listing returns the three rows. -/
theorem C12_list_after_puts_witness :
    (ListInstances noFaults (Service.run noFaults ⟨exPgFresh, [], []⟩ exHarmless).1.pg.db
      ⟨"a", "ec2", "", ""⟩).response =
      some ([(0, ⟨"i1", "a", "ec2", "d1", []⟩), (30 * Second, ⟨"i2", "a", "ec2", "d2", []⟩),
          ((100 * Second : Int), (⟨"i3", "a", "ec2", "d3", []⟩ : Instance))].map
        (fun w => ⟨w.2.Id, "a", "ec2", w.2.Data, writeTime w.1⟩)) :=
  (C12_list_after_puts noFaults exPgFresh "a" "ec2" ""
    [(0, ⟨"i1", "a", "ec2", "d1", []⟩), (30 * Second, ⟨"i2", "a", "ec2", "d2", []⟩),
      (100 * Second, ⟨"i3", "a", "ec2", "d3", []⟩)] exHarmless
    (by decide) rfl (by decide) (by decide) (by decide) (by decide) (by decide) rfl).2.1

/-- The three steps of a goroutine, taken with nothing in between, are the goroutine
`sweepTask`. -/
theorem Service.step_three (f : Faults) (pg : Postgres) (req : expireReq) :
    Service.step f (Service.step f (Service.step f ⟨pg, [], [⟨req, 0⟩]⟩ 0) 0) 0 =
      ⟨sweepTask f pg req, [], []⟩ := by
  unfold sweepTask expireEntities
  rcases h1 : exec f pg.db (deleteGroupsStmt req.customerId
      (expireCutoff pg.expireThreshold req.timestamp)) with ⟨o1, db1⟩
  cases o1 with
  | some e => simp [Service.step, h1]
  | none =>
    rcases h2 : exec f db1 (deleteInstancesStmt req.customerId
        (expireCutoff pg.expireThreshold req.timestamp)) with ⟨o2, db2⟩
    cases o2 with
    | some e => simp [Service.step, h1, h2]
    | none => simp [Service.step, h1, h2]

end store
